import Mathlib

/-!
ThermoCore: the counter-current heat-exchanger solver

A shallow embedding of `numerical_solver.cpp` and of the closed-form
collaborators it calls (`heat_exchanger_geometry.cpp`,
`dimensionless_numbers.cpp`, `heat_transfer_correlations.cpp`,
`thermal_calculations.cpp`).

Modelling conventions.

* `double` is an arbitrary carrier `α` with the operations the source uses
  (`+ - * /`, unary minus, `<`, decimal literals, conversion from `int`).
  No law is assumed about them in the definitions, so every theorem stated for
  an arbitrary `α` holds whatever the arithmetic does (rounding included).
  Theorems that speak about the *size* of numbers are stated over a linearly
  ordered field, the exact-arithmetic reading of the source.
* `int` is `Int`; loop counters that the source keeps inside `0..N` are `Nat`.
* `std::vector<double>` is `List α`; `v[i]` is `v.getD i 0.0` and `v[i] = x`
  is `v.set i x` (all accesses of a run that starts are in bounds).
* `<cmath>` (`pow`, `log`, `sqrt`, `exp`) is not part of the repository and is
  a parameter, `CMath α`.
* `std::cout` is the list of lines written, `ConsoleLine`.
-/

namespace ThermoCore

/-! ## Data model (`fluid_properties.h`, `numerical_solver.h`) -/

/-- Fluid stream data: `struct FluidProperties`. -/
structure FluidProperties (α : Type) where
  inlet_temp : α
  outlet_temp : α
  mass_flow : α
  specific_heat : α
  density : α
  thermal_cond : α
  viscosity : α
  prandtl : α

/-- Exchanger geometry: `struct GeometryProperties`. -/
structure GeometryProperties (α : Type) where
  length : α
  shell_diameter : α
  tube_diameter : α
  tube_thickness : α
  num_tubes : Int
  wall_thermal_cond : α

/-- Result record: `struct NumericalSolver::SolutionResults`, field for field. -/
structure SolutionResults (α : Type) where
  hot_temperatures : List α
  cold_temperatures : List α
  positions : List α
  overall_htc : α
  hot_reynolds : α
  cold_reynolds : α
  hot_nusselt : α
  cold_nusselt : α
  hot_htc : α
  cold_htc : α

/-- Private members of `class NumericalSolver`, set by its constructor. -/
structure NumericalSolver (α : Type) where
  num_segments : Int
  geometry : GeometryProperties α
  hot_fluid : FluidProperties α
  cold_fluid : FluidProperties α

/-- The functions of `<cmath>` the sources call on doubles. -/
structure CMath (α : Type) where
  pow : α → α → α
  log : α → α
  sqrt : α → α
  exp : α → α

/-- A line written to `std::cout` by the solver loop:
`converged k` is "Converged after k iterations", `max_iterations_warning` is
"Warning: Maximum iterations reached. Solution may not be fully converged." -/
inductive ConsoleLine where
  | converged (iterations : Nat)
  | max_iterations_warning
  deriving DecidableEq, Repr

/-- What stops `solveTemperatureDistribution` before it returns: the
exception `std::vector::resize` throws for a size above `max_size()` (a
negative `num_segments + 1` converted to `size_t`), and the write to element 0
of an empty vector (`num_segments = -1`). -/
inductive SolverFault where
  | length_error
  | out_of_range_write
  deriving DecidableEq, Repr

section Embedding

variable {α : Type} [Add α] [Sub α] [Mul α] [Div α] [Neg α] [OfScientific α] [IntCast α]
  [LT α] [∀ a b : α, Decidable (a < b)]

/-! ## Standard-library helpers -/

/-- The constant `M_PI` as `heat_exchanger_geometry.cpp` defines it. -/
def M_PI : α := 3.14159265358979323846

/-- Two-argument `std::max`: `(a < b) ? b : a`. -/
def stdMax (a b : α) : α := if a < b then b else a

/-- Two-argument `std::min`: `(b < a) ? b : a`. -/
def stdMin (a b : α) : α := if b < a then b else a

/-- Magnitude `std::abs` on doubles. -/
def stdAbs (x : α) : α := if x < 0.0 then -x else x

/-- The largest value of the type `int`, `2^31 - 1`. -/
def INT_MAX : Int := 2147483647

/-- The smallest value of the type `int`, `-2^31`. -/
def INT_MIN : Int := -2147483648

/-! ## Collaborators called by the solver -/

/-- `HeatExchangerGeometry::tubeArea`. -/
def tubeArea (m : CMath α) (diameter : α) : α :=
  M_PI * m.pow (diameter / 2.0) ((2 : Int) : α)

/-- `HeatExchangerGeometry::shellFlowArea`. -/
def shellFlowArea (m : CMath α) (shell_diameter tube_outer_diameter : α) (num_tubes : Int) : α :=
  let shell_area := M_PI * m.pow (shell_diameter / 2.0) ((2 : Int) : α)
  let tubes_area := (num_tubes : α) * M_PI * m.pow (tube_outer_diameter / 2.0) ((2 : Int) : α)
  shell_area - tubes_area

/-- `HeatExchangerGeometry::totalTubeArea`. -/
def totalTubeArea (tube_diameter length : α) (num_tubes : Int) : α :=
  M_PI * tube_diameter * length * (num_tubes : α)

/-- `DimensionlessNumbers::calculateReynolds`. -/
def calculateReynolds (velocity diameter density viscosity : α) : α :=
  (density * velocity * diameter) / viscosity

/-- `HeatTransferCorrelations::dittusBoelter`. -/
def dittusBoelter (m : CMath α) (reynolds prandtl : α) (heating : Bool) : α :=
  if reynolds < ((2300 : Int) : α) then 0.0
  else
    let n : α := if heating then 0.4 else 0.3
    0.023 * m.pow reynolds 0.8 * m.pow prandtl n

/-- `HeatTransferCorrelations::gnielinski`. -/
def gnielinski (m : CMath α) (reynolds prandtl : α) : α :=
  if reynolds < ((2300 : Int) : α) ∨ (5e6 : α) < reynolds then 0.0
  else
    let f := m.pow (0.79 * m.log reynolds - 1.64) ((-2 : Int) : α)
    let numerator := (f / 8.0) * (reynolds - 1000.0) * prandtl
    let denominator := 1.0 + 12.7 * m.sqrt (f / 8.0) * (m.pow prandtl (2.0 / 3.0) - 1.0)
    numerator / denominator

/-- `HeatTransferCorrelations::laminarTubeConstantWallTemp` (default argument
`graetz = 0.0`). -/
def laminarTubeConstantWallTemp (m : CMath α) (graetz : α) : α :=
  if ((100 : Int) : α) < graetz then 1.86 * m.pow graetz (1.0 / 3.0) else 3.66

/-- `HeatTransferCorrelations::shellSideTubeBundles`. -/
def shellSideTubeBundles (m : CMath α) (reynolds prandtl : α) (tube_arrangement : Int) : α :=
  if reynolds < ((2000 : Int) : α) then
    0.664 * m.sqrt reynolds * m.pow prandtl (1.0 / 3.0)
  else if tube_arrangement = 0 then
    0.27 * m.pow reynolds 0.63 * m.pow prandtl 0.36
  else
    0.36 * m.pow reynolds 0.55 * m.pow prandtl 0.36

/-- `HeatTransferCorrelations::getTubeSideNusselt`. -/
def getTubeSideNusselt (m : CMath α) (reynolds prandtl : α) (heating : Bool) : α :=
  if ((10000 : Int) : α) < reynolds ∧ ((0 : Int) : α) < gnielinski m reynolds prandtl then
    gnielinski m reynolds prandtl
  else if ((2300 : Int) : α) < reynolds then
    dittusBoelter m reynolds prandtl heating
  else
    laminarTubeConstantWallTemp m 0.0

/-- `HeatTransferCorrelations::getShellSideNusselt` (default argument
`tube_arrangement = 1`). -/
def getShellSideNusselt (m : CMath α) (reynolds prandtl : α) (tube_arrangement : Int) : α :=
  shellSideTubeBundles m reynolds prandtl tube_arrangement

/-- `ThermalCalculations::overallHTC`. -/
def overallHTC (m : CMath α) (h_inner h_outer inner_radius outer_radius
    wall_thermal_conductivity : α) : α :=
  let U_inv := (1.0 / h_inner)
    + (inner_radius * m.log (outer_radius / inner_radius) / wall_thermal_conductivity)
    + (inner_radius / (h_outer * outer_radius))
  1.0 / U_inv

/-! ## The solver (`numerical_solver.cpp`) -/

/-- Quantities fixed before the iteration loop starts and read by its body. -/
structure LoopConsts (α : Type) where
  num_segments : Nat
  UA_segment : α
  C_hot : α
  C_cold : α
  hot_inlet : α
  cold_inlet : α

/-- Body of the hot sweep, lines 104-116, at loop index `i`. -/
def hotSweepBody (c : LoopConsts α) (cold_temperatures hot_temperatures : List α) (i : Nat) :
    List α :=
  let cold_index := c.num_segments - i
  let hot_temp_in := hot_temperatures.getD (i - 1) 0.0
  let cold_temp_local :=
    (cold_temperatures.getD cold_index 0.0 + cold_temperatures.getD (cold_index + 1) 0.0) / 2.0
  let dT := hot_temp_in - cold_temp_local
  let heat_transfer := c.UA_segment * dT
  hot_temperatures.set i (hot_temp_in - heat_transfer / c.C_hot)

/-- Hot sweep: `for (int i = 1; i <= num_segments; ++i)`. -/
def hotSweep (c : LoopConsts α) (cold_temperatures hot_temperatures : List α) : List α :=
  (List.range' 1 c.num_segments).foldl (hotSweepBody c cold_temperatures) hot_temperatures

/-- Body of the cold sweep, lines 119-131, at loop index `i`. -/
def coldSweepBody (c : LoopConsts α) (hot_temperatures cold_temperatures : List α) (i : Nat) :
    List α :=
  let hot_index := c.num_segments - i
  let cold_temp_in := cold_temperatures.getD (i + 1) 0.0
  let hot_temp_local :=
    (hot_temperatures.getD (hot_index - 1) 0.0 + hot_temperatures.getD hot_index 0.0) / 2.0
  let dT := hot_temp_local - cold_temp_in
  let heat_transfer := c.UA_segment * dT
  cold_temperatures.set i (cold_temp_in + heat_transfer / c.C_cold)

/-- Cold sweep: `for (int i = num_segments - 1; i >= 0; --i)`. -/
def coldSweep (c : LoopConsts α) (hot_temperatures cold_temperatures : List α) : List α :=
  (List.range c.num_segments).reverse.foldl (coldSweepBody c hot_temperatures) cold_temperatures

/-- Boundary assignments of lines 134-135 and again 147-148. -/
def enforceBoundary (c : LoopConsts α) (t : List α × List α) : List α × List α :=
  (t.1.set 0 c.hot_inlet, t.2.set c.num_segments c.cold_inlet)

/-- Body of the relaxation loop, lines 139-144, at loop index `i`. -/
def relaxBody (hot_old cold_old : List α) (t : List α × List α) (i : Nat) : List α × List α :=
  let relaxation_factor : α := 0.5
  (t.1.set i (relaxation_factor * t.1.getD i 0.0 + (1.0 - relaxation_factor) * hot_old.getD i 0.0),
   t.2.set i (relaxation_factor * t.2.getD i 0.0 + (1.0 - relaxation_factor) * cold_old.getD i 0.0))

/-- Relaxation loop: `for (int i = 0; i <= num_segments; ++i)`. -/
def relax (c : LoopConsts α) (hot_old cold_old : List α) (t : List α × List α) :
    List α × List α :=
  (List.range (c.num_segments + 1)).foldl (relaxBody hot_old cold_old) t

/-- Body of the convergence loop, lines 152-155, at loop index `i`. -/
def maxChangeBody (hot_old cold_old hot cold : List α) (max_change : α) (i : Nat) : α :=
  stdMax (stdMax max_change (stdAbs (hot.getD i 0.0 - hot_old.getD i 0.0)))
    (stdAbs (cold.getD i 0.0 - cold_old.getD i 0.0))

/-- The value of `max_change` when the convergence loop ends. -/
def maxChange (c : LoopConsts α) (hot_old cold_old hot cold : List α) : α :=
  (List.range (c.num_segments + 1)).foldl (maxChangeBody hot_old cold_old hot cold) 0.0

/-- Temperatures at the end of one pass through the loop body (lines 100-148),
from the temperatures `old` at its start. -/
def iterationBody (c : LoopConsts α) (old : List α × List α) : List α × List α :=
  let hot := hotSweep c old.2 old.1
  let cold := coldSweep c hot old.2
  enforceBoundary c (relax c old.1 old.2 (enforceBoundary c (hot, cold)))

/-- State of the iteration loop: the two temperature vectors, how many times
the body has run, and what has been written to `std::cout`. -/
structure LoopState (α : Type) where
  hot_temperatures : List α
  cold_temperatures : List α
  iterations : Nat
  console : List ConsoleLine

/-- The loop `for (int iter = 0; iter < max_iterations; ++iter)` of lines
99-165, entered at counter value `iter` with `fuel = max_iterations - iter`
passes left. -/
def iterationLoop (c : LoopConsts α) (max_iterations : Nat) (tolerance : α) :
    Nat → Nat → LoopState α → LoopState α
  | 0, _, s => s
  | fuel + 1, iter, s =>
    let old := (s.hot_temperatures, s.cold_temperatures)
    let new := iterationBody c old
    let max_change := maxChange c old.1 old.2 new.1 new.2
    if max_change < tolerance then
      { hot_temperatures := new.1, cold_temperatures := new.2, iterations := s.iterations + 1,
        console := s.console ++ [ConsoleLine.converged (iter + 1)] }
    else
      iterationLoop c max_iterations tolerance fuel (iter + 1)
        { hot_temperatures := new.1, cold_temperatures := new.2, iterations := s.iterations + 1,
          console :=
            if iter = max_iterations - 1 then
              s.console ++ [ConsoleLine.max_iterations_warning]
            else s.console }

/-- Loop constant `max_iterations`, line 78. -/
def max_iterations : Nat := 1000

/-- Loop constant `tolerance`, line 79. -/
def tolerance : α := 1e-6

/-- Loop of lines 33-35 filling `positions`. -/
def fillPositions (num_segments : Nat) (dx : α) (positions : List α) : List α :=
  (List.range (num_segments + 1)).foldl
    (fun p i => p.set i (((i : Int) : α) * dx)) positions

/-- Body of the initial-guess loop, lines 82-89, at loop index `i`. -/
def initialGuessBody (num_segments : Int) (hot cold : FluidProperties α)
    (t : List α × List α) (i : Nat) : List α × List α :=
  let r : α := ((i : Int) : α) / (num_segments : α)
  (t.1.set i (hot.inlet_temp - r * (hot.inlet_temp - hot.outlet_temp)),
   t.2.set i (cold.outlet_temp + r * (cold.inlet_temp - cold.outlet_temp)))

/-- Initial-guess loop: `for (int i = 0; i <= num_segments; ++i)`. -/
def initialGuess (num_segments : Int) (hot cold : FluidProperties α) (t : List α × List α) :
    List α × List α :=
  (List.range (num_segments.toNat + 1)).foldl (initialGuessBody num_segments hot cold) t

/-- The scalar results of the setup phase, lines 37-71, stored in a record
whose three vectors are still empty. -/
def setupScalars (m : CMath α) (s : NumericalSolver α) : SolutionResults α :=
  let geometry := s.geometry
  let hot_fluid := s.hot_fluid
  let cold_fluid := s.cold_fluid
  let tube_flow_area := tubeArea m geometry.tube_diameter * (geometry.num_tubes : α)
  let shell_flow_area := shellFlowArea m geometry.shell_diameter
    (geometry.tube_diameter + ((2 : Int) : α) * geometry.tube_thickness) geometry.num_tubes
  let cold_velocity := cold_fluid.mass_flow / (cold_fluid.density * tube_flow_area)
  let hot_velocity := hot_fluid.mass_flow / (hot_fluid.density * shell_flow_area)
  let cold_reynolds := calculateReynolds cold_velocity geometry.tube_diameter
    cold_fluid.density cold_fluid.viscosity
  let hot_reynolds := calculateReynolds hot_velocity geometry.shell_diameter
    hot_fluid.density hot_fluid.viscosity
  let cold_nusselt := getTubeSideNusselt m cold_reynolds cold_fluid.prandtl true
  let hot_nusselt := getShellSideNusselt m hot_reynolds hot_fluid.prandtl 1
  let cold_htc := cold_nusselt * cold_fluid.thermal_cond / geometry.tube_diameter
  let hot_htc := hot_nusselt * hot_fluid.thermal_cond / geometry.shell_diameter
  let inner_radius := geometry.tube_diameter / 2.0
  let outer_radius := inner_radius + geometry.tube_thickness
  { hot_temperatures := [], cold_temperatures := [], positions := [],
    overall_htc := overallHTC m cold_htc hot_htc inner_radius outer_radius
      geometry.wall_thermal_cond,
    hot_reynolds := hot_reynolds, cold_reynolds := cold_reynolds,
    hot_nusselt := hot_nusselt, cold_nusselt := cold_nusselt,
    hot_htc := hot_htc, cold_htc := cold_htc }

/-- The constants the loop body reads, lines 62-63, 74-75 and 92-93. -/
def loopConsts (m : CMath α) (s : NumericalSolver α) : LoopConsts α :=
  let inner_surface_area := totalTubeArea s.geometry.tube_diameter s.geometry.length
    s.geometry.num_tubes
  let segment_area := inner_surface_area / (s.num_segments : α)
  { num_segments := s.num_segments.toNat,
    UA_segment := (setupScalars m s).overall_htc * segment_area,
    C_hot := s.hot_fluid.mass_flow * s.hot_fluid.specific_heat,
    C_cold := s.cold_fluid.mass_flow * s.cold_fluid.specific_heat,
    hot_inlet := s.hot_fluid.inlet_temp,
    cold_inlet := s.cold_fluid.inlet_temp }

/-- The temperature vectors when the iteration loop is entered: sized by
`resize` (lines 21-22), boundary values written (lines 29-30), then overwritten
by the initial guess (lines 82-89). -/
def initialTemperatures (s : NumericalSolver α) : List α × List α :=
  let n := s.num_segments.toNat
  let hot := (List.replicate (n + 1) (0.0 : α)).set 0 s.hot_fluid.inlet_temp
  let cold := (List.replicate (n + 1) (0.0 : α)).set n s.cold_fluid.inlet_temp
  initialGuess s.num_segments s.hot_fluid s.cold_fluid (hot, cold)

/-- The loop state when `solveTemperatureDistribution` leaves its loop. -/
def finalLoopState (m : CMath α) (s : NumericalSolver α) : LoopState α :=
  let t := initialTemperatures s
  iterationLoop (loopConsts m s) max_iterations tolerance max_iterations 0
    { hot_temperatures := t.1, cold_temperatures := t.2, iterations := 0, console := [] }

/-- A finished call: the record returned, the number of passes through the
loop body, and the lines written to `std::cout`. -/
structure SolveRun (α : Type) where
  results : SolutionResults α
  iterations : Nat
  console : List ConsoleLine

/-- One call of `NumericalSolver::solveTemperatureDistribution`, with its
console output. The sum `num_segments + 1` passed to `resize` is an `int`: at
`num_segments = INT_MAX` it leaves the range of `int`, the wrapped value is
negative, and `resize` throws its length error as it does for a negative
sum. -/
def solveRun (m : CMath α) (s : NumericalSolver α) : Except SolverFault (SolveRun α) :=
  if INT_MAX < s.num_segments + 1 then Except.error SolverFault.length_error
  else if s.num_segments + 1 < 0 then Except.error SolverFault.length_error
  else if s.num_segments + 1 = 0 then Except.error SolverFault.out_of_range_write
  else
    let n := s.num_segments.toNat
    let dx := s.geometry.length / (s.num_segments : α)
    let fin := finalLoopState m s
    Except.ok
      { results :=
          { setupScalars m s with
            hot_temperatures := fin.hot_temperatures,
            cold_temperatures := fin.cold_temperatures,
            positions := fillPositions n dx (List.replicate (n + 1) (0.0 : α)) },
        iterations := fin.iterations,
        console := fin.console }

/-- The value `NumericalSolver::solveTemperatureDistribution` returns. -/
def solveTemperatureDistribution (m : CMath α) (s : NumericalSolver α) :
    Except SolverFault (SolutionResults α) :=
  (solveRun m s).map (fun r => r.results)

/-! ## Quantities the statements below speak about -/

/-- The hot vector after the passes `i = 1 .. k` of the hot sweep. -/
def hotSweepUpTo (c : LoopConsts α) (cold hot : List α) (k : Nat) : List α :=
  (List.range' 1 k).foldl (hotSweepBody c cold) hot

/-- The update formula of the hot sweep, as a function of the value read at
`i - 1` and of the two cold values read. -/
def hotUpdate (c : LoopConsts α) (cold : List α) (hot_temp_in : α) (i : Nat) : α :=
  hot_temp_in
    - c.UA_segment
        * (hot_temp_in
            - (cold.getD (c.num_segments - i) 0.0 + cold.getD (c.num_segments - i + 1) 0.0) / 2.0)
      / c.C_hot

/-- The cold vector after the passes `i = s + k - 1, .., s` of the cold sweep,
in this (descending) order. -/
def coldSweepFrom (c : LoopConsts α) (hot cold : List α) (s k : Nat) : List α :=
  (List.range' s k).foldr (fun i t => coldSweepBody c hot t i) cold

/-- The update formula of the cold sweep, as a function of the value read at
`i + 1` and of the two hot values read. -/
def coldUpdate (c : LoopConsts α) (hot : List α) (cold_temp_in : α) (i : Nat) : α :=
  cold_temp_in
    + c.UA_segment
        * ((hot.getD (c.num_segments - i - 1) 0.0 + hot.getD (c.num_segments - i) 0.0) / 2.0
            - cold_temp_in)
      / c.C_cold

/-- The state after the passes `i = 0 .. k - 1` of the relaxation loop. -/
def relaxUpTo (hot_old cold_old : List α) (t : List α × List α) (k : Nat) : List α × List α :=
  (List.range k).foldl (relaxBody hot_old cold_old) t

/-- The temperatures after `k` passes through the loop body, none of them
cut short, from the temperatures `t`. -/
def stateAfter (c : LoopConsts α) (t : List α × List α) (k : Nat) : List α × List α :=
  (iterationBody c)^[k] t

/-- The value `max_change` takes in pass `k` (counted from 1) of a loop that
starts from the temperatures `t` and is not cut short before that pass. -/
def changeAt (c : LoopConsts α) (t : List α × List α) (k : Nat) : α :=
  maxChange c (stateAfter c t (k - 1)).1 (stateAfter c t (k - 1)).2
    (stateAfter c t k).1 (stateAfter c t k).2

/-- The value `max_change` takes in pass `k` of the call on `s`. -/
def solveChange (m : CMath α) (s : NumericalSolver α) (k : Nat) : α :=
  changeAt (loopConsts m s) (initialTemperatures s) k

/-- The temperatures after `k` uninterrupted passes of the call on `s`. -/
def solveState (m : CMath α) (s : NumericalSolver α) (k : Nat) : List α × List α :=
  stateAfter (loopConsts m s) (initialTemperatures s) k

/-- The temperatures right after the relaxation loop of a pass (line 144),
before the boundary assignments of lines 147-148 are made again. -/
def relaxedState (c : LoopConsts α) (old : List α × List α) : List α × List α :=
  relax c old.1 old.2
    (enforceBoundary c (hotSweep c old.2 old.1, coldSweep c (hotSweep c old.2 old.1) old.2))

/-- A profile of the right size that one pass through the loop body leaves
unchanged: the limit the iteration converges to, when it converges. -/
def IsFixedPoint (c : LoopConsts α) (t : List α × List α) : Prop :=
  t.1.length = c.num_segments + 1 ∧ t.2.length = c.num_segments + 1 ∧ iterationBody c t = t

/-! ## Further collaborators and the convergence study -/

/-- `HeatTransferCorrelations::siederTate`. -/
def siederTate (m : CMath α) (reynolds prandtl viscosity_ratio : α) : α :=
  if reynolds < ((2300 : Int) : α) then 0.0
  else
    0.027 * m.pow reynolds 0.8 * m.pow prandtl (1.0 / 3.0) * m.pow viscosity_ratio 0.14

/-- The call `getShellSideNusselt(reynolds, prandtl)` that leaves the
arrangement to its default, `tube_arrangement = 1` in the header; this is the
call the solver makes. -/
def getShellSideNusseltDefault (m : CMath α) (reynolds prandtl : α) : α :=
  getShellSideNusselt m reynolds prandtl 1

/-- `HeatExchangerGeometry::tubeVelocity`. -/
def tubeVelocity (m : CMath α) (mass_flow density tube_diameter : α) (num_tubes : Int) : α :=
  let total_area := (num_tubes : α) * tubeArea m tube_diameter
  mass_flow / (density * total_area)

/-- `HeatExchangerGeometry::shellVelocity`. -/
def shellVelocity (m : CMath α) (mass_flow density shell_diameter tube_outer_diameter : α)
    (num_tubes : Int) : α :=
  let flow_area := shellFlowArea m shell_diameter tube_outer_diameter num_tubes
  mass_flow / (density * flow_area)

/-- One row of the convergence study, as written to the console and to
`convergence_study.csv`: segment count, hot outlet, cold outlet, overall
coefficient. -/
structure StudyRow (α : Type) where
  segments : Int
  hot_outlet : α
  cold_outlet : α
  overall_htc : α

/-- What stops the convergence study before its loop condition fails: a solve
that throws or writes out of range, or the addition `segments += step` leaving
the range of `int`, after which the behaviour of the program is undefined. -/
inductive StudyFault where
  | solve_fault (e : SolverFault)
  | counter_overflow
  deriving DecidableEq, Repr

/-- The rows the study has written, in the order written, and how its loop
ended: `none` when the loop condition failed and the function returned. -/
structure StudyRun (α : Type) where
  rows : List (StudyRow α)
  ending : Option StudyFault

/-- The loop `for (int segments = min_segments; segments <= max_segments;
segments += step)` of `convergenceStudy`, lines 179-195, entered at the counter
value `segments` with at most `fuel` passes allowed. The result is `none` when
the passes allowed do not suffice. -/
def convergenceStudyLoop (m : CMath α) (solver : NumericalSolver α) (max_segments step : Int) :
    Nat → Int → Option (StudyRun α)
  | 0, segments =>
    if segments ≤ max_segments then none else some { rows := [], ending := none }
  | fuel + 1, segments =>
    if segments ≤ max_segments then
      match solveTemperatureDistribution m
          { num_segments := segments, geometry := solver.geometry,
            hot_fluid := solver.hot_fluid, cold_fluid := solver.cold_fluid } with
      | Except.error e => some { rows := [], ending := some (StudyFault.solve_fault e) }
      | Except.ok temp_results =>
        let row : StudyRow α :=
          { segments := segments,
            hot_outlet := temp_results.hot_temperatures.getD segments.toNat 0.0,
            cold_outlet := temp_results.cold_temperatures.getD 0 0.0,
            overall_htc := temp_results.overall_htc }
        if segments + step < INT_MIN ∨ INT_MAX < segments + step then
          some { rows := [row], ending := some StudyFault.counter_overflow }
        else
          match convergenceStudyLoop m solver max_segments step fuel (segments + step) with
          | none => none
          | some rest => some { rows := row :: rest.rows, ending := rest.ending }
    else some { rows := [], ending := none }

/-- `NumericalSolver::convergenceStudy`: the rows it writes and how its loop
ends, with at most `fuel` passes of the loop allowed. -/
def convergenceStudy (m : CMath α) (solver : NumericalSolver α)
    (min_segments max_segments step : Int) (fuel : Nat) : Option (StudyRun α) :=
  convergenceStudyLoop m solver max_segments step fuel min_segments

/-- One data row of the temperature profile file, `temperature_profile.csv`
by default: the five values streamed to the file on lines 214-218, before they
are formatted. -/
structure ProfileRow (α : Type) where
  position_m : α
  hot_temp_K : α
  hot_temp_C : α
  cold_temp_K : α
  cold_temp_C : α

/-- Body of the loop of `writeResultsToFile`, lines 212-219, at loop index
`i`: the row it appends to the file. -/
def writeResultsBody (num_segments : Int) (results : SolutionResults α)
    (rows : List (ProfileRow α)) (i : Nat) : List (ProfileRow α) :=
  let cold_index := num_segments - (i : Int)
  rows ++
    [{ position_m := results.positions.getD i 0.0,
       hot_temp_K := results.hot_temperatures.getD i 0.0,
       hot_temp_C := results.hot_temperatures.getD i 0.0 - 273.15,
       cold_temp_K := results.cold_temperatures.getD cold_index.toNat 0.0,
       cold_temp_C := results.cold_temperatures.getD cold_index.toNat 0.0 - 273.15 }]

/-- `NumericalSolver::writeResultsToFile`: the data rows written to the
profile file after its header line, by the loop
`for (int i = 0; i <= num_segments; ++i)`; `none` when the file cannot be
opened, in which case the function returns after its error line. -/
def writeResultsToFile (num_segments : Int) (results : SolutionResults α)
    (file_is_open : Bool) : Option (List (ProfileRow α)) :=
  if file_is_open then
    some ((List.range (num_segments + 1).toNat).foldl (writeResultsBody num_segments results) [])
  else none

end Embedding

/-! ## Log-mean temperature difference (`thermal_calculations.cpp`) -/

/-- The return statement of `LMTD_counterCurrent` a call ends at: the fallback
of line 30 (after the two warning lines on `std::cerr`), the early return of
line 35, or the logarithmic formula of line 38, the only one that calls
`std::log` and divides by its result. -/
inductive LMTDReturn where
  | fallback
  | near_equal
  | logarithmic
  deriving DecidableEq, Repr

section Thermal

variable {α : Type} [Add α] [Sub α] [Div α] [Neg α] [OfScientific α] [IntCast α]
  [LT α] [LE α] [∀ a b : α, Decidable (a < b)] [∀ a b : α, Decidable (a ≤ b)]

/-- `ThermalCalculations::LMTD_counterCurrent`, with the return statement
reached next to the value returned. -/
def LMTD_counterCurrent_traced (m : CMath α) (hot_inlet hot_outlet cold_inlet cold_outlet : α) :
    α × LMTDReturn :=
  let dT1 := hot_inlet - cold_outlet
  let dT2 := hot_outlet - cold_inlet
  if dT1 ≤ ((0 : Int) : α) ∨ dT2 ≤ ((0 : Int) : α) then
    (stdAbs ((dT1 + dT2) / 2.0), LMTDReturn.fallback)
  else if stdAbs (dT1 - dT2) < 1e-6 then
    (dT1, LMTDReturn.near_equal)
  else
    ((dT1 - dT2) / m.log (dT1 / dT2), LMTDReturn.logarithmic)

/-- The value `ThermalCalculations::LMTD_counterCurrent` returns. -/
def LMTD_counterCurrent (m : CMath α) (hot_inlet hot_outlet cold_inlet cold_outlet : α) : α :=
  (LMTD_counterCurrent_traced m hot_inlet hot_outlet cold_inlet cold_outlet).1

end Thermal

section Effectiveness

variable {α : Type} [Add α] [Sub α] [Mul α] [Div α] [Neg α] [OfScientific α]
  [LT α] [∀ a b : α, Decidable (a < b)]

/-- `ThermalCalculations::effectiveness_NTU`. The `default:` label of the
switch calls the function again with `flow_arrangement = 0`. -/
def effectiveness_NTU (m : CMath α) (NTU C_ratio : α) (flow_arrangement : Int) : α :=
  if C_ratio < 1e-6 then
    1.0 - m.exp (-NTU)
  else if h0 : flow_arrangement = 0 then
    if stdAbs (C_ratio - 1.0) < 1e-6 then
      NTU / (1.0 + NTU)
    else
      let exp_term := m.exp ((-NTU) * (1.0 - C_ratio))
      (1.0 - exp_term) / (1.0 - C_ratio * exp_term)
  else if flow_arrangement = 1 then
    (1.0 - m.exp ((-NTU) * (1.0 + C_ratio))) / (1.0 + C_ratio)
  else if flow_arrangement = 2 then
    1.0 - m.exp ((1.0 / C_ratio) * m.pow NTU 0.22
      * (m.exp ((-C_ratio) * m.pow NTU 0.78) - 1.0))
  else
    effectiveness_NTU m NTU C_ratio 0
termination_by (if flow_arrangement = 0 then 0 else 1 : Nat)
decreasing_by simp [h0]

end Effectiveness

/-! ## The type `double` -/

/-- A value of the C++ type `double`, IEEE-754 binary64. A finite value is
`(-1)^sign * mant * 2^(expt - 1074)` with `mant < 2^53`, and `2^52 <= mant`
unless `expt = 0` (the subnormal numbers and the two zeros); the largest
`expt` is 2045. -/
inductive F64 where
  | finite (sign : Bool) (mant : Nat) (expt : Nat)
  | inf (sign : Bool)
  | nan
  deriving DecidableEq, Repr

namespace F64

/-- Last step of `log2Floor`: `acc + 1` when `2 <= n`, else `acc`. -/
def log2Floor1 (n acc : Nat) : Nat :=
  bif Nat.ble 2 n then acc + 1 else acc

/-- Step of `log2Floor` that strips the factor `2^2`. -/
def log2Floor2 (n acc : Nat) : Nat :=
  bif Nat.ble (2 ^ 2) n then log2Floor1 (n / 2 ^ 2) (acc + 2) else log2Floor1 n acc

/-- Step of `log2Floor` that strips the factor `2^4`. -/
def log2Floor4 (n acc : Nat) : Nat :=
  bif Nat.ble (2 ^ 4) n then log2Floor2 (n / 2 ^ 4) (acc + 4) else log2Floor2 n acc

/-- Step of `log2Floor` that strips the factor `2^8`. -/
def log2Floor8 (n acc : Nat) : Nat :=
  bif Nat.ble (2 ^ 8) n then log2Floor4 (n / 2 ^ 8) (acc + 8) else log2Floor4 n acc

/-- Step of `log2Floor` that strips the factor `2^16`. -/
def log2Floor16 (n acc : Nat) : Nat :=
  bif Nat.ble (2 ^ 16) n then log2Floor8 (n / 2 ^ 16) (acc + 16) else log2Floor8 n acc

/-- Step of `log2Floor` that strips the factor `2^32`. -/
def log2Floor32 (n acc : Nat) : Nat :=
  bif Nat.ble (2 ^ 32) n then log2Floor16 (n / 2 ^ 32) (acc + 32) else log2Floor16 n acc

/-- Step of `log2Floor` that strips the factor `2^64`. -/
def log2Floor64 (n acc : Nat) : Nat :=
  bif Nat.ble (2 ^ 64) n then log2Floor32 (n / 2 ^ 64) (acc + 64) else log2Floor32 n acc

/-- Step of `log2Floor` that strips the factor `2^128`. -/
def log2Floor128 (n acc : Nat) : Nat :=
  bif Nat.ble (2 ^ 128) n then log2Floor64 (n / 2 ^ 128) (acc + 128) else log2Floor64 n acc

/-- Step of `log2Floor` that strips the factor `2^256`. -/
def log2Floor256 (n acc : Nat) : Nat :=
  bif Nat.ble (2 ^ 256) n then log2Floor128 (n / 2 ^ 256) (acc + 256) else log2Floor128 n acc

/-- Step of `log2Floor` that strips the factor `2^512`. -/
def log2Floor512 (n acc : Nat) : Nat :=
  bif Nat.ble (2 ^ 512) n then log2Floor256 (n / 2 ^ 512) (acc + 512) else log2Floor256 n acc

/-- Step of `log2Floor` that strips the factor `2^1024`. -/
def log2Floor1024 (n acc : Nat) : Nat :=
  bif Nat.ble (2 ^ 1024) n then log2Floor512 (n / 2 ^ 1024) (acc + 1024) else log2Floor512 n acc

/-- Step of `log2Floor` that strips the factor `2^2048`. -/
def log2Floor2048 (n acc : Nat) : Nat :=
  bif Nat.ble (2 ^ 2048) n then log2Floor1024 (n / 2 ^ 2048) (acc + 2048)
  else log2Floor1024 n acc

/-- The integer part of `log2 n`, for `0 < n < 2^8192` (0 for `n = 0`), by
binary search on the exponent. -/
def log2Floor (n : Nat) : Nat :=
  bif Nat.ble (2 ^ 4096) n then log2Floor2048 (n / 2 ^ 4096) 4096 else log2Floor2048 n 0

/-- Rounding to nearest, ties to even (the rounding of every arithmetic
operation on `double`): the `double` nearest to
`(-1)^sign * (n / d) * 2^(-1074)`, for `0 < d`; the infinity of that sign
beyond the largest finite value. With `k` the exponent of the result,
`q` is the quotient truncated to its 53 leading bits and `r` what was cut
off, compared with half of the last place. -/
def round (sign : Bool) (n d : Nat) : F64 :=
  bif Nat.beq n 0 then finite sign 0 0
  else
    let k0 := log2Floor n - log2Floor d - 53
    let k := bif Nat.ble (2 ^ 53) (n / (d * 2 ^ k0)) then k0 + 1 else k0
    let den := d * 2 ^ k
    let q := n / den
    let r := n % den
    let q1 :=
      bif Nat.blt den (2 * r) || (Nat.beq (2 * r) den && Nat.beq (q % 2) 1) then q + 1 else q
    let mant := bif Nat.beq q1 (2 ^ 53) then 2 ^ 52 else q1
    let expt := bif Nat.beq q1 (2 ^ 53) then k + 1 else k
    bif Nat.blt 2045 expt then inf sign else finite sign mant expt

/-- The sum `a + b` of two doubles. -/
def add : F64 → F64 → F64
  | nan, _ => nan
  | _, nan => nan
  | inf s, inf t => if s = t then inf s else nan
  | inf s, finite _ _ _ => inf s
  | finite _ _ _, inf t => inf t
  | finite sa ma ka, finite sb mb kb =>
    let va := ma * 2 ^ ka
    let vb := mb * 2 ^ kb
    bif sa == sb then round sa (va + vb) 1
    else bif Nat.blt vb va then round sa (va - vb) 1
    else bif Nat.blt va vb then round sb (vb - va) 1
    else finite false 0 0

/-- The sign change `-a`. -/
def neg : F64 → F64
  | nan => nan
  | inf s => inf (!s)
  | finite s m k => finite (!s) m k

/-- The product `a * b` of two doubles. -/
def mul : F64 → F64 → F64
  | nan, _ => nan
  | _, nan => nan
  | inf s, inf t => inf (xor s t)
  | inf s, finite t m _ => if m = 0 then nan else inf (xor s t)
  | finite s m _, inf t => if m = 0 then nan else inf (xor s t)
  | finite sa ma ka, finite sb mb kb => round (xor sa sb) (ma * mb * 2 ^ (ka + kb)) (2 ^ 1074)

/-- The quotient `a / b` of two doubles. -/
def div : F64 → F64 → F64
  | nan, _ => nan
  | _, nan => nan
  | inf _, inf _ => nan
  | inf s, finite t _ _ => inf (xor s t)
  | finite s _ _, inf t => finite (xor s t) 0 0
  | finite sa ma ka, finite sb mb kb =>
    bif Nat.beq mb 0 then (bif Nat.beq ma 0 then nan else inf (xor sa sb))
    else round (xor sa sb) (ma * 2 ^ ka * 2 ^ 1074) (mb * 2 ^ kb)

/-- The comparison `a < b` of two doubles; false when either is a NaN. -/
def lt : F64 → F64 → Bool
  | nan, _ => false
  | _, nan => false
  | inf s, inf t => s && !t
  | inf s, finite _ _ _ => s
  | finite _ _ _, inf t => !t
  | finite sa ma ka, finite sb mb kb =>
    let va := ma * 2 ^ ka
    let vb := mb * 2 ^ kb
    match sa, sb with
    | false, false => Nat.blt va vb
    | true, true => Nat.blt vb va
    | true, false => Nat.blt 0 va || Nat.blt 0 vb
    | false, true => false

/-- The comparison `a <= b` of two doubles; false when either is a NaN. -/
def le : F64 → F64 → Bool
  | nan, _ => false
  | _, nan => false
  | inf s, inf t => s || !t
  | inf s, finite _ _ _ => s
  | finite _ _ _, inf t => !t
  | finite sa ma ka, finite sb mb kb =>
    let va := ma * 2 ^ ka
    let vb := mb * 2 ^ kb
    match sa, sb with
    | false, false => Nat.ble va vb
    | true, true => Nat.ble vb va
    | true, false => true
    | false, true => Nat.beq va 0 && Nat.beq vb 0

/-- A decimal literal `mantissa * 10^(-+decimalExponent)` of the source text,
converted to the nearest double as the compiler does. -/
def ofScientific (mantissa : Nat) (exponentSign : Bool) (decimalExponent : Nat) : F64 :=
  if exponentSign then round false (mantissa * 2 ^ 1074) (10 ^ decimalExponent)
  else round false (mantissa * 10 ^ decimalExponent * 2 ^ 1074) 1

/-- The conversion of an `int` to `double`. -/
def ofInt (i : Int) : F64 :=
  round (decide (i < 0)) (i.natAbs * 2 ^ 1074) 1

instance : Add F64 := ⟨add⟩

instance : Neg F64 := ⟨neg⟩

instance : Sub F64 := ⟨fun a b => add a (neg b)⟩

instance : Mul F64 := ⟨mul⟩

instance : Div F64 := ⟨div⟩

instance : LT F64 := ⟨fun a b => lt a b = true⟩

instance : LE F64 := ⟨fun a b => le a b = true⟩

instance (a b : F64) : Decidable (a < b) := inferInstanceAs (Decidable (lt a b = true))

instance (a b : F64) : Decidable (a ≤ b) := inferInstanceAs (Decidable (le a b = true))

instance : OfScientific F64 := ⟨ofScientific⟩

instance : IntCast F64 := ⟨ofInt⟩

end F64

/-! ## Concrete inputs -/

/-- A rational stand-in for `<cmath>`. It is exact where the real function has
a rational value that is immediate (exponents 2 and -2, base 1, `log 1`,
`sqrt 0`, `sqrt 1`, `exp 0`) and takes some fixed rational value elsewhere. -/
def ratMath : CMath ℚ where
  pow x y := if y = 2 then x * x else if y = -2 then 1 / (x * x) else if x = 1 then 1 else x
  log x := if x = 1 then 0 else x - 1
  sqrt x := if x = 1 then 1 else if x = 0 then 0 else (x + 1) / 2
  exp x := if x = 0 then 1 else 1 + x

/-- Hot stream of the end-to-end scenario: water, 353 K in, 323 K guessed out,
2 kg/s. -/
def sampleHot : FluidProperties ℚ :=
  { inlet_temp := 353, outlet_temp := 323, mass_flow := 2, specific_heat := 4180,
    density := 1000, thermal_cond := 0.6, viscosity := 0.001, prandtl := 7 }

/-- Cold stream of the end-to-end scenario: water, 293 K in, 313 K guessed
out, 1.5 kg/s. -/
def sampleCold : FluidProperties ℚ :=
  { inlet_temp := 293, outlet_temp := 313, mass_flow := 1.5, specific_heat := 4180,
    density := 1000, thermal_cond := 0.6, viscosity := 0.001, prandtl := 7 }

/-- Geometry of the end-to-end scenario. -/
def sampleGeometry : GeometryProperties ℚ :=
  { length := 2, shell_diameter := 0.2, tube_diameter := 0.02, tube_thickness := 0.002,
    num_tubes := 10, wall_thermal_cond := 50 }

/-- The end-to-end scenario with `N` segments. -/
def sampleSolver (N : Int) : NumericalSolver ℚ :=
  { num_segments := N, geometry := sampleGeometry, hot_fluid := sampleHot,
    cold_fluid := sampleCold }

/-- Geometry of the unit exchanger: one tube of inner diameter 1 m and no
wall thickness, 1 m long, in a shell of diameter 2 m. -/
def unitGeometry : GeometryProperties ℚ :=
  { length := 1, shell_diameter := 2, tube_diameter := 1, tube_thickness := 0,
    num_tubes := 1, wall_thermal_cond := 1 }

/-- Hot stream of the unit exchanger, 353 K in, with the outlet guess and the
specific heat left open. Its mass flow is `3 * M_PI / 8`, which with the unit
geometry makes the shell-side Reynolds number 1. -/
def unitHot (outlet_guess specific_heat : ℚ) : FluidProperties ℚ :=
  { inlet_temp := 353, outlet_temp := outlet_guess, mass_flow := 1.1780972450961724644225,
    specific_heat := specific_heat, density := 1, thermal_cond := 500 / 83, viscosity := 1,
    prandtl := 1 }

/-- Cold stream of the unit exchanger, 293 K in, with the outlet guess and the
specific heat left open. Its mass flow is `M_PI / 4`, which with the unit
geometry makes the tube-side Reynolds number 1. -/
def unitCold (outlet_guess specific_heat : ℚ) : FluidProperties ℚ :=
  { inlet_temp := 293, outlet_temp := outlet_guess, mass_flow := 0.785398163397448309615,
    specific_heat := specific_heat, density := 1, thermal_cond := 100 / 183, viscosity := 1,
    prandtl := 1 }

/-- The unit exchanger with `N` segments. On it the setup phase calls `<cmath>`
only where `ratMath` is exact, and gives both film coefficients the value 2,
`overall_htc = 1` and `UA_segment = M_PI / N`. -/
def unitSolver (N : Int) (hot_guess hot_cp cold_guess cold_cp : ℚ) : NumericalSolver ℚ :=
  { num_segments := N, geometry := unitGeometry, hot_fluid := unitHot hot_guess hot_cp,
    cold_fluid := unitCold cold_guess cold_cp }

/-- A one-segment unit exchanger with `UA_segment = C_hot = M_PI` and
`C_cold = M_PI / 4`, outlet guesses 243 K (hot) and 313 K (cold). Each pass
raises the cold outlet node by 60 K, so no pass meets the tolerance. -/
def nonConvergingSolver : NumericalSolver ℚ := unitSolver 1 243 (8 / 3) 313 1

/-- The same exchanger and streams with another hot specific heat and other
outlet guesses, 30243 K (hot) and 60313 K (cold), chosen so that the first pass
changes nothing. -/
def convergingSolver : NumericalSolver ℚ := unitSolver 1 30243 (8 / 3 * (2995 / 2989)) 60313 1

/-- The loop constants of `nonConvergingSolver`. -/
def nonConvergingConsts : LoopConsts ℚ :=
  { num_segments := 1, UA_segment := M_PI, C_hot := M_PI, C_cold := M_PI / 4,
    hot_inlet := 353, cold_inlet := 293 }

/-- The loop constants of `convergingSolver`. -/
def convergingConsts : LoopConsts ℚ :=
  { num_segments := 1, UA_segment := M_PI, C_hot := M_PI * (2995 / 2989), C_cold := M_PI / 4,
    hot_inlet := 353, cold_inlet := 293 }

/-- A two-segment unit exchanger, outlet guesses 323 K (hot) and 313 K (cold),
with `UA_segment = M_PI / 2` and `C_hot = M_PI`. -/
def twoSegmentSolver : NumericalSolver ℚ := unitSolver 2 323 (8 / 3) 313 1

/-- The loop constants of `twoSegmentSolver`. -/
def twoSegmentConsts : LoopConsts ℚ :=
  { num_segments := 2, UA_segment := M_PI / 2, C_hot := M_PI, C_cold := M_PI / 4,
    hot_inlet := 353, cold_inlet := 293 }

/-- A one-segment unit exchanger with `UA_segment = M_PI`, `C_hot = 2 * M_PI / 5`
and `C_cold = 5 * M_PI / 4`, whose outlet guesses 173 K (hot) and 269 K (cold)
are already a fixed point of the iteration. -/
def overshootSolver : NumericalSolver ℚ := unitSolver 1 173 (16 / 15) 269 5

/-- The loop constants of `overshootSolver`. -/
def overshootConsts : LoopConsts ℚ :=
  { num_segments := 1, UA_segment := M_PI, C_hot := 2 * M_PI / 5, C_cold := 5 * M_PI / 4,
    hot_inlet := 353, cold_inlet := 293 }

/-- A one-segment unit exchanger with a very large hot heat-capacity rate,
`UA_segment = M_PI`, `C_hot = 10^9 * M_PI`, `C_cold = 2 * M_PI`, and a hot
outlet guess half a microkelvin above the hot inlet. -/
def tinyGapSolver : NumericalSolver ℚ :=
  unitSolver 1 353.0000005 (8 / 3 * 1000000000) 323 8

/-- The loop constants of `tinyGapSolver`. -/
def tinyGapConsts : LoopConsts ℚ :=
  { num_segments := 1, UA_segment := M_PI, C_hot := 1000000000 * M_PI, C_cold := 2 * M_PI,
    hot_inlet := 353, cold_inlet := 293 }

/-- A one-segment unit exchanger with `UA_segment = M_PI`, `C_hot = 3 * M_PI / 2`
and `C_cold = M_PI`, whose outlet guesses 329 K (hot) and 341 K (cold) are
already a fixed point of the iteration. -/
def imbalanceSolver : NumericalSolver ℚ := unitSolver 1 329 4 341 4

/-- The loop constants of `imbalanceSolver`. -/
def imbalanceConsts : LoopConsts ℚ :=
  { num_segments := 1, UA_segment := M_PI, C_hot := 3 * M_PI / 2, C_cold := M_PI,
    hot_inlet := 353, cold_inlet := 293 }

/-- The loop constants of a one-segment exchanger with `UA_segment = M_PI` and
`C_hot = C_cold = 3 * M_PI / 2`; its fixed point is hot `[353, 323]`, cold
`[323, 293]`. -/
def balancedConsts : LoopConsts ℚ :=
  { num_segments := 1, UA_segment := M_PI, C_hot := 3 * M_PI / 2, C_cold := 3 * M_PI / 2,
    hot_inlet := 353, cold_inlet := 293 }

/-- The end-to-end scenario with one segment and a hot stream of specific
heat zero, hence `C_hot = 0`. -/
def zeroCapacitySolver : NumericalSolver ℚ :=
  { num_segments := 1, geometry := sampleGeometry,
    hot_fluid := { sampleHot with specific_heat := 0 }, cold_fluid := sampleCold }

/-- The functions of `<cmath>` on `double`, at the arguments the runs below
pass to them; every other argument gives NaN here, so that no run can depend on
a value this table leaves out. `pow(1, y) = 1` and `pow(0.5, 2) = 0.25`,
`sqrt(0) = 0` and `sqrt(1) = 1`, `log(1) = 0` and `exp(0) = 1` are exact. The
two other entries are the values the C library returns: `log` at the double
`1 + 13510799 * 2^(-52)` (1.000000003 to ten digits) and `exp(-50)`. -/
def f64Math : CMath F64 where
  pow x y :=
    if x = 1.0 then 1.0
    else if x = 0.5 ∧ y = ((2 : Int) : F64) then 0.25
    else F64.nan
  log x :=
    if x = 1.0 then 0.0
    else if x = F64.finite false 4503599640881295 1022 then 3.000000021676508e-09
    else F64.nan
  sqrt x := if x = 1.0 then 1.0 else if x = 0.0 then 0.0 else F64.nan
  exp x :=
    if x = 0.0 then 1.0
    else if x = -50.0 then 1.9287498479639178e-22
    else F64.nan

/-- A one-tube exchanger on doubles: tube diameter 1, shell diameter 2, no
wall thickness, wall conductivity 1. -/
def f64Geometry (length : F64) : GeometryProperties F64 :=
  { length := length, shell_diameter := 2.0, tube_diameter := 1.0, tube_thickness := 0.0,
    num_tubes := 1, wall_thermal_cond := 1.0 }

/-- The hot fluid of the runs on doubles: the mass flow makes the shell-side
Reynolds number 1; density, conductivity, viscosity and Prandtl number are 1. -/
def f64Hot (inlet_temp outlet_guess specific_heat : F64) : FluidProperties F64 :=
  { inlet_temp := inlet_temp, outlet_temp := outlet_guess, mass_flow := 1.1780972450961724,
    specific_heat := specific_heat, density := 1.0, thermal_cond := 1.0, viscosity := 1.0,
    prandtl := 1.0 }

/-- The cold fluid of the runs on doubles: the mass flow makes the tube-side
Reynolds number 1. -/
def f64Cold (inlet_temp outlet_guess specific_heat : F64) : FluidProperties F64 :=
  { inlet_temp := inlet_temp, outlet_temp := outlet_guess, mass_flow := 0.7853981633974483,
    specific_heat := specific_heat, density := 1.0, thermal_cond := 1.0, viscosity := 1.0,
    prandtl := 1.0 }

/-- Water-like temperatures on a length of 1 with one segment. -/
def kelvinSolver : NumericalSolver F64 :=
  { num_segments := 1, geometry := f64Geometry 1.0, hot_fluid := f64Hot 353.0 323.0 4.0,
    cold_fluid := f64Cold 293.0 313.0 4.0 }

/-- The input `kelvinSolver` with -273.15 added to its four temperatures. -/
def celsiusSolver : NumericalSolver F64 :=
  { kelvinSolver with
    hot_fluid :=
      { kelvinSolver.hot_fluid with
        inlet_temp := kelvinSolver.hot_fluid.inlet_temp + (-273.15),
        outlet_temp := kelvinSolver.hot_fluid.outlet_temp + (-273.15) },
    cold_fluid :=
      { kelvinSolver.cold_fluid with
        inlet_temp := kelvinSolver.cold_fluid.inlet_temp + (-273.15),
        outlet_temp := kelvinSolver.cold_fluid.outlet_temp + (-273.15) } }

/-- A length of 2 cut into 49 segments. -/
def positionsSolver : NumericalSolver F64 :=
  { num_segments := 49, geometry := f64Geometry 2.0, hot_fluid := f64Hot 353.0 323.0 4.0,
    cold_fluid := f64Cold 293.0 313.0 4.0 }

/-- Two segments, hot stream from 873.15 K with outlet guess 300.2 K, cold
stream from 107.8 K with outlet guess 295.5 K. -/
def driftSolver : NumericalSolver F64 :=
  { num_segments := 2, geometry := f64Geometry 1.0, hot_fluid := f64Hot 873.15 300.2 4.0,
    cold_fluid := f64Cold 107.8 295.5 4.0 }

/-- One segment, the four temperatures 873.15, 300.2, 310 and 500 inside the
interval from 300.2 to 873.15. -/
def boundsSolver : NumericalSolver F64 :=
  { num_segments := 1, geometry := f64Geometry 1.0, hot_fluid := f64Hot 873.15 300.2 4.0,
    cold_fluid := f64Cold 310.0 500.0 4.0 }

/-- One segment on a length of 200: `UA_segment` is forty times the hot
capacity rate and the iteration diverges. -/
def divergingSolver : NumericalSolver F64 :=
  { num_segments := 1, geometry := f64Geometry 200.0, hot_fluid := f64Hot 353.0 323.0 4.0,
    cold_fluid := f64Cold 293.0 313.0 4.0 }

/-- One segment with small specific heats: the iteration contracts so slowly
that 1000 passes do not meet the tolerance. -/
def slowSolver : NumericalSolver F64 :=
  { num_segments := 1, geometry := f64Geometry 1.0, hot_fluid := f64Hot 353.0 323.0 0.41,
    cold_fluid := f64Cold 293.0 313.0 0.61 }

/-- The geometry, inlets and flows of `slowSolver`, with the outlet guesses at
the temperatures `slowSolver` returns and a hot specific heat for which these
are left in place by a pass. -/
def settledSolver : NumericalSolver F64 :=
  { num_segments := 1, geometry := f64Geometry 1.0,
    hot_fluid := f64Hot 353.0 333.1433903214248 0.409953593491421,
    cold_fluid := f64Cold 293.0 392.9427021644681 0.61 }

/-! ## Vectors: reading and writing one element -/

section Vectors

variable {α : Type}

theorem getD_set_self {l : List α} {i : Nat} (h : i < l.length) (a d : α) :
    (l.set i a).getD i d = a := by
  simp [List.getD_eq_getElem?_getD, List.getElem?_set, h]

theorem getD_set_other {l : List α} {i j : Nat} (h : i ≠ j) (a d : α) :
    (l.set i a).getD j d = l.getD j d := by
  simp [List.getD_eq_getElem?_getD, List.getElem?_set, h]

theorem getElem?_of_getD {l : List α} {i : Nat} {d x : α} (h : i < l.length)
    (hx : l.getD i d = x) : l[i]? = some x := by
  rw [List.getD_eq_getElem?_getD, List.getElem?_eq_getElem h] at hx
  rw [List.getElem?_eq_getElem h]
  exact congrArg some hx

theorem eq_singleton_of_getD {l : List α} {d x : α} (h : l.length = 1)
    (hx : l.getD 0 d = x) : l = [x] := by
  match l, h with
  | [a], _ => simpa using hx

end Vectors

section Sweeps

variable {α : Type} [Add α] [Sub α] [Mul α] [Div α] [OfScientific α]

/-! ## The hot sweep -/

theorem hotSweepUpTo_succ (c : LoopConsts α) (cold hot : List α) (k : Nat) :
    hotSweepUpTo c cold hot (k + 1)
      = hotSweepBody c cold (hotSweepUpTo c cold hot k) (k + 1) := by
  simp [hotSweepUpTo, List.range'_concat, List.foldl_append, Nat.add_comm]

theorem hotSweepBody_length (c : LoopConsts α) (cold hot : List α) (i : Nat) :
    (hotSweepBody c cold hot i).length = hot.length := by
  simp [hotSweepBody]

theorem hotSweepUpTo_length (c : LoopConsts α) (cold hot : List α) (k : Nat) :
    (hotSweepUpTo c cold hot k).length = hot.length := by
  induction k with
  | zero => simp [hotSweepUpTo]
  | succ k ih => rw [hotSweepUpTo_succ, hotSweepBody_length, ih]

/-- Elements above the last pass are still the ones the sweep started from,
and so is element 0. -/
theorem hotSweepUpTo_untouched (c : LoopConsts α) (cold hot : List α) (k j : Nat)
    (hj : j = 0 ∨ k < j) :
    (hotSweepUpTo c cold hot k).getD j 0.0 = hot.getD j 0.0 := by
  induction k with
  | zero => simp [hotSweepUpTo]
  | succ k ih =>
    rw [hotSweepUpTo_succ]
    unfold hotSweepBody
    rw [getD_set_other (by omega)]
    exact ih (by omega)

/-- After the passes `1 .. k`, every element `1 .. k` holds the update formula
applied to its left neighbour in the same, already updated, vector. -/
theorem hotSweepUpTo_spec (c : LoopConsts α) (cold hot : List α) (k : Nat)
    (hk : k < hot.length) (j : Nat) (h1 : 1 ≤ j) (hjk : j ≤ k) :
    (hotSweepUpTo c cold hot k).getD j 0.0
      = hotUpdate c cold ((hotSweepUpTo c cold hot k).getD (j - 1) 0.0) j := by
  induction k with
  | zero => omega
  | succ k ih =>
    rw [hotSweepUpTo_succ]
    by_cases hj : j = k + 1
    · subst hj
      unfold hotSweepBody
      rw [getD_set_self (by rw [hotSweepUpTo_length]; exact hk), getD_set_other (by omega)]
      simp [hotUpdate]
    · have hjk2 : j ≤ k := by omega
      unfold hotSweepBody
      rw [getD_set_other (by omega), getD_set_other (by omega)]
      exact ih (by omega) hjk2

theorem hotSweep_eq_upTo (c : LoopConsts α) (cold hot : List α) :
    hotSweep c cold hot = hotSweepUpTo c cold hot c.num_segments := rfl

theorem hotSweep_length (c : LoopConsts α) (cold hot : List α) :
    (hotSweep c cold hot).length = hot.length :=
  hotSweepUpTo_length c cold hot _

/-! ## The cold sweep -/

theorem coldSweep_eq_from (c : LoopConsts α) (hot cold : List α) :
    coldSweep c hot cold = coldSweepFrom c hot cold 0 c.num_segments := by
  simp [coldSweep, coldSweepFrom, List.foldl_reverse, List.range_eq_range']

theorem coldSweepFrom_succ (c : LoopConsts α) (hot cold : List α) (s k : Nat) :
    coldSweepFrom c hot cold s (k + 1)
      = coldSweepBody c hot (coldSweepFrom c hot cold (s + 1) k) s := by
  simp [coldSweepFrom, List.range'_succ]

theorem coldSweepBody_length (c : LoopConsts α) (hot cold : List α) (i : Nat) :
    (coldSweepBody c hot cold i).length = cold.length := by
  simp [coldSweepBody]

theorem coldSweepFrom_length (c : LoopConsts α) (hot cold : List α) (s k : Nat) :
    (coldSweepFrom c hot cold s k).length = cold.length := by
  induction k generalizing s with
  | zero => simp [coldSweepFrom]
  | succ k ih => rw [coldSweepFrom_succ, coldSweepBody_length, ih]

/-- Elements outside the passes made are still the ones the sweep started
from. -/
theorem coldSweepFrom_untouched (c : LoopConsts α) (hot cold : List α) (s k j : Nat)
    (hj : j < s ∨ s + k ≤ j) :
    (coldSweepFrom c hot cold s k).getD j 0.0 = cold.getD j 0.0 := by
  induction k generalizing s with
  | zero => simp [coldSweepFrom]
  | succ k ih =>
    rw [coldSweepFrom_succ]
    unfold coldSweepBody
    rw [getD_set_other (by omega)]
    exact ih (s + 1) (by omega)

/-- After the passes `s + k - 1, .., s`, every element `s .. s + k - 1` holds
the update formula applied to its right neighbour in the same, already updated,
vector. -/
theorem coldSweepFrom_spec (c : LoopConsts α) (hot cold : List α) (s k : Nat)
    (hk : s + k < cold.length + 1) (j : Nat) (h1 : s ≤ j) (hjk : j < s + k) :
    (coldSweepFrom c hot cold s k).getD j 0.0
      = coldUpdate c hot ((coldSweepFrom c hot cold s k).getD (j + 1) 0.0) j := by
  induction k generalizing s with
  | zero => omega
  | succ k ih =>
    rw [coldSweepFrom_succ]
    by_cases hj : j = s
    · subst hj
      unfold coldSweepBody
      rw [getD_set_self (by rw [coldSweepFrom_length]; omega), getD_set_other (by omega)]
      simp [coldUpdate]
    · unfold coldSweepBody
      rw [getD_set_other (by omega), getD_set_other (by omega)]
      exact ih (s + 1) (by omega) (by omega) (by omega)

theorem coldSweep_length (c : LoopConsts α) (hot cold : List α) :
    (coldSweep c hot cold).length = cold.length := by
  rw [coldSweep_eq_from]; exact coldSweepFrom_length c hot cold _ _

end Sweeps

/-! ## Relaxation and the boundary assignments -/

section Relaxation

variable {α : Type} [Add α] [Sub α] [Mul α] [OfScientific α]

theorem relaxUpTo_succ (hot_old cold_old : List α) (t : List α × List α) (k : Nat) :
    relaxUpTo hot_old cold_old t (k + 1)
      = relaxBody hot_old cold_old (relaxUpTo hot_old cold_old t k) k := by
  simp [relaxUpTo, List.range_succ, List.foldl_append]

theorem relaxUpTo_length (hot_old cold_old : List α) (t : List α × List α) (k : Nat) :
    (relaxUpTo hot_old cold_old t k).1.length = t.1.length
      ∧ (relaxUpTo hot_old cold_old t k).2.length = t.2.length := by
  induction k with
  | zero => simp [relaxUpTo]
  | succ k ih => rw [relaxUpTo_succ]; simpa [relaxBody] using ih

/-- Element `j` of either vector after `k` passes of the relaxation loop: the
blend of the swept and the old value when pass `j` has been made, the swept
value otherwise. -/
theorem relaxUpTo_getD (hot_old cold_old : List α) (t : List α × List α) (k j : Nat)
    (h1 : j < t.1.length) (h2 : j < t.2.length) :
    (relaxUpTo hot_old cold_old t k).1.getD j 0.0
        = (if j < k then 0.5 * t.1.getD j 0.0 + (1.0 - 0.5) * hot_old.getD j 0.0
           else t.1.getD j 0.0)
      ∧ (relaxUpTo hot_old cold_old t k).2.getD j 0.0
        = (if j < k then 0.5 * t.2.getD j 0.0 + (1.0 - 0.5) * cold_old.getD j 0.0
           else t.2.getD j 0.0) := by
  induction k with
  | zero => simp [relaxUpTo]
  | succ k ih =>
    rw [relaxUpTo_succ]
    have hl := relaxUpTo_length hot_old cold_old t k
    by_cases hj : j = k
    · subst hj
      unfold relaxBody
      simp only []
      rw [getD_set_self (by rw [hl.1]; exact h1), getD_set_self (by rw [hl.2]; exact h2)]
      rw [ih.1, ih.2]
      simp
    · unfold relaxBody
      simp only []
      rw [getD_set_other (by omega), getD_set_other (by omega), ih.1, ih.2]
      by_cases hjk : j < k
      · simp [hjk, Nat.lt_succ_of_lt hjk]
      · have : ¬ j < k + 1 := by omega
        simp [hjk, this]

theorem relax_eq_upTo (c : LoopConsts α) (hot_old cold_old : List α) (t : List α × List α) :
    relax c hot_old cold_old t = relaxUpTo hot_old cold_old t (c.num_segments + 1) := rfl

end Relaxation

/-! ## One pass through the loop body -/

section Pass

variable {α : Type} [Add α] [Sub α] [Mul α] [Div α] [OfScientific α]

/-- Both vectors keep their `num_segments + 1` elements through a pass. -/
theorem iterationBody_length (c : LoopConsts α) (old : List α × List α) :
    (iterationBody c old).1.length = old.1.length
      ∧ (iterationBody c old).2.length = old.2.length := by
  unfold iterationBody enforceBoundary
  simp only [List.length_set, relax_eq_upTo]
  have h := relaxUpTo_length old.1 old.2
    ((hotSweep c old.2 old.1).set 0 c.hot_inlet,
      (coldSweep c (hotSweep c old.2 old.1) old.2).set c.num_segments c.cold_inlet)
    (c.num_segments + 1)
  simp only [List.length_set, hotSweep_length, coldSweep_length] at h
  exact h

/-- The two boundary nodes at the end of a pass. -/
theorem iterationBody_boundary (c : LoopConsts α) (old : List α × List α)
    (h1 : 0 < old.1.length) (h2 : c.num_segments < old.2.length) :
    (iterationBody c old).1.getD 0 0.0 = c.hot_inlet
      ∧ (iterationBody c old).2.getD c.num_segments 0.0 = c.cold_inlet := by
  have hl := relaxUpTo_length old.1 old.2
    ((hotSweep c old.2 old.1).set 0 c.hot_inlet,
      (coldSweep c (hotSweep c old.2 old.1) old.2).set c.num_segments c.cold_inlet)
    (c.num_segments + 1)
  simp only [List.length_set, hotSweep_length, coldSweep_length] at hl
  unfold iterationBody enforceBoundary
  simp only [relax_eq_upTo]
  constructor
  · exact getD_set_self (by rw [hl.1]; exact h1) _ _
  · exact getD_set_self (by rw [hl.2]; exact h2) _ _

/-- The hot nodes `1 .. N` at the end of a pass: the blend of the swept value
and the value at the start of the pass. -/
theorem iterationBody_hot (c : LoopConsts α) (old : List α × List α) (i : Nat)
    (h1 : 1 ≤ i) (hi : i ≤ c.num_segments)
    (hl1 : old.1.length = c.num_segments + 1) (hl2 : old.2.length = c.num_segments + 1) :
    (iterationBody c old).1.getD i 0.0
      = 0.5 * (hotSweep c old.2 old.1).getD i 0.0 + (1.0 - 0.5) * old.1.getD i 0.0 := by
  unfold iterationBody enforceBoundary
  simp only [relax_eq_upTo]
  rw [getD_set_other (by omega)]
  rw [(relaxUpTo_getD old.1 old.2 _ (c.num_segments + 1) i
    (by simp only [List.length_set, hotSweep_length]; omega)
    (by simp only [List.length_set, coldSweep_length]; omega)).1]
  rw [if_pos (by omega), getD_set_other (by omega)]

/-- The cold nodes `0 .. N - 1` at the end of a pass: the blend of the swept
value and the value at the start of the pass. -/
theorem iterationBody_cold (c : LoopConsts α) (old : List α × List α) (i : Nat)
    (hi : i < c.num_segments)
    (hl1 : old.1.length = c.num_segments + 1) (hl2 : old.2.length = c.num_segments + 1) :
    (iterationBody c old).2.getD i 0.0
      = 0.5 * (coldSweep c (hotSweep c old.2 old.1) old.2).getD i 0.0
          + (1.0 - 0.5) * old.2.getD i 0.0 := by
  unfold iterationBody enforceBoundary
  simp only [relax_eq_upTo]
  rw [getD_set_other (by omega)]
  rw [(relaxUpTo_getD old.1 old.2 _ (c.num_segments + 1) i
    (by simp only [List.length_set, hotSweep_length]; omega)
    (by simp only [List.length_set, coldSweep_length]; omega)).2]
  rw [if_pos (by omega), getD_set_other (by omega)]

theorem stateAfter_succ (c : LoopConsts α) (t : List α × List α) (k : Nat) :
    stateAfter c t (k + 1) = iterationBody c (stateAfter c t k) := by
  simp [stateAfter, Function.iterate_succ_apply']

theorem stateAfter_shift (c : LoopConsts α) (t : List α × List α) (k : Nat) :
    stateAfter c t (k + 1) = stateAfter c (iterationBody c t) k := by
  simp [stateAfter]

/-- The state after `a + b` passes is the state `b` passes after the state
after `a` passes. -/
theorem stateAfter_add (c : LoopConsts α) (t : List α × List α) (a b : Nat) :
    stateAfter c t (a + b) = stateAfter c (stateAfter c t a) b := by
  simp only [stateAfter]
  rw [Nat.add_comm, Function.iterate_add_apply]

theorem stateAfter_length (c : LoopConsts α) (t : List α × List α) (k : Nat) :
    (stateAfter c t k).1.length = t.1.length ∧ (stateAfter c t k).2.length = t.2.length := by
  induction k with
  | zero => simp [stateAfter]
  | succ k ih =>
    rw [stateAfter_succ]
    have h := iterationBody_length c (stateAfter c t k)
    exact ⟨h.1.trans ih.1, h.2.trans ih.2⟩

/-- After at least one pass both boundary nodes hold the inlet temperatures. -/
theorem stateAfter_boundary (c : LoopConsts α) (t : List α × List α) (k : Nat) (hk : 1 ≤ k)
    (h1 : 0 < t.1.length) (h2 : c.num_segments < t.2.length) :
    (stateAfter c t k).1.getD 0 0.0 = c.hot_inlet
      ∧ (stateAfter c t k).2.getD c.num_segments 0.0 = c.cold_inlet := by
  obtain ⟨j, rfl⟩ : ∃ j, k = j + 1 := ⟨k - 1, by omega⟩
  rw [stateAfter_succ]
  have hl := stateAfter_length c t j
  exact iterationBody_boundary c _ (by rw [hl.1]; exact h1) (by rw [hl.2]; exact h2)

end Pass

/-! ## The iteration loop -/

section Loop

variable {α : Type} [Add α] [Sub α] [Mul α] [Div α] [Neg α] [OfScientific α]
  [LT α] [∀ a b : α, Decidable (a < b)]

theorem changeAt_one (c : LoopConsts α) (t : List α × List α) :
    changeAt c t 1 = maxChange c t.1 t.2 (iterationBody c t).1 (iterationBody c t).2 := by
  simp [changeAt, stateAfter]

theorem changeAt_shift (c : LoopConsts α) (t : List α × List α) (j : Nat) (hj : 1 ≤ j) :
    changeAt c t (j + 1) = changeAt c (iterationBody c t) j := by
  obtain ⟨i, rfl⟩ : ∃ i, j = i + 1 := ⟨j - 1, by omega⟩
  simp only [changeAt, Nat.add_sub_cancel, stateAfter_shift]

/-- What the loop does, for any number `fuel >= 1` of passes left: it makes
`k` passes, where `k` is the first pass whose `max_change` is below the
tolerance, or `fuel` when there is none; it then holds the temperatures of `k`
uninterrupted passes and has written exactly one line, the convergence report
in the first case and the warning in the second. -/
theorem iterationLoop_spec (c : LoopConsts α) (M : Nat) (tol : α) (fuel : Nat) :
    ∀ (iter : Nat) (s : LoopState α), iter + fuel = M → 1 ≤ fuel →
    ∃ k, 1 ≤ k ∧ k ≤ fuel
      ∧ (∀ j, 1 ≤ j → j < k →
          ¬ changeAt c (s.hot_temperatures, s.cold_temperatures) j < tol)
      ∧ (iterationLoop c M tol fuel iter s).hot_temperatures
          = (stateAfter c (s.hot_temperatures, s.cold_temperatures) k).1
      ∧ (iterationLoop c M tol fuel iter s).cold_temperatures
          = (stateAfter c (s.hot_temperatures, s.cold_temperatures) k).2
      ∧ (iterationLoop c M tol fuel iter s).iterations = s.iterations + k
      ∧ ((changeAt c (s.hot_temperatures, s.cold_temperatures) k < tol
            ∧ (iterationLoop c M tol fuel iter s).console
                = s.console ++ [ConsoleLine.converged (iter + k)])
          ∨ (¬ changeAt c (s.hot_temperatures, s.cold_temperatures) k < tol
            ∧ k = fuel
            ∧ (iterationLoop c M tol fuel iter s).console
                = s.console ++ [ConsoleLine.max_iterations_warning])) := by
  induction fuel with
  | zero => intro iter s _ h; omega
  | succ f ih =>
    intro iter s hM _
    by_cases hc : maxChange c s.hot_temperatures s.cold_temperatures
        (iterationBody c (s.hot_temperatures, s.cold_temperatures)).1
        (iterationBody c (s.hot_temperatures, s.cold_temperatures)).2 < tol
    · refine ⟨1, le_refl 1, by omega, fun j h1 h2 => by omega, ?_⟩
      have h1 : changeAt c (s.hot_temperatures, s.cold_temperatures) 1 < tol := by
        rw [changeAt_one]; exact hc
      simp only [iterationLoop, if_pos hc]
      exact ⟨by simp [stateAfter], by simp [stateAfter], trivial, Or.inl ⟨h1, trivial⟩⟩
    · have h1 : ¬ changeAt c (s.hot_temperatures, s.cold_temperatures) 1 < tol := by
        rw [changeAt_one]; exact hc
      rcases Nat.eq_zero_or_pos f with hf | hf
      · subst hf
        refine ⟨1, le_refl 1, le_refl 1, fun j h1 h2 => by omega, ?_⟩
        have hi : iter = M - 1 := by omega
        simp only [iterationLoop, if_neg hc, if_pos hi]
        exact ⟨by simp [stateAfter], by simp [stateAfter], trivial, Or.inr ⟨h1, trivial, trivial⟩⟩
      · have hi : ¬ iter = M - 1 := by omega
        obtain ⟨k, hk1, hkf, hmin, hhot, hcold, hit, hcons⟩ :=
          ih (iter + 1)
            { hot_temperatures := (iterationBody c (s.hot_temperatures, s.cold_temperatures)).1,
              cold_temperatures := (iterationBody c (s.hot_temperatures, s.cold_temperatures)).2,
              iterations := s.iterations + 1,
              console := s.console } (by omega) hf
        simp only [Prod.mk.eta] at hmin hhot hcold hcons
        dsimp only at hit
        refine ⟨k + 1, by omega, by omega, ?_, ?_⟩
        · intro j hj1 hjk
          rcases Nat.eq_or_lt_of_le hj1 with hj | hj
          · rw [← hj]; exact h1
          · obtain ⟨i, rfl⟩ : ∃ i, j = i + 1 := ⟨j - 1, by omega⟩
            rw [changeAt_shift c _ i (by omega)]
            exact hmin i (by omega) (by omega)
        · simp only [iterationLoop, if_neg hc, if_neg hi]
          rw [changeAt_shift c _ k hk1, stateAfter_shift]
          refine ⟨hhot, hcold, by rw [hit]; omega, ?_⟩
          rcases hcons with ⟨h, hcon⟩ | ⟨h, hkf2, hcon⟩
          · exact Or.inl ⟨h, by rw [hcon, Nat.add_assoc, Nat.add_comm 1 k]⟩
          · exact Or.inr ⟨h, by omega, hcon⟩

/-- The `max_change` of pass `a + j` is that of pass `j` of the loop started
from the state after `a` passes. -/
theorem changeAt_add (c : LoopConsts α) (t : List α × List α) (a j : Nat) (hj : 1 ≤ j) :
    changeAt c t (a + j) = changeAt c (stateAfter c t a) j := by
  obtain ⟨i, rfl⟩ : ∃ i, j = i + 1 := ⟨j - 1, by omega⟩
  simp only [changeAt, Nat.add_sub_cancel]
  have e : a + (i + 1) - 1 = a + i := by omega
  rw [e, stateAfter_add c t a (i + 1), stateAfter_add c t a i]

/-- A loop of at most `M` passes that ends with the warning has made `M`
passes, none of which met the tolerance, and ends in the state after `M`
passes. -/
theorem passes_of_warning (c : LoopConsts α) (M : Nat) (tol : α) (t t' : List α × List α)
    (hM : 1 ≤ M)
    (h : (iterationLoop c M tol M 0
          { hot_temperatures := t.1, cold_temperatures := t.2, iterations := 0,
            console := [] }).hot_temperatures = t'.1
      ∧ (iterationLoop c M tol M 0
          { hot_temperatures := t.1, cold_temperatures := t.2, iterations := 0,
            console := [] }).cold_temperatures = t'.2
      ∧ (iterationLoop c M tol M 0
          { hot_temperatures := t.1, cold_temperatures := t.2, iterations := 0,
            console := [] }).console = [ConsoleLine.max_iterations_warning]) :
    (∀ j, 1 ≤ j → j ≤ M → ¬ changeAt c t j < tol) ∧ stateAfter c t M = t' := by
  obtain ⟨k, hk1, hk2, hmin, hhot, hcold, _, hcons⟩ :=
    iterationLoop_spec c M tol M 0
      { hot_temperatures := t.1, cold_temperatures := t.2, iterations := 0, console := [] }
      (by simp) hM
  simp only [Prod.mk.eta, List.nil_append, Nat.zero_add] at hmin hhot hcold hcons
  rcases hcons with ⟨_, hc⟩ | ⟨hc, hk, _⟩
  · rw [h.2.2] at hc
    simp at hc
  · subst hk
    refine ⟨fun j hj1 hj2 => ?_, ?_⟩
    · rcases Nat.lt_or_ge j k with hlt | hge
      · exact hmin j hj1 hlt
      · have : j = k := by omega
        subst this
        exact hc
    · rw [h.1] at hhot
      rw [h.2.1] at hcold
      exact Prod.ext hhot.symm hcold.symm

/-- Passes that do not meet the tolerance, chained: `a` such passes from `t`
followed by `b` such passes from the state they leave are `a + b` such passes
from `t`. -/
theorem passes_chain (c : LoopConsts α) (tol : α) (t t' t'' : List α × List α) (a b : Nat)
    (h1 : (∀ j, 1 ≤ j → j ≤ a → ¬ changeAt c t j < tol) ∧ stateAfter c t a = t')
    (h2 : (∀ j, 1 ≤ j → j ≤ b → ¬ changeAt c t' j < tol) ∧ stateAfter c t' b = t'') :
    (∀ j, 1 ≤ j → j ≤ a + b → ¬ changeAt c t j < tol) ∧ stateAfter c t (a + b) = t'' := by
  refine ⟨fun j hj1 hj2 => ?_, ?_⟩
  · rcases Nat.lt_or_ge a j with hlt | hge
    · obtain ⟨i, rfl⟩ : ∃ i, j = a + i := ⟨j - a, by omega⟩
      rw [changeAt_add c t a i (by omega), h1.2]
      exact h2.1 i (by omega) (by omega)
    · exact h1.1 j hj1 hge
  · rw [stateAfter_add, h1.2, h2.2]

end Loop

/-! ## The whole call -/

section InitialGuess

variable {α : Type} [Add α] [Sub α] [Mul α] [Div α] [IntCast α]

theorem initialGuess_length (N : Int) (hot cold : FluidProperties α) (t : List α × List α) :
    (initialGuess N hot cold t).1.length = t.1.length
      ∧ (initialGuess N hot cold t).2.length = t.2.length := by
  unfold initialGuess
  induction (N.toNat + 1) with
  | zero => simp
  | succ k ih =>
    rw [List.range_succ, List.foldl_append]
    simpa [initialGuessBody] using ih

end InitialGuess

section InitialTemperatures

variable {α : Type} [Add α] [Sub α] [Mul α] [Div α] [OfScientific α] [IntCast α]

/-- Both vectors have `num_segments + 1` elements when the loop is entered. -/
theorem initialTemperatures_length (s : NumericalSolver α) :
    (initialTemperatures s).1.length = s.num_segments.toNat + 1
      ∧ (initialTemperatures s).2.length = s.num_segments.toNat + 1 := by
  have h := initialGuess_length s.num_segments s.hot_fluid s.cold_fluid
    ((List.replicate (s.num_segments.toNat + 1) (0.0 : α)).set 0 s.hot_fluid.inlet_temp,
     (List.replicate (s.num_segments.toNat + 1) (0.0 : α)).set s.num_segments.toNat
        s.cold_fluid.inlet_temp)
  simpa [initialTemperatures] using h

end InitialTemperatures

section States

variable {α : Type} [Add α] [Sub α] [Mul α] [Div α] [OfScientific α] [IntCast α]
  [LT α] [∀ a b : α, Decidable (a < b)]

theorem solveState_length (m : CMath α) (s : NumericalSolver α) (k : Nat) :
    (solveState m s k).1.length = s.num_segments.toNat + 1
      ∧ (solveState m s k).2.length = s.num_segments.toNat + 1 := by
  have h := stateAfter_length (loopConsts m s) (initialTemperatures s) k
  have h0 := initialTemperatures_length s
  exact ⟨h.1.trans h0.1, h.2.trans h0.2⟩

/-- After at least one pass the boundary nodes hold the inlet temperatures. -/
theorem solveState_boundary (m : CMath α) (s : NumericalSolver α) (k : Nat) (hk : 1 ≤ k) :
    (solveState m s k).1.getD 0 0.0 = s.hot_fluid.inlet_temp
      ∧ (solveState m s k).2.getD s.num_segments.toNat 0.0 = s.cold_fluid.inlet_temp := by
  have h0 := initialTemperatures_length s
  exact stateAfter_boundary (loopConsts m s) (initialTemperatures s) k hk
    (by rw [h0.1]; omega) (by rw [h0.2]; exact Nat.lt_succ_self _)

end States

section Solve

variable {α : Type} [Add α] [Sub α] [Mul α] [Div α] [Neg α] [OfScientific α] [IntCast α]
  [LT α] [∀ a b : α, Decidable (a < b)]

/-- A call that returns has `0 <= num_segments < INT_MAX`. -/
theorem solveRun_ok_range (m : CMath α) (s : NumericalSolver α) (run : SolveRun α)
    (h : solveRun m s = Except.ok run) :
    0 ≤ s.num_segments ∧ s.num_segments < INT_MAX := by
  unfold solveRun at h
  split_ifs at h with h0 h1 h2
  exact ⟨by omega, by omega⟩

/-- A call with `0 <= num_segments < INT_MAX` returns: it makes `k` passes, `k`
the first pass in `1 .. 1000` whose `max_change` is below the tolerance or 1000
when there is none, returns the temperatures of `k` uninterrupted passes, and
writes one line to the console. -/
theorem solveRun_spec (m : CMath α) (s : NumericalSolver α) (hN : 0 ≤ s.num_segments)
    (hmax : s.num_segments < INT_MAX) :
    ∃ run k, solveRun m s = Except.ok run
      ∧ 1 ≤ k ∧ k ≤ 1000
      ∧ (∀ j, 1 ≤ j → j < k → ¬ solveChange m s j < 1e-6)
      ∧ run.results.hot_temperatures = (solveState m s k).1
      ∧ run.results.cold_temperatures = (solveState m s k).2
      ∧ run.iterations = k
      ∧ ((solveChange m s k < 1e-6 ∧ run.console = [ConsoleLine.converged k])
          ∨ (¬ solveChange m s k < 1e-6 ∧ k = 1000
              ∧ run.console = [ConsoleLine.max_iterations_warning])) := by
  obtain ⟨k, hk1, hk2, hmin, hhot, hcold, hit, hcons⟩ :=
    iterationLoop_spec (loopConsts m s) max_iterations tolerance max_iterations 0
      { hot_temperatures := (initialTemperatures s).1,
        cold_temperatures := (initialTemperatures s).2,
        iterations := 0, console := [] } (by simp) (by decide)
  simp only [Prod.mk.eta, List.nil_append, Nat.zero_add] at hmin hhot hcold hit hcons
  have h0 : ¬ INT_MAX < s.num_segments + 1 := by omega
  have h1 : ¬ s.num_segments + 1 < 0 := by omega
  have h2 : ¬ s.num_segments + 1 = 0 := by omega
  have hrun : solveRun m s = Except.ok
      { results :=
          { setupScalars m s with
            hot_temperatures := (finalLoopState m s).hot_temperatures,
            cold_temperatures := (finalLoopState m s).cold_temperatures,
            positions := fillPositions s.num_segments.toNat
              (s.geometry.length / (s.num_segments : α))
              (List.replicate (s.num_segments.toNat + 1) (0.0 : α)) },
        iterations := (finalLoopState m s).iterations,
        console := (finalLoopState m s).console } := by
    simp only [solveRun, if_neg h0, if_neg h1, if_neg h2]
  exact ⟨_, k, hrun, hk1, hk2, hmin, hhot, hcold, hit, hcons⟩

theorem solveTemperatureDistribution_of_run (m : CMath α) (s : NumericalSolver α)
    (run : SolveRun α) (h : solveRun m s = Except.ok run) :
    solveTemperatureDistribution m s = Except.ok run.results := by
  simp [solveTemperatureDistribution, h, Except.map]

/-- The finished run of a call with `0 <= num_segments < INT_MAX`, written
out: the vectors the loop leaves, the positions, the scalars of the setup
phase, the number of passes and the console of the loop. -/
theorem solveRun_eq (m : CMath α) (s : NumericalSolver α) (hN : 0 ≤ s.num_segments)
    (hmax : s.num_segments < INT_MAX) :
    solveRun m s = Except.ok
      { results :=
          { setupScalars m s with
            hot_temperatures := (finalLoopState m s).hot_temperatures,
            cold_temperatures := (finalLoopState m s).cold_temperatures,
            positions := fillPositions s.num_segments.toNat
              (s.geometry.length / (s.num_segments : α))
              (List.replicate (s.num_segments.toNat + 1) (0.0 : α)) },
        iterations := (finalLoopState m s).iterations,
        console := (finalLoopState m s).console } := by
  have h0 : ¬ INT_MAX < s.num_segments + 1 := by omega
  have h1 : ¬ s.num_segments + 1 < 0 := by omega
  have h2 : ¬ s.num_segments + 1 = 0 := by omega
  simp only [solveRun, if_neg h0, if_neg h1, if_neg h2]

/-- A record returned by the call comes from a finished run. -/
theorem solve_ok_run (m : CMath α) (s : NumericalSolver α) (r : SolutionResults α)
    (h : solveTemperatureDistribution m s = Except.ok r) :
    ∃ run, solveRun m s = Except.ok run ∧ run.results = r := by
  unfold solveTemperatureDistribution at h
  cases hrun : solveRun m s with
  | error e => rw [hrun] at h; simp [Except.map] at h
  | ok run =>
    rw [hrun] at h
    simp only [Except.map, Except.ok.injEq] at h
    exact ⟨run, rfl, h⟩

/-- A call that returns a record has `0 <= num_segments < INT_MAX`. -/
theorem solve_ok_range (m : CMath α) (s : NumericalSolver α) (r : SolutionResults α)
    (h : solveTemperatureDistribution m s = Except.ok r) :
    0 ≤ s.num_segments ∧ s.num_segments < INT_MAX := by
  obtain ⟨run, hrun, _⟩ := solve_ok_run m s r h
  exact solveRun_ok_range m s run hrun

/-- A call with `0 <= num_segments < INT_MAX` returns a record with
`num_segments + 1` hot and cold temperatures; nothing else in the input can
make it fail. -/
theorem solve_returns_profile (m : CMath α) (s : NumericalSolver α)
    (hN : 0 ≤ s.num_segments) (hmax : s.num_segments < INT_MAX) :
    ∃ r, solveTemperatureDistribution m s = Except.ok r
      ∧ r.hot_temperatures.length = s.num_segments.toNat + 1
      ∧ r.cold_temperatures.length = s.num_segments.toNat + 1 := by
  obtain ⟨run, k, hrun, _, _, _, hhot, hcold, _, _⟩ := solveRun_spec m s hN hmax
  refine ⟨run.results, solveTemperatureDistribution_of_run m s run hrun, ?_, ?_⟩
  · rw [hhot]; exact (solveState_length m s k).1
  · rw [hcold]; exact (solveState_length m s k).2

/-- The record returned by a call with `0 <= num_segments < INT_MAX` holds
the two vectors the loop leaves. -/
theorem solve_ok_final (m : CMath α) (s : NumericalSolver α) (hN : 0 ≤ s.num_segments)
    (hmax : s.num_segments < INT_MAX) :
    ∃ r, solveTemperatureDistribution m s = Except.ok r
      ∧ r.hot_temperatures = (finalLoopState m s).hot_temperatures
      ∧ r.cold_temperatures = (finalLoopState m s).cold_temperatures :=
  ⟨_, solveTemperatureDistribution_of_run m s _ (solveRun_eq m s hN hmax), rfl, rfl⟩

/-- A call whose loop ends with the warning on the console had no pass among
the 1000 with `max_change` below the tolerance. -/
theorem no_pass_converged_of_warning (m : CMath α) (s : NumericalSolver α)
    (hN : 0 ≤ s.num_segments) (hmax : s.num_segments < INT_MAX)
    (h : (finalLoopState m s).console = [ConsoleLine.max_iterations_warning]) :
    ∀ j, 1 ≤ j → j ≤ 1000 → ¬ solveChange m s j < 1e-6 := by
  obtain ⟨run, k, hrun, hk1, _, hmin, _, _, _, hcons⟩ := solveRun_spec m s hN hmax
  have hcon : run.console = [ConsoleLine.max_iterations_warning] := by
    rw [solveRun_eq m s hN hmax] at hrun
    cases hrun
    exact h
  intro j hj1 hj2
  rcases hcons with ⟨_, hc⟩ | ⟨hc, hk, _⟩
  · rw [hcon] at hc
    simp at hc
  · subst hk
    rcases Nat.lt_or_ge j 1000 with h | h
    · exact hmin j hj1 h
    · have : j = 1000 := by omega
      subst this
      exact hc

/-- A call none of whose 1000 passes meets the tolerance leaves its loop in the
state after 1000 passes, with the warning on the console. -/
theorem finalLoopState_of_no_convergence (m : CMath α) (s : NumericalSolver α)
    (hN : 0 ≤ s.num_segments) (hmax : s.num_segments < INT_MAX)
    (h : ∀ j, 1 ≤ j → j ≤ 1000 → ¬ solveChange m s j < 1e-6) :
    (finalLoopState m s).hot_temperatures = (solveState m s 1000).1
      ∧ (finalLoopState m s).cold_temperatures = (solveState m s 1000).2
      ∧ (finalLoopState m s).console = [ConsoleLine.max_iterations_warning] := by
  obtain ⟨run, k, hrun, hk1, hk2, _, hhot, hcold, _, hcons⟩ := solveRun_spec m s hN hmax
  rw [solveRun_eq m s hN hmax] at hrun
  cases hrun
  rcases hcons with ⟨hc, _⟩ | ⟨_, hk, hcon⟩
  · exact absurd hc (h k hk1 hk2)
  · subst hk
    exact ⟨hhot, hcold, hcon⟩

/-- Two calls on the same geometry and segment count return the same record
when their setup phases give the same scalars and their loops leave the same
vectors. -/
theorem solve_eq_of_final_eq (m : CMath α) (s s' : NumericalSolver α)
    (hN : 0 ≤ s.num_segments) (hmax : s.num_segments < INT_MAX)
    (hn : s'.num_segments = s.num_segments) (hg : s'.geometry = s.geometry)
    (hs : setupScalars m s' = setupScalars m s)
    (hh : (finalLoopState m s').hot_temperatures = (finalLoopState m s).hot_temperatures)
    (hc : (finalLoopState m s').cold_temperatures = (finalLoopState m s).cold_temperatures) :
    solveTemperatureDistribution m s' = solveTemperatureDistribution m s := by
  rw [solveTemperatureDistribution_of_run m s _ (solveRun_eq m s hN hmax),
    solveTemperatureDistribution_of_run m s' _
      (solveRun_eq m s' (by rw [hn]; exact hN) (by rw [hn]; exact hmax)),
    hn, hg, hs, hh, hc]

/-- A call with `num_segments = 0` returns the one-node profile made of the
two inlet temperatures. -/
theorem solve_zero_segments (m : CMath α) (s : NumericalSolver α)
    (hN : s.num_segments = 0) :
    ∃ r, solveTemperatureDistribution m s = Except.ok r
      ∧ r.hot_temperatures = [s.hot_fluid.inlet_temp]
      ∧ r.cold_temperatures = [s.cold_fluid.inlet_temp] := by
  obtain ⟨run, k, hrun, hk1, _, _, hhot, hcold, _, _⟩ :=
    solveRun_spec m s (by omega) (by rw [hN]; decide)
  have hl := solveState_length m s k
  have hb := solveState_boundary m s k hk1
  rw [hN] at hl hb
  refine ⟨run.results, solveTemperatureDistribution_of_run m s run hrun, ?_, ?_⟩
  · rw [hhot]; exact eq_singleton_of_getD hl.1 hb.1
  · rw [hcold]; exact eq_singleton_of_getD hl.2 hb.2

/-- A call with `num_segments <= -2` ends in the length error of `resize`. -/
theorem solve_negative_segments (m : CMath α) (s : NumericalSolver α)
    (hN : s.num_segments ≤ -2) :
    solveTemperatureDistribution m s = Except.error SolverFault.length_error := by
  have h0 : ¬ INT_MAX < s.num_segments + 1 := by
    have : INT_MAX = 2147483647 := rfl
    omega
  have h1 : s.num_segments + 1 < 0 := by omega
  simp [solveTemperatureDistribution, solveRun, h0, h1, Except.map]

/-! ## Claims -/

/-- C1. For every segment count `N >= 1` and every input, the temperatures
after each pass of the solver loop, and every record the call returns, have
the hot inlet temperature at `hot_temperatures[0]` and the cold inlet
temperature at `cold_temperatures[N]`, exactly (whatever the arithmetic
computes); and the call does return a record when `N < INT_MAX` (at
`N = INT_MAX` sizing the arrays fails and nothing is returned). -/
theorem boundary_nodes_fixed (m : CMath α) (s : NumericalSolver α)
    (hN : 1 ≤ s.num_segments) :
    (∀ k, 1 ≤ k →
        (solveState m s k).1[0]? = some s.hot_fluid.inlet_temp
          ∧ (solveState m s k).2[s.num_segments.toNat]? = some s.cold_fluid.inlet_temp)
      ∧ (∀ r, solveTemperatureDistribution m s = Except.ok r →
          r.hot_temperatures[0]? = some s.hot_fluid.inlet_temp
            ∧ r.cold_temperatures[s.num_segments.toNat]? = some s.cold_fluid.inlet_temp)
      ∧ (s.num_segments < INT_MAX → ∃ r, solveTemperatureDistribution m s = Except.ok r) := by
  have hstate : ∀ k, 1 ≤ k →
      (solveState m s k).1[0]? = some s.hot_fluid.inlet_temp
        ∧ (solveState m s k).2[s.num_segments.toNat]? = some s.cold_fluid.inlet_temp := by
    intro k hk
    have hl := solveState_length m s k
    have hb := solveState_boundary m s k hk
    exact ⟨getElem?_of_getD (by rw [hl.1]; omega) hb.1,
      getElem?_of_getD (by rw [hl.2]; omega) hb.2⟩
  refine ⟨hstate, ?_, ?_⟩
  · intro r hr
    obtain ⟨run, hrun, hres⟩ := solve_ok_run m s r hr
    obtain ⟨run2, k, hrun2, hk1, _, _, hhot, hcold, _, _⟩ :=
      solveRun_spec m s (by omega) (solveRun_ok_range m s run hrun).2
    rw [hrun] at hrun2
    cases hrun2
    rw [← hres, hhot, hcold]
    exact hstate k hk1
  · intro hmax
    obtain ⟨r, hr, _⟩ := solve_returns_profile m s (by omega) hmax
    exact ⟨r, hr⟩

/-- Witness of C1: the end-to-end scenario with 50 segments. -/
theorem boundary_nodes_fixed_witness :
    (1 : Int) ≤ (sampleSolver 50).num_segments
      ∧ ∃ r, solveTemperatureDistribution ratMath (sampleSolver 50) = Except.ok r
          ∧ r.hot_temperatures[0]? = some 353
          ∧ r.cold_temperatures[50]? = some 293 := by
  obtain ⟨_, h2, h3⟩ := boundary_nodes_fixed ratMath (sampleSolver 50) (by decide)
  obtain ⟨r, hr⟩ := h3 (by decide)
  exact ⟨by decide, r, hr, h2 r hr⟩

/-- C7. For `1 <= N < INT_MAX`, the segment counts with which the loop is
entered (at `N = INT_MAX` sizing the arrays fails before any pass), the call
does not fail. When none of the 1000 passes has `max_change < 1e-6` it writes
the did-not-converge warning (and nothing else) and returns the temperatures
as they stand after the 1000th pass. The warning is written in that case only
and never next to a convergence report; a run whose 1000th pass is the first
to meet the tolerance reports convergence after 1000 iterations and no
warning. Here `max_change` is the value the loop computes. -/
theorem nonconvergence_is_a_warning (m : CMath α) (s : NumericalSolver α)
    (hN : 1 ≤ s.num_segments) (hmax : s.num_segments < INT_MAX) :
    ∃ run, solveRun m s = Except.ok run
      ∧ solveTemperatureDistribution m s = Except.ok run.results
      ∧ ((∀ j, 1 ≤ j → j ≤ 1000 → ¬ solveChange m s j < 1e-6) →
          run.console = [ConsoleLine.max_iterations_warning]
            ∧ run.results.hot_temperatures = (solveState m s 1000).1
            ∧ run.results.cold_temperatures = (solveState m s 1000).2)
      ∧ (ConsoleLine.max_iterations_warning ∈ run.console →
          (∀ j, 1 ≤ j → j ≤ 1000 → ¬ solveChange m s j < 1e-6)
            ∧ ∀ k, ConsoleLine.converged k ∉ run.console)
      ∧ ((∀ j, 1 ≤ j → j < 1000 → ¬ solveChange m s j < 1e-6) →
          solveChange m s 1000 < 1e-6 →
          run.console = [ConsoleLine.converged 1000]) := by
  obtain ⟨run, k, hrun, hk1, hk2, hmin, hhot, hcold, _, hcons⟩ :=
    solveRun_spec m s (by omega) hmax
  refine ⟨run, hrun, solveTemperatureDistribution_of_run m s run hrun, ?_, ?_, ?_⟩
  · intro hnone
    rcases hcons with ⟨hc, _⟩ | ⟨_, hk, hcon⟩
    · exact absurd hc (hnone k hk1 hk2)
    · subst hk; exact ⟨hcon, hhot, hcold⟩
  · intro hmem
    rcases hcons with ⟨_, hcon⟩ | ⟨hc, hk, hcon⟩
    · rw [hcon] at hmem; simp at hmem
    · subst hk
      refine ⟨fun j hj1 hj2 => ?_, fun k => by rw [hcon]; simp⟩
      rcases Nat.lt_or_ge j 1000 with h | h
      · exact hmin j hj1 h
      · have : j = 1000 := by omega
        subst this; exact hc
  · intro hbefore hlast
    rcases hcons with ⟨hc, hcon⟩ | ⟨hc, hk, _⟩
    · rcases Nat.lt_or_ge k 1000 with h | h
      · exact absurd hc (hbefore k hk1 h)
      · have : k = 1000 := by omega
        subst this; exact hcon
    · subst hk; exact absurd hlast hc

/-- Witness of C7: the end-to-end scenario with 50 segments does not fail. -/
theorem nonconvergence_is_a_warning_witness :
    (1 : Int) ≤ (sampleSolver 50).num_segments ∧ (sampleSolver 50).num_segments < INT_MAX
      ∧ ∃ run, solveRun ratMath (sampleSolver 50) = Except.ok run
          ∧ solveTemperatureDistribution ratMath (sampleSolver 50) = Except.ok run.results := by
  obtain ⟨run, h1, h2, _⟩ :=
    nonconvergence_is_a_warning ratMath (sampleSolver 50) (by decide) (by decide)
  exact ⟨by decide, by decide, run, h1, h2⟩

/-- C8, refuted as stated: with `C_hot = 0` (hot specific heat 0, one segment)
the call signals nothing and returns a two-node profile. -/
theorem zero_capacity_rate_returns_profile :
    zeroCapacitySolver.hot_fluid.mass_flow * zeroCapacitySolver.hot_fluid.specific_heat = 0
      ∧ ∃ r, solveTemperatureDistribution ratMath zeroCapacitySolver = Except.ok r
          ∧ r.hot_temperatures.length = 2 ∧ r.cold_temperatures.length = 2 :=
  ⟨by simp [zeroCapacitySolver],
    solve_returns_profile ratMath zeroCapacitySolver (by decide) (by decide)⟩

/-- C8, amended. The call does not look at the heat-capacity rates: for every
`0 <= N < INT_MAX` and every value of the two rates, zero and negative ones
included, it returns a profile of `N + 1` hot and `N + 1` cold temperatures,
and no fault of any kind is signalled. The only faults of the call are those
of sizing the arrays, for `N <= -1` and `N = INT_MAX`, whatever the rates. -/
theorem capacity_rates_not_validated (m : CMath α) (s : NumericalSolver α)
    (hN : 0 ≤ s.num_segments) (hmax : s.num_segments < INT_MAX) :
    (∃ r, solveTemperatureDistribution m s = Except.ok r
        ∧ r.hot_temperatures.length = s.num_segments.toNat + 1
        ∧ r.cold_temperatures.length = s.num_segments.toNat + 1)
      ∧ ∀ e, solveTemperatureDistribution m s ≠ Except.error e := by
  obtain ⟨r, hr, h1, h2⟩ := solve_returns_profile m s hN hmax
  exact ⟨⟨r, hr, h1, h2⟩, fun e he => by rw [hr] at he; cases he⟩

/-- Witness of C8 amended: a cold stream of negative specific heat. -/
theorem capacity_rates_not_validated_witness :
    (0 : Int) ≤ 3 ∧ (3 : Int) < INT_MAX
      ∧ ∀ e, solveTemperatureDistribution ratMath
          { sampleSolver 3 with cold_fluid := { sampleCold with specific_heat := -4180 } }
            ≠ Except.error e :=
  ⟨by decide, by decide,
    (capacity_rates_not_validated ratMath
      { sampleSolver 3 with cold_fluid := { sampleCold with specific_heat := -4180 } }
      (by decide) (by decide)).2⟩

/-- C9, refuted as stated: with `N = 0` the call signals nothing and returns
the one-node profile of the two inlet temperatures. -/
theorem zero_segments_returns_profile :
    (sampleSolver 0).num_segments < 1
      ∧ ∃ r, solveTemperatureDistribution ratMath (sampleSolver 0) = Except.ok r
          ∧ r.hot_temperatures = [353] ∧ r.cold_temperatures = [293] :=
  ⟨by decide, solve_zero_segments ratMath (sampleSolver 0) rfl⟩

/-- C9, amended. The segment count is not validated. For `N <= -2` the call
returns no profile because sizing the arrays fails with the length error of
`resize`; for `N = 0` it signals nothing and returns the one-node profile made
of the hot and the cold inlet temperature. -/
theorem segment_count_not_validated (m : CMath α) (s : NumericalSolver α) :
    (s.num_segments ≤ -2 →
        solveTemperatureDistribution m s = Except.error SolverFault.length_error)
      ∧ (s.num_segments = 0 →
          ∃ r, solveTemperatureDistribution m s = Except.ok r
            ∧ r.hot_temperatures = [s.hot_fluid.inlet_temp]
            ∧ r.cold_temperatures = [s.cold_fluid.inlet_temp]) :=
  ⟨solve_negative_segments m s, solve_zero_segments m s⟩

/-- C10, amended. The record returned carries no convergence status; the
status is only written to the console. For `1 <= N < INT_MAX` the call returns
the plain record and writes exactly one line: the convergence report exactly
when some pass among the 1000 had `max_change < 1e-6`, the warning exactly
when none had. -/
theorem convergence_status_on_console_only (m : CMath α) (s : NumericalSolver α)
    (hN : 1 ≤ s.num_segments) (hmax : s.num_segments < INT_MAX) :
    ∃ run, solveRun m s = Except.ok run
      ∧ solveTemperatureDistribution m s = Except.ok run.results
      ∧ ((∃ j, 1 ≤ j ∧ j ≤ 1000 ∧ solveChange m s j < 1e-6)
          ↔ ∃ k, run.console = [ConsoleLine.converged k])
      ∧ ((∀ j, 1 ≤ j → j ≤ 1000 → ¬ solveChange m s j < 1e-6)
          ↔ run.console = [ConsoleLine.max_iterations_warning]) := by
  obtain ⟨run, k, hrun, hk1, hk2, hmin, _, _, _, hcons⟩ := solveRun_spec m s (by omega) hmax
  refine ⟨run, hrun, solveTemperatureDistribution_of_run m s run hrun, ?_, ?_⟩
  · rcases hcons with ⟨hc, hcon⟩ | ⟨hc, hk, hcon⟩
    · exact ⟨fun _ => ⟨k, hcon⟩, fun _ => ⟨k, hk1, hk2, hc⟩⟩
    · subst hk
      constructor
      · rintro ⟨j, hj1, hj2, hj⟩
        rcases Nat.lt_or_ge j 1000 with h | h
        · exact absurd hj (hmin j hj1 h)
        · have : j = 1000 := by omega
          subst this; exact absurd hj hc
      · rintro ⟨k, hk⟩
        rw [hcon] at hk; simp at hk
  · rcases hcons with ⟨hc, hcon⟩ | ⟨hc, hk, hcon⟩
    · constructor
      · intro hnone; exact absurd hc (hnone k hk1 hk2)
      · intro hw; rw [hcon] at hw; simp at hw
    · subst hk
      refine ⟨fun _ => hcon, fun _ j hj1 hj2 => ?_⟩
      rcases Nat.lt_or_ge j 1000 with h | h
      · exact hmin j hj1 h
      · have : j = 1000 := by omega
        subst this; exact hc

/-- Witness of C10 amended: the end-to-end scenario with 50 segments. -/
theorem convergence_status_on_console_only_witness :
    (1 : Int) ≤ (sampleSolver 50).num_segments ∧ (sampleSolver 50).num_segments < INT_MAX
      ∧ ∃ run, solveRun ratMath (sampleSolver 50) = Except.ok run
          ∧ ((∃ j, 1 ≤ j ∧ j ≤ 1000 ∧ solveChange ratMath (sampleSolver 50) j < 1e-6)
              ↔ ∃ k, run.console = [ConsoleLine.converged k]) := by
  obtain ⟨run, h1, _, h2, _⟩ :=
    convergence_status_on_console_only ratMath (sampleSolver 50) (by decide) (by decide)
  exact ⟨by decide, by decide, run, h1, h2⟩

end Solve

/-! ## Claims read in exact arithmetic -/

section Exact

variable {α : Type} [LinearOrderedField α]

theorem loopConsts_UA_segment (m : CMath α) (s : NumericalSolver α) :
    (loopConsts m s).UA_segment
      = (setupScalars m s).overall_htc * M_PI * s.geometry.tube_diameter * s.geometry.length
          * (s.geometry.num_tubes : α) / (s.num_segments : α) := by
  simp only [loopConsts, totalTubeArea]
  ring

theorem loopConsts_num_segments (m : CMath α) (s : NumericalSolver α) :
    (loopConsts m s).num_segments = s.num_segments.toNat := rfl

/-- C2. Within one pass (the one that starts from the temperatures `old` held
after `k` passes), for every `i` from 1 to `N` the hot sweep leaves
`hot[i] = hot[i-1] - UA_segment * (hot[i-1] - (cold[N-i] + cold[N-i+1]) / 2) / C_hot`,
where `hot[i-1]` is the value of the same swept vector, the cold values are
those of `old`, `hot[0]` is the one of `old`,
`UA_segment = overall_htc * pi * tube_diameter * length * num_tubes / N` and
`C_hot = mass_flow * specific_heat` of the hot stream. -/
theorem hot_sweep_formula (m : CMath α) (s : NumericalSolver α) (_hN : 1 ≤ s.num_segments)
    (k i : Nat) (h1 : 1 ≤ i) (hi : i ≤ s.num_segments.toNat) :
    (hotSweep (loopConsts m s) (solveState m s k).2 (solveState m s k).1).getD i 0.0
        = (hotSweep (loopConsts m s) (solveState m s k).2 (solveState m s k).1).getD (i - 1) 0.0
          - ((setupScalars m s).overall_htc * M_PI * s.geometry.tube_diameter
                * s.geometry.length * (s.geometry.num_tubes : α) / (s.num_segments : α))
              * ((hotSweep (loopConsts m s) (solveState m s k).2
                    (solveState m s k).1).getD (i - 1) 0.0
                  - ((solveState m s k).2.getD (s.num_segments.toNat - i) 0.0
                      + (solveState m s k).2.getD (s.num_segments.toNat - i + 1) 0.0) / 2)
            / (s.hot_fluid.mass_flow * s.hot_fluid.specific_heat)
      ∧ (hotSweep (loopConsts m s) (solveState m s k).2 (solveState m s k).1).getD 0 0.0
          = (solveState m s k).1.getD 0 0.0 := by
  have hl := solveState_length m s k
  constructor
  · rw [hotSweep_eq_upTo]
    rw [hotSweepUpTo_spec (loopConsts m s) _ _ _ (by rw [hl.1, loopConsts_num_segments]; omega)
      i h1 (by rw [loopConsts_num_segments]; exact hi)]
    have h2 : (2.0 : α) = 2 := by norm_num
    simp only [hotUpdate, loopConsts_UA_segment, loopConsts_num_segments, h2]
    rfl
  · rw [hotSweep_eq_upTo]
    exact hotSweepUpTo_untouched _ _ _ _ 0 (Or.inl rfl)

/-- Witness of C2: the end-to-end scenario with 50 segments, first pass, the
node next to the hot inlet. -/
theorem hot_sweep_formula_witness :
    (1 : Int) ≤ (sampleSolver 50).num_segments ∧ 1 ≤ 1 ∧ 1 ≤ (sampleSolver 50).num_segments.toNat
      ∧ (hotSweep (loopConsts ratMath (sampleSolver 50)) (solveState ratMath (sampleSolver 50) 0).2
            (solveState ratMath (sampleSolver 50) 0).1).getD 0 0.0
          = (solveState ratMath (sampleSolver 50) 0).1.getD 0 0.0 :=
  ⟨by decide, by decide, by decide,
    (hot_sweep_formula ratMath (sampleSolver 50) (by decide) 0 1 (by decide) (by decide)).2⟩

/-- C3. Within one pass, for every `i` from `N-1` down to 0 the cold sweep
leaves
`cold[i] = cold[i+1] + UA_segment * ((hot[N-i-1] + hot[N-i]) / 2 - cold[i+1]) / C_cold`,
where `cold[i+1]` is the value of the same swept vector, the hot values are
those the hot sweep of this pass produced, `cold[N]` is the one held at the
start of the pass, and `C_cold = mass_flow * specific_heat` of the cold
stream. -/
theorem cold_sweep_formula (m : CMath α) (s : NumericalSolver α) (_hN : 1 ≤ s.num_segments)
    (k i : Nat) (hi : i < s.num_segments.toNat) :
    (coldSweep (loopConsts m s)
          (hotSweep (loopConsts m s) (solveState m s k).2 (solveState m s k).1)
          (solveState m s k).2).getD i 0.0
        = (coldSweep (loopConsts m s)
              (hotSweep (loopConsts m s) (solveState m s k).2 (solveState m s k).1)
              (solveState m s k).2).getD (i + 1) 0.0
          + ((setupScalars m s).overall_htc * M_PI * s.geometry.tube_diameter
                * s.geometry.length * (s.geometry.num_tubes : α) / (s.num_segments : α))
              * (((hotSweep (loopConsts m s) (solveState m s k).2
                      (solveState m s k).1).getD (s.num_segments.toNat - i - 1) 0.0
                    + (hotSweep (loopConsts m s) (solveState m s k).2
                        (solveState m s k).1).getD (s.num_segments.toNat - i) 0.0) / 2
                  - (coldSweep (loopConsts m s)
                      (hotSweep (loopConsts m s) (solveState m s k).2 (solveState m s k).1)
                      (solveState m s k).2).getD (i + 1) 0.0)
            / (s.cold_fluid.mass_flow * s.cold_fluid.specific_heat)
      ∧ (coldSweep (loopConsts m s)
            (hotSweep (loopConsts m s) (solveState m s k).2 (solveState m s k).1)
            (solveState m s k).2).getD s.num_segments.toNat 0.0
          = (solveState m s k).2.getD s.num_segments.toNat 0.0 := by
  have hl := solveState_length m s k
  constructor
  · rw [coldSweep_eq_from]
    rw [coldSweepFrom_spec (loopConsts m s) _ _ 0 _
      (by rw [hl.2, loopConsts_num_segments]; omega) i (Nat.zero_le i)
      (by rw [loopConsts_num_segments]; omega)]
    have h2 : (2.0 : α) = 2 := by norm_num
    simp only [coldUpdate, loopConsts_UA_segment, loopConsts_num_segments, h2]
    rfl
  · rw [coldSweep_eq_from]
    exact coldSweepFrom_untouched _ _ _ 0 _ _ (Or.inr (by rw [loopConsts_num_segments]; omega))

/-- Witness of C3: the end-to-end scenario with 50 segments, first pass, the
node next to the cold inlet. -/
theorem cold_sweep_formula_witness :
    (1 : Int) ≤ (sampleSolver 50).num_segments ∧ 49 < (sampleSolver 50).num_segments.toNat
      ∧ (coldSweep (loopConsts ratMath (sampleSolver 50))
            (hotSweep (loopConsts ratMath (sampleSolver 50))
              (solveState ratMath (sampleSolver 50) 0).2
              (solveState ratMath (sampleSolver 50) 0).1)
            (solveState ratMath (sampleSolver 50) 0).2).getD 50 0.0
          = (solveState ratMath (sampleSolver 50) 0).2.getD 50 0.0 :=
  ⟨by decide, by decide,
    (cold_sweep_formula ratMath (sampleSolver 50) (by decide) 0 49 (by decide)).2⟩

/-- C5. In every pass, each node other than the two boundary nodes ends the
pass at `0.5 * (value the sweep of this pass produced) + 0.5 * (value held at
the start of the pass)`: hot nodes `1 .. N` and cold nodes `0 .. N-1`, with the
same factor 0.5 at every node and in every pass. -/
theorem relaxation_half (m : CMath α) (s : NumericalSolver α) (_hN : 1 ≤ s.num_segments)
    (k : Nat) :
    (∀ i, 1 ≤ i → i ≤ s.num_segments.toNat →
        (solveState m s (k + 1)).1.getD i 0.0
          = 0.5 * (hotSweep (loopConsts m s) (solveState m s k).2
                    (solveState m s k).1).getD i 0.0
            + 0.5 * (solveState m s k).1.getD i 0.0)
      ∧ (∀ i, i < s.num_segments.toNat →
          (solveState m s (k + 1)).2.getD i 0.0
            = 0.5 * (coldSweep (loopConsts m s)
                      (hotSweep (loopConsts m s) (solveState m s k).2 (solveState m s k).1)
                      (solveState m s k).2).getD i 0.0
              + 0.5 * (solveState m s k).2.getD i 0.0) := by
  have hl := solveState_length m s k
  have hh : (1.0 - 0.5 : α) = 0.5 := by norm_num
  constructor
  · intro i h1 hi
    have h := iterationBody_hot (loopConsts m s) (solveState m s k) i h1 hi hl.1 hl.2
    rw [hh] at h
    simpa [solveState, stateAfter_succ] using h
  · intro i hi
    have h := iterationBody_cold (loopConsts m s) (solveState m s k) i hi hl.1 hl.2
    rw [hh] at h
    simpa [solveState, stateAfter_succ] using h

/-- Witness of C5: the end-to-end scenario with 50 segments, second pass. -/
theorem relaxation_half_witness :
    (1 : Int) ≤ (sampleSolver 50).num_segments
      ∧ ∀ i, 1 ≤ i → i ≤ (sampleSolver 50).num_segments.toNat →
        (solveState ratMath (sampleSolver 50) (1 + 1)).1.getD i 0.0
          = 0.5 * (hotSweep (loopConsts ratMath (sampleSolver 50))
                    (solveState ratMath (sampleSolver 50) 1).2
                    (solveState ratMath (sampleSolver 50) 1).1).getD i 0.0
            + 0.5 * (solveState ratMath (sampleSolver 50) 1).1.getD i 0.0 :=
  ⟨by decide, (relaxation_half ratMath (sampleSolver 50) (by decide) 1).1⟩

theorem stdMax_eq_max (a b : α) : stdMax a b = max a b := by
  unfold stdMax
  split_ifs with h
  · exact (max_eq_right h.le).symm
  · exact (max_eq_left (not_lt.mp h)).symm

theorem stdAbs_eq_abs (x : α) : stdAbs x = |x| := by
  have h0 : (0.0 : α) = 0 := by norm_num
  unfold stdAbs
  rw [h0]
  split_ifs with h
  · exact (abs_of_neg h).symm
  · exact (abs_of_nonneg (not_lt.mp h)).symm

/-- The convergence loop after its passes `0 .. k - 1`: the running maximum is
non-negative, bounds every difference seen so far, and is 0 or one of them. -/
theorem maxChange_fold (hot_old cold_old hot cold : List α) (k : Nat) :
    0 ≤ (List.range k).foldl (maxChangeBody hot_old cold_old hot cold) 0.0
      ∧ (∀ i, i < k →
          |hot.getD i 0.0 - hot_old.getD i 0.0|
              ≤ (List.range k).foldl (maxChangeBody hot_old cold_old hot cold) 0.0
            ∧ |cold.getD i 0.0 - cold_old.getD i 0.0|
              ≤ (List.range k).foldl (maxChangeBody hot_old cold_old hot cold) 0.0)
      ∧ ((List.range k).foldl (maxChangeBody hot_old cold_old hot cold) 0.0 = 0
          ∨ ∃ i, i < k
            ∧ ((List.range k).foldl (maxChangeBody hot_old cold_old hot cold) 0.0
                  = |hot.getD i 0.0 - hot_old.getD i 0.0|
                ∨ (List.range k).foldl (maxChangeBody hot_old cold_old hot cold) 0.0
                  = |cold.getD i 0.0 - cold_old.getD i 0.0|)) := by
  induction k with
  | zero =>
    have h0 : (0.0 : α) = 0 := by norm_num
    simp [h0]
  | succ k ih =>
    obtain ⟨hpos, hbound, hatt⟩ := ih
    rw [List.range_succ, List.foldl_append, List.foldl_cons, List.foldl_nil]
    generalize (List.range k).foldl (maxChangeBody hot_old cold_old hot cold) 0.0 = mc
      at hpos hbound hatt ⊢
    simp only [maxChangeBody, stdMax_eq_max, stdAbs_eq_abs]
    refine ⟨le_max_of_le_left (le_max_of_le_left hpos), ?_, ?_⟩
    · intro i hi
      rcases Nat.lt_succ_iff_lt_or_eq.mp hi with h | h
      · exact ⟨le_max_of_le_left (le_max_of_le_left (hbound i h).1),
          le_max_of_le_left (le_max_of_le_left (hbound i h).2)⟩
      · subst h
        exact ⟨le_max_of_le_left (le_max_right _ _), le_max_right _ _⟩
    · rcases max_choice (max mc |hot.getD k 0.0 - hot_old.getD k 0.0|)
          |cold.getD k 0.0 - cold_old.getD k 0.0| with h | h
      · rw [h]
        rcases max_choice mc |hot.getD k 0.0 - hot_old.getD k 0.0| with h2 | h2
        · rw [h2]
          rcases hatt with h3 | ⟨i, hi, h3⟩
          · exact Or.inl h3
          · exact Or.inr ⟨i, Nat.lt_succ_of_lt hi, h3⟩
        · rw [h2]
          exact Or.inr ⟨k, Nat.lt_succ_self k, Or.inl rfl⟩
      · rw [h]
        exact Or.inr ⟨k, Nat.lt_succ_self k, Or.inr rfl⟩

/-- In exact arithmetic `max_change` is the largest absolute difference, over
the nodes `0 .. N` of both vectors, between the new and the old temperatures:
it bounds all of them and is one of them. -/
theorem maxChange_is_largest (c : LoopConsts α) (hot_old cold_old hot cold : List α) :
    (∀ i, i ≤ c.num_segments →
        |hot.getD i 0.0 - hot_old.getD i 0.0| ≤ maxChange c hot_old cold_old hot cold
          ∧ |cold.getD i 0.0 - cold_old.getD i 0.0| ≤ maxChange c hot_old cold_old hot cold)
      ∧ ∃ i, i ≤ c.num_segments
          ∧ (maxChange c hot_old cold_old hot cold = |hot.getD i 0.0 - hot_old.getD i 0.0|
            ∨ maxChange c hot_old cold_old hot cold
                = |cold.getD i 0.0 - cold_old.getD i 0.0|) := by
  obtain ⟨_, hbound, hatt⟩ := maxChange_fold hot_old cold_old hot cold (c.num_segments + 1)
  refine ⟨fun i hi => hbound i (Nat.lt_succ_of_le hi), ?_⟩
  rcases hatt with h | ⟨i, hi, h⟩
  · refine ⟨0, Nat.zero_le _, Or.inl ?_⟩
    have h1 := (hbound 0 (Nat.succ_pos _)).1
    rw [h] at h1
    have h2 : maxChange c hot_old cold_old hot cold = 0 := h
    rw [h2]
    exact le_antisymm (abs_nonneg _) h1
  · exact ⟨i, Nat.le_of_lt_succ hi, h⟩

end Exact

section LoopBound

variable {α : Type} [Add α] [Sub α] [Mul α] [Div α] [Neg α] [OfScientific α] [IntCast α]
  [LT α] [∀ a b : α, Decidable (a < b)]

/-- C6, amended. In any arithmetic, that of `double` included, a call with
`1 <= N < INT_MAX` leaves its loop after at most 1000 passes: it returns having
made exactly `k` passes, where `k` is the least index in `1 .. 1000` whose
computed `max_change` is strictly below `1e-6`, and exactly 1000 passes when
there is no such index. The computed `max_change` of a pass is the running
`std::max`, started from 0.0, over the absolute differences, node by node and
for both vectors, between the temperatures at the end and at the start of that
pass. In exact arithmetic this running maximum is the largest of these
absolute differences: it bounds all of them and is one of them. (On doubles
`std::max` passes over a difference that is a NaN, so the running maximum can
be 0.0 while a node difference is a NaN.) -/
theorem loop_ends_within_1000 (m : CMath α) (s : NumericalSolver α)
    (hN : 1 ≤ s.num_segments) (hmax : s.num_segments < INT_MAX) :
    (∃ run k, solveRun m s = Except.ok run
        ∧ run.iterations = k ∧ 1 ≤ k ∧ k ≤ 1000
        ∧ (∀ j, 1 ≤ j → j < k → ¬ solveChange m s j < 1e-6)
        ∧ (solveChange m s k < 1e-6
            ∨ (k = 1000 ∧ ∀ j, 1 ≤ j → j ≤ 1000 → ¬ solveChange m s j < 1e-6)))
      ∧ (∀ j, solveChange m s j
          = (List.range (s.num_segments.toNat + 1)).foldl
              (fun max_change i =>
                stdMax
                  (stdMax max_change
                    (stdAbs ((solveState m s j).1.getD i 0.0
                      - (solveState m s (j - 1)).1.getD i 0.0)))
                  (stdAbs ((solveState m s j).2.getD i 0.0
                    - (solveState m s (j - 1)).2.getD i 0.0))) 0.0)
      ∧ ∀ (β : Type) [LinearOrderedField β] (m' : CMath β) (s' : NumericalSolver β) (j : Nat),
          (∀ i, i ≤ s'.num_segments.toNat →
              |(solveState m' s' j).1.getD i 0.0 - (solveState m' s' (j - 1)).1.getD i 0.0|
                  ≤ solveChange m' s' j
                ∧ |(solveState m' s' j).2.getD i 0.0
                    - (solveState m' s' (j - 1)).2.getD i 0.0|
                  ≤ solveChange m' s' j)
            ∧ ∃ i, i ≤ s'.num_segments.toNat
                ∧ (solveChange m' s' j
                      = |(solveState m' s' j).1.getD i 0.0
                          - (solveState m' s' (j - 1)).1.getD i 0.0|
                  ∨ solveChange m' s' j
                      = |(solveState m' s' j).2.getD i 0.0
                          - (solveState m' s' (j - 1)).2.getD i 0.0|) := by
  refine ⟨?_, fun j => rfl, ?_⟩
  · obtain ⟨run, k, hrun, hk1, hk2, hmin, _, _, hit, hcons⟩ :=
      solveRun_spec m s (by omega) hmax
    refine ⟨run, k, hrun, hit, hk1, hk2, hmin, ?_⟩
    rcases hcons with ⟨hc, _⟩ | ⟨hc, hk, _⟩
    · exact Or.inl hc
    · refine Or.inr ⟨hk, fun j hj1 hj2 => ?_⟩
      rcases Nat.lt_or_ge j k with h | h
      · exact hmin j hj1 h
      · have : j = k := by omega
        subst this; exact hc
  · intro β _ m' s' j
    exact maxChange_is_largest (loopConsts m' s') (solveState m' s' (j - 1)).1
      (solveState m' s' (j - 1)).2 (solveState m' s' j).1 (solveState m' s' j).2

/-- Witness of C6 amended: the end-to-end scenario with 50 segments. -/
theorem loop_ends_within_1000_witness :
    (1 : Int) ≤ (sampleSolver 50).num_segments ∧ (sampleSolver 50).num_segments < INT_MAX
      ∧ ∃ run k, solveRun ratMath (sampleSolver 50) = Except.ok run
          ∧ run.iterations = k ∧ 1 ≤ k ∧ k ≤ 1000
          ∧ (∀ j, 1 ≤ j → j < k → ¬ solveChange ratMath (sampleSolver 50) j < 1e-6)
          ∧ (solveChange ratMath (sampleSolver 50) k < 1e-6
              ∨ (k = 1000
                  ∧ ∀ j, 1 ≤ j → j ≤ 1000 → ¬ solveChange ratMath (sampleSolver 50) j < 1e-6)) :=
  ⟨by decide, by decide,
    (loop_ends_within_1000 ratMath (sampleSolver 50) (by decide) (by decide)).1⟩

end LoopBound

/-! ## Runs on concrete inputs -/

section Concrete

theorem ratMath_sq (x : ℚ) : ratMath.pow x ((2 : Int) : ℚ) = x * x := by
  simp [ratMath]

theorem M_PI_pos : (0 : ℚ) < M_PI := by
  unfold M_PI; norm_num

theorem unit_tubeArea : tubeArea ratMath (1 : ℚ) = M_PI / 4 := by
  unfold tubeArea
  rw [ratMath_sq]
  norm_num
  ring

theorem unit_shellFlowArea : shellFlowArea ratMath (2 : ℚ) (1 + ((2 : Int) : ℚ) * 0) 1 = 3 * M_PI / 4 := by
  unfold shellFlowArea
  simp only [ratMath_sq]
  norm_num
  ring

theorem unit_cold_reynolds :
    calculateReynolds ((0.785398163397448309615 : ℚ) / (1 * (M_PI / 4 * ((1 : Int) : ℚ)))) 1 1 1 = 1 := by
  unfold calculateReynolds M_PI
  norm_num

theorem unit_hot_reynolds :
    calculateReynolds ((1.1780972450961724644225 : ℚ) / (1 * (3 * M_PI / 4))) 2 1 1 = 1 := by
  unfold calculateReynolds M_PI
  norm_num

theorem unit_tube_nusselt : getTubeSideNusselt ratMath (1 : ℚ) 1 true = 3.66 := by
  unfold getTubeSideNusselt laminarTubeConstantWallTemp
  norm_num

theorem unit_shell_nusselt : getShellSideNusselt ratMath (1 : ℚ) 1 1 = 0.664 := by
  unfold getShellSideNusselt shellSideTubeBundles
  norm_num [ratMath]

theorem unit_overallHTC : overallHTC ratMath (2 : ℚ) 2 (1 / 2.0) (1 / 2.0 + 0) 1 = 1 := by
  unfold overallHTC
  norm_num [ratMath]

theorem unit_overall_htc (N : Int) (gh ch gc cc : ℚ) :
    (setupScalars ratMath (unitSolver N gh ch gc cc)).overall_htc = 1 := by
  simp only [setupScalars, unitSolver, unitGeometry, unitHot, unitCold]
  rw [unit_tubeArea, unit_shellFlowArea, unit_cold_reynolds, unit_hot_reynolds,
    unit_tube_nusselt, unit_shell_nusselt]
  have h1 : (3.66 : ℚ) * (100 / 183) / 1 = 2 := by norm_num
  have h2 : (0.664 : ℚ) * (500 / 83) / 2 = 2 := by norm_num
  rw [h1, h2]
  exact unit_overallHTC

theorem iterationBody_one_segment (UA Ch Cc Th Tc h0 h1 c0 c1 : ℚ) :
    iterationBody
        { num_segments := 1, UA_segment := UA, C_hot := Ch, C_cold := Cc, hot_inlet := Th,
          cold_inlet := Tc } ([h0, h1], [c0, c1])
      = ([Th, 0.5 * (h0 - UA * (h0 - (c0 + c1) / 2.0) / Ch) + (1.0 - 0.5) * h1],
         [0.5 * (c1 + UA * ((h0 + (h0 - UA * (h0 - (c0 + c1) / 2.0) / Ch)) / 2.0 - c1) / Cc)
            + (1.0 - 0.5) * c0, Tc]) := rfl

theorem unit_loopConsts (N : Int) (gh ch gc cc : ℚ) :
    loopConsts ratMath (unitSolver N gh ch gc cc)
      = { num_segments := N.toNat, UA_segment := M_PI / (N : ℚ),
          C_hot := 1.1780972450961724644225 * ch, C_cold := 0.785398163397448309615 * cc,
          hot_inlet := 353, cold_inlet := 293 } := by
  unfold loopConsts
  rw [unit_overall_htc]
  simp [unitSolver, unitGeometry, unitHot, unitCold, totalTubeArea]

theorem unit_initialTemperatures_one (gh ch gc cc : ℚ) :
    initialTemperatures (unitSolver 1 gh ch gc cc) = ([353, gh], [gc, 293]) := by
  simp [initialTemperatures, initialGuess, initialGuessBody, unitSolver, unitHot, unitCold,
    List.range_succ]

theorem unit_initialTemperatures_two (gh ch gc cc : ℚ) :
    initialTemperatures (unitSolver 2 gh ch gc cc)
      = ([353, 353 - 1 / 2 * (353 - gh), gh], [gc, gc + 1 / 2 * (293 - gc), 293]) := by
  simp [initialTemperatures, initialGuess, initialGuessBody, unitSolver, unitHot, unitCold,
    List.range_succ]

theorem nonConverging_loopConsts :
    loopConsts ratMath nonConvergingSolver = nonConvergingConsts := by
  unfold nonConvergingSolver nonConvergingConsts
  rw [unit_loopConsts]
  norm_num [M_PI]

theorem converging_loopConsts :
    loopConsts ratMath convergingSolver = convergingConsts := by
  unfold convergingSolver convergingConsts
  rw [unit_loopConsts]
  norm_num [M_PI]

theorem nonConverging_step (h c0 : ℚ) :
    iterationBody nonConvergingConsts ([353, h], [c0, 293])
      = ([353, (c0 + 293) / 4 + h / 2], [c0 + 60, 293]) := by
  unfold nonConvergingConsts
  rw [iterationBody_one_segment]
  have hp : (M_PI : ℚ) ≠ 0 := M_PI_pos.ne'
  have e1 : (0.5 : ℚ) * (353 - M_PI * (353 - (c0 + 293) / 2.0) / M_PI) + (1.0 - 0.5) * h
      = (c0 + 293) / 4 + h / 2 := by
    field_simp; ring
  have e2 : (0.5 : ℚ) * (293 + M_PI * ((353 + (353 - M_PI * (353 - (c0 + 293) / 2.0) / M_PI))
      / 2.0 - 293) / (M_PI / 4)) + (1.0 - 0.5) * c0 = c0 + 60 := by
    field_simp; ring
  rw [e1, e2]

theorem converging_step :
    iterationBody convergingConsts ([353, 30243], [60313, 293])
      = ([353, 30243], [60313, 293]) := by
  unfold convergingConsts
  rw [iterationBody_one_segment]
  have hp : (M_PI : ℚ) ≠ 0 := M_PI_pos.ne'
  have e1 : (0.5 : ℚ) * (353 - M_PI * (353 - (60313 + 293) / 2.0) / (M_PI * (2995 / 2989)))
      + (1.0 - 0.5) * 30243 = 30243 := by
    field_simp; ring
  have e2 : (0.5 : ℚ) * (293 + M_PI * ((353 + (353 - M_PI * (353 - (60313 + 293) / 2.0)
      / (M_PI * (2995 / 2989)))) / 2.0 - 293) / (M_PI / 4)) + (1.0 - 0.5) * 60313 = 60313 := by
    field_simp; ring
  rw [e1, e2]

theorem nonConverging_state (k : Nat) :
    stateAfter nonConvergingConsts ([353, 243], [313, 293]) k
      = ([353, 243 + 30 * (k : ℚ)], [313 + 60 * (k : ℚ), 293]) := by
  induction k with
  | zero => simp [stateAfter]
  | succ k ih =>
    rw [stateAfter_succ, ih, nonConverging_step]
    push_cast
    have e1 : (313 + 60 * (k : ℚ) + 293) / 4 + (243 + 30 * (k : ℚ)) / 2
        = 243 + 30 * ((k : ℚ) + 1) := by ring
    have e2 : 313 + 60 * (k : ℚ) + 60 = 313 + 60 * ((k : ℚ) + 1) := by ring
    rw [e1, e2]

theorem nonConverging_solveState (k : Nat) :
    solveState ratMath nonConvergingSolver k
      = ([353, 243 + 30 * (k : ℚ)], [313 + 60 * (k : ℚ), 293]) := by
  unfold solveState
  rw [nonConverging_loopConsts]
  have h : initialTemperatures nonConvergingSolver = ([353, 243], [313, 293]) :=
    unit_initialTemperatures_one _ _ _ _
  rw [h, nonConverging_state]

theorem solveChange_succ {α : Type} [LinearOrderedField α] (m : CMath α) (s : NumericalSolver α)
    (i : Nat) :
    solveChange m s (i + 1)
      = maxChange (loopConsts m s) (solveState m s i).1 (solveState m s i).2
          (solveState m s (i + 1)).1 (solveState m s (i + 1)).2 := by
  simp only [solveChange, changeAt, solveState, Nat.add_sub_cancel]

theorem nonConverging_change (j : Nat) (hj : 1 ≤ j) :
    ¬ solveChange ratMath nonConvergingSolver j < 1e-6 := by
  obtain ⟨i, rfl⟩ : ∃ i, j = i + 1 := ⟨j - 1, by omega⟩
  rw [solveChange_succ]
  have h := ((maxChange_is_largest (loopConsts ratMath nonConvergingSolver)
    (solveState ratMath nonConvergingSolver i).1 (solveState ratMath nonConvergingSolver i).2
    (solveState ratMath nonConvergingSolver (i + 1)).1
    (solveState ratMath nonConvergingSolver (i + 1)).2).1 0 (Nat.zero_le _)).2
  generalize maxChange (loopConsts ratMath nonConvergingSolver)
    (solveState ratMath nonConvergingSolver i).1 (solveState ratMath nonConvergingSolver i).2
    (solveState ratMath nonConvergingSolver (i + 1)).1
    (solveState ratMath nonConvergingSolver (i + 1)).2 = mc at h ⊢
  rw [nonConverging_solveState, nonConverging_solveState] at h
  simp only [List.getD_cons_zero] at h
  have h4 : (313 + 60 * (((i + 1 : Nat) : ℚ))) - (313 + 60 * (i : ℚ)) = 60 := by
    push_cast; ring
  rw [h4] at h
  intro hlt
  have h5 : |(60 : ℚ)| < 1e-6 := lt_of_le_of_lt h hlt
  norm_num at h5

theorem converging_solveState_one :
    solveState ratMath convergingSolver 1 = ([353, 30243], [60313, 293]) := by
  unfold solveState
  rw [converging_loopConsts]
  have h : initialTemperatures convergingSolver = ([353, 30243], [60313, 293]) :=
    unit_initialTemperatures_one _ _ _ _
  rw [h]
  simp only [stateAfter, Function.iterate_one]
  exact converging_step

theorem converging_change : solveChange ratMath convergingSolver 1 < 1e-6 := by
  have h0 : solveState ratMath convergingSolver 0 = ([353, 30243], [60313, 293]) := by
    unfold solveState
    simp only [stateAfter, Function.iterate_zero, id]
    exact unit_initialTemperatures_one _ _ _ _
  rw [solveChange_succ ratMath convergingSolver 0]
  obtain ⟨i, _, hi⟩ := (maxChange_is_largest (loopConsts ratMath convergingSolver)
    (solveState ratMath convergingSolver 0).1 (solveState ratMath convergingSolver 0).2
    (solveState ratMath convergingSolver (0 + 1)).1
    (solveState ratMath convergingSolver (0 + 1)).2).2
  generalize maxChange (loopConsts ratMath convergingSolver)
    (solveState ratMath convergingSolver 0).1 (solveState ratMath convergingSolver 0).2
    (solveState ratMath convergingSolver (0 + 1)).1
    (solveState ratMath convergingSolver (0 + 1)).2 = mc at hi ⊢
  rw [h0, Nat.zero_add, converging_solveState_one] at hi
  rcases hi with hi | hi <;> (rw [hi, sub_self, abs_zero]; norm_num)

theorem solveRun_results {α : Type} [Add α] [Sub α] [Mul α] [Div α] [Neg α] [OfScientific α]
    [IntCast α] [LT α] [∀ a b : α, Decidable (a < b)]
    (m : CMath α) (s : NumericalSolver α) (run : SolveRun α)
    (h : solveRun m s = Except.ok run) :
    run.results
      = { setupScalars m s with
          hot_temperatures := run.results.hot_temperatures,
          cold_temperatures := run.results.cold_temperatures,
          positions := fillPositions s.num_segments.toNat
            (s.geometry.length / (s.num_segments : α))
            (List.replicate (s.num_segments.toNat + 1) (0.0 : α)) } := by
  unfold solveRun at h
  split_ifs at h
  cases h
  rfl

theorem unit_setupScalars (N : Int) (gh ch gc cc gh2 ch2 gc2 : ℚ) :
    setupScalars ratMath (unitSolver N gh ch gc cc)
      = setupScalars ratMath (unitSolver N gh2 ch2 gc2 cc) := by
  simp only [setupScalars, unitSolver, unitHot, unitCold]

theorem twoSegment_loopConsts : loopConsts ratMath twoSegmentSolver = twoSegmentConsts := by
  unfold twoSegmentSolver twoSegmentConsts
  rw [unit_loopConsts]
  norm_num [M_PI]
  rfl

theorem hotSweep_two_segments (UA Ch Cc Th Tc h0 h1 h2 c0 c1 c2 : ℚ) :
    hotSweep
        { num_segments := 2, UA_segment := UA, C_hot := Ch, C_cold := Cc, hot_inlet := Th,
          cold_inlet := Tc } [c0, c1, c2] [h0, h1, h2]
      = [h0, h0 - UA * (h0 - (c1 + c2) / 2.0) / Ch,
          (h0 - UA * (h0 - (c1 + c2) / 2.0) / Ch)
            - UA * ((h0 - UA * (h0 - (c1 + c2) / 2.0) / Ch) - (c0 + c1) / 2.0) / Ch] := rfl

/-- C4, the code at a failing input (two segments): in the first pass the
hot update at `i = 1`, the segment next to the hot inlet, gives 325.5, the
value obtained from `cold[1]` and `cold[2]` (the cold-inlet end); the
co-located nodes `cold[0]` and `cold[1]` would give 330.5. -/
theorem hot_inlet_segment_reads_cold_inlet_end :
    initialTemperatures twoSegmentSolver = ([353, 338, 323], [313, 303, 293])
      ∧ (hotSweep (loopConsts ratMath twoSegmentSolver) [313, 303, 293] [353, 338, 323]).getD 1 0.0
          = 325.5
      ∧ (353 : ℚ) - (loopConsts ratMath twoSegmentSolver).UA_segment
            * (353 - (303 + 293) / 2) / (loopConsts ratMath twoSegmentSolver).C_hot = 325.5
      ∧ (353 : ℚ) - (loopConsts ratMath twoSegmentSolver).UA_segment
            * (353 - (313 + 303) / 2) / (loopConsts ratMath twoSegmentSolver).C_hot = 330.5 := by
  have hp : (M_PI : ℚ) ≠ 0 := M_PI_pos.ne'
  rw [twoSegment_loopConsts]
  refine ⟨?_, ?_, ?_, ?_⟩
  · unfold twoSegmentSolver
    rw [unit_initialTemperatures_two]
    norm_num
  · unfold twoSegmentConsts
    rw [hotSweep_two_segments]
    simp only [List.getD_cons_succ, List.getD_cons_zero]
    field_simp
    ring
  · simp only [twoSegmentConsts]
    field_simp
    ring
  · simp only [twoSegmentConsts]
    field_simp
    ring

end Concrete

/-! ## Fixed points of the iteration -/

section FixedPoints

variable {α : Type} [LinearOrderedField α]

theorem eq_of_half_blend (x y : α) (h : y = 0.5 * x + (1.0 - 0.5) * y) : x = y := by
  have h2 : (0.5 : α) = 1 / 2 := by norm_num
  have h3 : (1.0 : α) = 1 := by norm_num
  rw [h2, h3] at h
  linarith

/-- At a fixed point the hot sweep reproduces the hot vector. -/
theorem fixedPoint_hotSweep (c : LoopConsts α) (t : List α × List α) (h : IsFixedPoint c t)
    (j : Nat) (hj : j ≤ c.num_segments) :
    (hotSweep c t.2 t.1).getD j 0.0 = t.1.getD j 0.0 := by
  obtain ⟨hl1, hl2, hfix⟩ := h
  rcases Nat.eq_zero_or_pos j with h0 | hpos
  · subst h0
    rw [hotSweep_eq_upTo]
    exact hotSweepUpTo_untouched _ _ _ _ 0 (Or.inl rfl)
  · have hb := iterationBody_hot c t j hpos hj hl1 hl2
    rw [hfix] at hb
    exact eq_of_half_blend _ _ hb

/-- At a fixed point the cold sweep reproduces the cold vector. -/
theorem fixedPoint_coldSweep (c : LoopConsts α) (t : List α × List α) (h : IsFixedPoint c t)
    (j : Nat) (hj : j ≤ c.num_segments) :
    (coldSweep c (hotSweep c t.2 t.1) t.2).getD j 0.0 = t.2.getD j 0.0 := by
  obtain ⟨hl1, hl2, hfix⟩ := h
  rcases Nat.lt_or_ge j c.num_segments with hlt | hge
  · have hb := iterationBody_cold c t j hlt hl1 hl2
    rw [hfix] at hb
    exact eq_of_half_blend _ _ hb
  · have hjN : j = c.num_segments := by omega
    subst hjN
    rw [coldSweep_eq_from]
    exact coldSweepFrom_untouched _ _ _ 0 _ _ (Or.inr (by omega))

/-- At a fixed point the boundary nodes hold the inlet temperatures. -/
theorem fixedPoint_boundary (c : LoopConsts α) (t : List α × List α) (h : IsFixedPoint c t) :
    t.1.getD 0 0.0 = c.hot_inlet ∧ t.2.getD c.num_segments 0.0 = c.cold_inlet := by
  obtain ⟨hl1, hl2, hfix⟩ := h
  have hb := iterationBody_boundary c t (by omega) (by omega)
  rw [hfix] at hb
  exact hb

/-- At a fixed point both sweep equations hold at every node, written on the
fixed point itself. -/
theorem fixedPoint_sweep_equations (c : LoopConsts α) (t : List α × List α)
    (h : IsFixedPoint c t) :
    (∀ i, 1 ≤ i → i ≤ c.num_segments →
        t.1.getD i 0.0
          = t.1.getD (i - 1) 0.0
            - c.UA_segment
                * (t.1.getD (i - 1) 0.0
                    - (t.2.getD (c.num_segments - i) 0.0
                        + t.2.getD (c.num_segments - i + 1) 0.0) / 2)
              / c.C_hot)
      ∧ ∀ i, i < c.num_segments →
          t.2.getD i 0.0
            = t.2.getD (i + 1) 0.0
              + c.UA_segment
                  * ((t.1.getD (c.num_segments - i - 1) 0.0
                        + t.1.getD (c.num_segments - i) 0.0) / 2
                      - t.2.getD (i + 1) 0.0)
                / c.C_cold := by
  have h2 : (2.0 : α) = 2 := by norm_num
  have hl1 := h.1
  have hl2 := h.2.1
  constructor
  · intro i h1 hi
    have hs := hotSweepUpTo_spec c t.2 t.1 c.num_segments (by omega) i h1 hi
    rw [← hotSweep_eq_upTo, fixedPoint_hotSweep c t h i hi,
      fixedPoint_hotSweep c t h (i - 1) (by omega)] at hs
    rw [hs, hotUpdate, h2]
  · intro i hi
    have hs := coldSweepFrom_spec c (hotSweep c t.2 t.1) t.2 0 c.num_segments (by omega) i
      (Nat.zero_le i) (by omega)
    rw [← coldSweep_eq_from, fixedPoint_coldSweep c t h i (by omega),
      fixedPoint_coldSweep c t h (i + 1) (by omega)] at hs
    rw [hs, coldUpdate, h2, fixedPoint_hotSweep c t h _ (by omega),
      fixedPoint_hotSweep c t h _ (by omega)]

/-- At a fixed point, the two sweep equations of the segment between hot
nodes `p` and `p + 1`, which the sweeps pair with the cold nodes `N - p` and
`N - p - 1`, cleared of their divisions. -/
theorem fixedPoint_segment (c : LoopConsts α) (t : List α × List α) (h : IsFixedPoint c t)
    (hCh : c.C_hot ≠ 0) (hCc : c.C_cold ≠ 0) (p : Nat) (hp : p < c.num_segments) :
    c.C_hot * (t.1.getD (p + 1) 0.0 - t.1.getD p 0.0)
        = - c.UA_segment
            * (t.1.getD p 0.0
                - (t.2.getD (c.num_segments - p - 1) 0.0
                    + t.2.getD (c.num_segments - p) 0.0) / 2)
      ∧ c.C_cold * (t.2.getD (c.num_segments - p - 1) 0.0 - t.2.getD (c.num_segments - p) 0.0)
          = c.UA_segment
              * ((t.1.getD p 0.0 + t.1.getD (p + 1) 0.0) / 2
                  - t.2.getD (c.num_segments - p) 0.0) := by
  obtain ⟨hhot, hcold⟩ := fixedPoint_sweep_equations c t h
  have e1 := hhot (p + 1) (by omega) (by omega)
  have e2 := hcold (c.num_segments - p - 1) (by omega)
  have i1 : p + 1 - 1 = p := by omega
  have i2 : c.num_segments - (p + 1) = c.num_segments - p - 1 := by omega
  have i3 : c.num_segments - p - 1 + 1 = c.num_segments - p := by omega
  have i4 : c.num_segments - (c.num_segments - p - 1) - 1 = p := by omega
  have i5 : c.num_segments - (c.num_segments - p - 1) = p + 1 := by omega
  rw [i1, i2, i3] at e1
  rw [i3, i4, i5] at e2
  constructor
  · rw [e1]; field_simp; ring
  · rw [e2]; field_simp; ring

/-- At a fixed point, up to every hot node `p` the heat given up by the hot
stream and the heat taken up by the cold stream differ by half the segment
conductance times the difference of the two temperature changes. -/
theorem fixedPoint_energy_upTo (c : LoopConsts α) (t : List α × List α) (h : IsFixedPoint c t)
    (hCh : c.C_hot ≠ 0) (hCc : c.C_cold ≠ 0) (p : Nat) (hp : p ≤ c.num_segments) :
    c.C_hot * (t.1.getD 0 0.0 - t.1.getD p 0.0)
        - c.C_cold * (t.2.getD (c.num_segments - p) 0.0 - t.2.getD c.num_segments 0.0)
      = c.UA_segment / 2
          * ((t.1.getD 0 0.0 - t.1.getD p 0.0)
              - (t.2.getD (c.num_segments - p) 0.0 - t.2.getD c.num_segments 0.0)) := by
  induction p with
  | zero => simp
  | succ p ih =>
    have ih2 := ih (by omega)
    obtain ⟨e1, e2⟩ := fixedPoint_segment c t h hCh hCc p (by omega)
    have i1 : c.num_segments - (p + 1) = c.num_segments - p - 1 := by omega
    rw [i1]
    linear_combination ih2 - e1 - e2

/-- At a fixed point the heat released by the hot stream and the heat absorbed
by the cold stream differ by exactly
`UA_segment / 2 * ((hot[0] - hot[N]) - (cold[0] - cold[N]))`. -/
theorem fixedPoint_energy (c : LoopConsts α) (t : List α × List α) (h : IsFixedPoint c t)
    (hCh : c.C_hot ≠ 0) (hCc : c.C_cold ≠ 0) :
    c.C_hot * (t.1.getD 0 0.0 - t.1.getD c.num_segments 0.0)
        - c.C_cold * (t.2.getD 0 0.0 - t.2.getD c.num_segments 0.0)
      = c.UA_segment / 2
          * ((t.1.getD 0 0.0 - t.1.getD c.num_segments 0.0)
              - (t.2.getD 0 0.0 - t.2.getD c.num_segments 0.0)) := by
  have h2 := fixedPoint_energy_upTo c t h hCh hCc c.num_segments (le_refl _)
  rw [Nat.sub_self] at h2
  exact h2

/-- At a fixed point, the changes of the two streams along one segment and
the temperature gap at its far end, each multiplied by
`4 * C_hot * C_cold - UA_segment ^ 2`, as multiples of the gap
`hot[p] - cold[N - p]` at its near end. -/
theorem fixedPoint_segment_solved (c : LoopConsts α) (t : List α × List α)
    (h : IsFixedPoint c t) (hCh : c.C_hot ≠ 0) (hCc : c.C_cold ≠ 0) (p : Nat)
    (hp : p < c.num_segments) :
    (t.1.getD (p + 1) 0.0 - t.1.getD p 0.0)
          * (4 * c.C_hot * c.C_cold - c.UA_segment * c.UA_segment)
        = - (2 * c.UA_segment * (2 * c.C_cold - c.UA_segment))
            * (t.1.getD p 0.0 - t.2.getD (c.num_segments - p) 0.0)
      ∧ (t.2.getD (c.num_segments - p - 1) 0.0 - t.2.getD (c.num_segments - p) 0.0)
            * (4 * c.C_hot * c.C_cold - c.UA_segment * c.UA_segment)
          = 2 * c.UA_segment * (2 * c.C_hot - c.UA_segment)
              * (t.1.getD p 0.0 - t.2.getD (c.num_segments - p) 0.0)
      ∧ (t.1.getD (p + 1) 0.0 - t.2.getD (c.num_segments - p - 1) 0.0)
            * (4 * c.C_hot * c.C_cold - c.UA_segment * c.UA_segment)
          = (4 * c.C_hot * c.C_cold + 3 * (c.UA_segment * c.UA_segment)
                - 4 * c.UA_segment * (c.C_hot + c.C_cold))
              * (t.1.getD p 0.0 - t.2.getD (c.num_segments - p) 0.0) := by
  obtain ⟨e1, e2⟩ := fixedPoint_segment c t h hCh hCc p hp
  refine ⟨?_, ?_, ?_⟩
  · linear_combination (4 * c.C_cold) * e1 + (2 * c.UA_segment) * e2
  · linear_combination (4 * c.C_hot) * e2 + (2 * c.UA_segment) * e1
  · linear_combination (4 * c.C_cold - 2 * c.UA_segment) * e1
      - (4 * c.C_hot - 2 * c.UA_segment) * e2

/-- At a fixed point, when the segments are fine enough, no hot node is colder
than the cold node the sweeps pair it with. -/
theorem fixedPoint_gap_nonneg (c : LoopConsts α) (t : List α × List α) (h : IsFixedPoint c t)
    (hCh : 0 < c.C_hot) (hCc : 0 < c.C_cold) (hin : c.cold_inlet ≤ c.hot_inlet)
    (hD : c.UA_segment * c.UA_segment < 4 * c.C_hot * c.C_cold)
    (hr : 4 * c.UA_segment * (c.C_hot + c.C_cold)
      ≤ 4 * c.C_hot * c.C_cold + 3 * (c.UA_segment * c.UA_segment))
    (p : Nat) (hp : p ≤ c.num_segments) :
    0 ≤ t.1.getD p 0.0 - t.2.getD (c.num_segments - p) 0.0 := by
  induction p with
  | zero =>
    obtain ⟨hb1, hb2⟩ := fixedPoint_boundary c t h
    rw [Nat.sub_zero, hb1, hb2]
    exact sub_nonneg.mpr hin
  | succ p ih =>
    have ih2 := ih (by omega)
    obtain ⟨_, _, e3⟩ := fixedPoint_segment_solved c t h hCh.ne' hCc.ne' p (by omega)
    have i1 : c.num_segments - (p + 1) = c.num_segments - p - 1 := by omega
    rw [i1]
    have hpos : 0 < 4 * c.C_hot * c.C_cold - c.UA_segment * c.UA_segment := by linarith
    have hnn : 0 ≤ (t.1.getD (p + 1) 0.0 - t.2.getD (c.num_segments - p - 1) 0.0)
        * (4 * c.C_hot * c.C_cold - c.UA_segment * c.UA_segment) := by
      rw [e3]
      exact mul_nonneg (by linarith) ih2
    exact nonneg_of_mul_nonneg_left hnn hpos

/-- When the initial guess is itself left unchanged by a pass, the call
reports convergence after the first pass and returns the guess. -/
theorem solveRun_of_fixed_guess (m : CMath α) (s : NumericalSolver α)
    (hN : 0 ≤ s.num_segments) (hmax : s.num_segments < INT_MAX)
    (hfix : iterationBody (loopConsts m s) (initialTemperatures s) = initialTemperatures s) :
    ∃ run, solveRun m s = Except.ok run
      ∧ run.console = [ConsoleLine.converged 1]
      ∧ run.results.hot_temperatures = (initialTemperatures s).1
      ∧ run.results.cold_temperatures = (initialTemperatures s).2 := by
  have h0 : solveState m s 0 = initialTemperatures s := by
    simp only [solveState, stateAfter, Function.iterate_zero, id]
  have h1 : solveState m s (0 + 1) = initialTemperatures s := by
    simp only [solveState, stateAfter, Nat.zero_add, Function.iterate_one]
    exact hfix
  have hconv : solveChange m s 1 < 1e-6 := by
    rw [solveChange_succ m s 0]
    obtain ⟨i, _, hi⟩ := (maxChange_is_largest (loopConsts m s)
      (solveState m s 0).1 (solveState m s 0).2
      (solveState m s (0 + 1)).1 (solveState m s (0 + 1)).2).2
    generalize maxChange (loopConsts m s) (solveState m s 0).1 (solveState m s 0).2
      (solveState m s (0 + 1)).1 (solveState m s (0 + 1)).2 = mc at hi ⊢
    rw [h0, h1] at hi
    rcases hi with hi | hi <;> (rw [hi, sub_self, abs_zero]; norm_num)
  obtain ⟨run, k, hrun, hk1, _, hmin, hhot, hcold, _, hcons⟩ := solveRun_spec m s hN hmax
  have hk : k = 1 := by
    rcases Nat.lt_or_ge 1 k with h | h
    · exact absurd hconv (hmin 1 (le_refl 1) h)
    · omega
  subst hk
  rw [← Nat.zero_add 1, h1] at hhot hcold
  refine ⟨run, hrun, ?_, hhot, hcold⟩
  rcases hcons with ⟨_, hcon⟩ | ⟨_, hk, _⟩
  · exact hcon
  · omega

theorem balanced_fixed :
    IsFixedPoint balancedConsts ([353, 323], [323, 293]) := by
  refine ⟨rfl, rfl, ?_⟩
  unfold balancedConsts
  rw [iterationBody_one_segment]
  have hp : (M_PI : ℚ) ≠ 0 := M_PI_pos.ne'
  have e1 : (0.5 : ℚ) * (353 - M_PI * (353 - (323 + 293) / 2.0) / (3 * M_PI / 2))
      + (1.0 - 0.5) * 323 = 323 := by
    field_simp; ring
  have e2 : (0.5 : ℚ) * (293 + M_PI * ((353 + (353 - M_PI * (353 - (323 + 293) / 2.0)
      / (3 * M_PI / 2))) / 2.0 - 293) / (3 * M_PI / 2)) + (1.0 - 0.5) * 323 = 323 := by
    field_simp; ring
  rw [e1, e2]

/-- C11, amended. For positive heat-capacity rates, positive `UA_segment` and
hot inlet above cold inlet, when the segments are fine enough that
`UA_segment^2 < 4 * C_hot * C_cold` and
`4 * UA_segment * (C_hot + C_cold) <= 4 * C_hot * C_cold + 3 * UA_segment^2`,
every profile that one pass of the loop leaves unchanged (the exact limit of a
converging solve) is monotone: `hot[i+1] <= hot[i]` and `cold[i+1] <= cold[i]`
for every `0 <= i < N`, so that `cold[0]` is the hottest cold node. -/
theorem fixed_point_profile_monotone (c : LoopConsts α) (t : List α × List α)
    (h : IsFixedPoint c t) (hCh : 0 < c.C_hot) (hCc : 0 < c.C_cold) (hUA : 0 < c.UA_segment)
    (hin : c.cold_inlet < c.hot_inlet)
    (hD : c.UA_segment * c.UA_segment < 4 * c.C_hot * c.C_cold)
    (hr : 4 * c.UA_segment * (c.C_hot + c.C_cold)
      ≤ 4 * c.C_hot * c.C_cold + 3 * (c.UA_segment * c.UA_segment)) :
    (∀ i, i < c.num_segments →
        t.1.getD (i + 1) 0.0 ≤ t.1.getD i 0.0 ∧ t.2.getD (i + 1) 0.0 ≤ t.2.getD i 0.0)
      ∧ ∀ i, i ≤ c.num_segments → t.2.getD i 0.0 ≤ t.2.getD 0 0.0 := by
  have hpos : 0 < 4 * c.C_hot * c.C_cold - c.UA_segment * c.UA_segment := by linarith
  have h2c : c.UA_segment ≤ 2 * c.C_cold := by
    by_contra hlt
    push_neg at hlt
    have hgap : 0 < c.UA_segment - c.C_cold := by linarith
    nlinarith [mul_pos hgap hpos, mul_le_mul_of_nonneg_left hr hCc.le,
      mul_nonneg hUA.le (sq_nonneg (c.UA_segment - 2 * c.C_cold))]
  have h2h : c.UA_segment ≤ 2 * c.C_hot := by
    by_contra hlt
    push_neg at hlt
    have hgap : 0 < c.UA_segment - c.C_hot := by linarith
    nlinarith [mul_pos hgap hpos, mul_le_mul_of_nonneg_left hr hCh.le,
      mul_nonneg hUA.le (sq_nonneg (c.UA_segment - 2 * c.C_hot))]
  have hmono : ∀ i, i < c.num_segments →
      t.1.getD (i + 1) 0.0 ≤ t.1.getD i 0.0 ∧ t.2.getD (i + 1) 0.0 ≤ t.2.getD i 0.0 := by
    intro i hi
    constructor
    · obtain ⟨e1, _, _⟩ := fixedPoint_segment_solved c t h hCh.ne' hCc.ne' i hi
      have hg := fixedPoint_gap_nonneg c t h hCh hCc hin.le hD hr i (by omega)
      have hle : (t.1.getD (i + 1) 0.0 - t.1.getD i 0.0)
          * (4 * c.C_hot * c.C_cold - c.UA_segment * c.UA_segment) ≤ 0 := by
        rw [e1]
        have : 0 ≤ 2 * c.UA_segment * (2 * c.C_cold - c.UA_segment)
            * (t.1.getD i 0.0 - t.2.getD (c.num_segments - i) 0.0) :=
          mul_nonneg (mul_nonneg (by linarith) (by linarith)) hg
        linarith
      have := nonpos_of_mul_nonpos_left hle hpos
      linarith
    · obtain ⟨_, e2, _⟩ :=
        fixedPoint_segment_solved c t h hCh.ne' hCc.ne' (c.num_segments - i - 1) (by omega)
      have hg := fixedPoint_gap_nonneg c t h hCh hCc hin.le hD hr (c.num_segments - i - 1)
        (by omega)
      have i1 : c.num_segments - (c.num_segments - i - 1) = i + 1 := by omega
      have i2 : c.num_segments - (c.num_segments - i - 1) - 1 = i := by omega
      rw [i1] at hg
      rw [i2, i1] at e2
      have hge : 0 ≤ (t.2.getD i 0.0 - t.2.getD (i + 1) 0.0)
          * (4 * c.C_hot * c.C_cold - c.UA_segment * c.UA_segment) := by
        rw [e2]
        exact mul_nonneg (mul_nonneg (by linarith) (by linarith)) hg
      have := nonneg_of_mul_nonneg_left hge hpos
      linarith
  refine ⟨hmono, fun i hi => ?_⟩
  induction i with
  | zero => exact le_refl _
  | succ i ih => exact le_trans (hmono i (by omega)).2 (ih (by omega))

/-- Witness of C11 amended: one segment, `UA_segment = M_PI`,
`C_hot = C_cold = 3 * M_PI / 2`, fixed point hot `[353, 323]`, cold
`[323, 293]`. -/
theorem fixed_point_profile_monotone_witness :
    IsFixedPoint balancedConsts ([353, 323], [323, 293])
      ∧ ∀ i, i < balancedConsts.num_segments →
          ([353, 323] : List ℚ).getD (i + 1) 0.0 ≤ ([353, 323] : List ℚ).getD i 0.0
            ∧ ([323, 293] : List ℚ).getD (i + 1) 0.0 ≤ ([323, 293] : List ℚ).getD i 0.0 := by
  have hp : (0 : ℚ) < M_PI := M_PI_pos
  refine ⟨balanced_fixed, (fixed_point_profile_monotone balancedConsts ([353, 323], [323, 293])
    balanced_fixed ?_ ?_ ?_ ?_ ?_ ?_).1⟩
  · simp only [balancedConsts]; linarith
  · simp only [balancedConsts]; linarith
  · simp only [balancedConsts]; exact hp
  · simp only [balancedConsts]; norm_num
  · simp only [balancedConsts]; nlinarith
  · simp only [balancedConsts]; nlinarith

/-- C12, amended. For non-zero heat-capacity rates, at every profile that one
pass of the loop leaves unchanged (the exact limit of a converging solve) the
heat released by the hot stream and the heat absorbed by the cold stream
differ by exactly
`UA_segment / 2 * ((hot[0] - hot[N]) - (cold[0] - cold[N]))`; hence they agree
within the relative tolerance `1e-3` exactly when that term is within it. -/
theorem fixed_point_energy_balance (c : LoopConsts α) (t : List α × List α)
    (h : IsFixedPoint c t) (hCh : c.C_hot ≠ 0) (hCc : c.C_cold ≠ 0) :
    c.C_hot * (t.1.getD 0 0.0 - t.1.getD c.num_segments 0.0)
          - c.C_cold * (t.2.getD 0 0.0 - t.2.getD c.num_segments 0.0)
        = c.UA_segment / 2
            * ((t.1.getD 0 0.0 - t.1.getD c.num_segments 0.0)
                - (t.2.getD 0 0.0 - t.2.getD c.num_segments 0.0))
      ∧ (|c.C_hot * (t.1.getD 0 0.0 - t.1.getD c.num_segments 0.0)
              - c.C_cold * (t.2.getD 0 0.0 - t.2.getD c.num_segments 0.0)|
            ≤ 1e-3
              * max |c.C_hot * (t.1.getD 0 0.0 - t.1.getD c.num_segments 0.0)|
                  |c.C_cold * (t.2.getD 0 0.0 - t.2.getD c.num_segments 0.0)|
          ↔ |c.UA_segment / 2
                * ((t.1.getD 0 0.0 - t.1.getD c.num_segments 0.0)
                    - (t.2.getD 0 0.0 - t.2.getD c.num_segments 0.0))|
              ≤ 1e-3
                * max |c.C_hot * (t.1.getD 0 0.0 - t.1.getD c.num_segments 0.0)|
                    |c.C_cold * (t.2.getD 0 0.0 - t.2.getD c.num_segments 0.0)|) := by
  have he := fixedPoint_energy c t h hCh hCc
  exact ⟨he, by rw [he]⟩

/-- Witness of C12 amended: one segment, `UA_segment = M_PI`,
`C_hot = C_cold = 3 * M_PI / 2`, fixed point hot `[353, 323]`, cold
`[323, 293]`, where both streams exchange `45 * M_PI`. -/
theorem fixed_point_energy_balance_witness :
    IsFixedPoint balancedConsts ([353, 323], [323, 293])
      ∧ balancedConsts.C_hot ≠ 0 ∧ balancedConsts.C_cold ≠ 0
      ∧ balancedConsts.C_hot * (([353, 323] : List ℚ).getD 0 0.0
            - ([353, 323] : List ℚ).getD balancedConsts.num_segments 0.0)
          - balancedConsts.C_cold * (([323, 293] : List ℚ).getD 0 0.0
            - ([323, 293] : List ℚ).getD balancedConsts.num_segments 0.0)
        = balancedConsts.UA_segment / 2
            * ((([353, 323] : List ℚ).getD 0 0.0
                  - ([353, 323] : List ℚ).getD balancedConsts.num_segments 0.0)
                - (([323, 293] : List ℚ).getD 0 0.0
                  - ([323, 293] : List ℚ).getD balancedConsts.num_segments 0.0)) := by
  have hp : (M_PI : ℚ) ≠ 0 := M_PI_pos.ne'
  have h1 : balancedConsts.C_hot ≠ 0 := by
    simp only [balancedConsts]; exact div_ne_zero (mul_ne_zero (by norm_num) hp) (by norm_num)
  have h2 : balancedConsts.C_cold ≠ 0 := by
    simp only [balancedConsts]; exact div_ne_zero (mul_ne_zero (by norm_num) hp) (by norm_num)
  exact ⟨balanced_fixed, h1, h2,
    (fixed_point_energy_balance balancedConsts ([353, 323], [323, 293]) balanced_fixed h1 h2).1⟩

end FixedPoints

/-! ## Converged profiles: monotonicity and the energy balance -/

section ConvergedProfiles

theorem overshoot_loopConsts : loopConsts ratMath overshootSolver = overshootConsts := by
  unfold overshootSolver overshootConsts
  rw [unit_loopConsts]
  norm_num [M_PI]

theorem overshoot_fixed :
    iterationBody overshootConsts ([353, 173], [269, 293]) = ([353, 173], [269, 293]) := by
  unfold overshootConsts
  rw [iterationBody_one_segment]
  have hp : (M_PI : ℚ) ≠ 0 := M_PI_pos.ne'
  have e1 : (0.5 : ℚ) * (353 - M_PI * (353 - (269 + 293) / 2.0) / (2 * M_PI / 5))
      + (1.0 - 0.5) * 173 = 173 := by
    field_simp; ring
  have e2 : (0.5 : ℚ) * (293 + M_PI * ((353 + (353 - M_PI * (353 - (269 + 293) / 2.0)
      / (2 * M_PI / 5))) / 2.0 - 293) / (5 * M_PI / 4)) + (1.0 - 0.5) * 269 = 269 := by
    field_simp; ring
  rw [e1, e2]

theorem imbalance_loopConsts : loopConsts ratMath imbalanceSolver = imbalanceConsts := by
  unfold imbalanceSolver imbalanceConsts
  rw [unit_loopConsts]
  norm_num [M_PI]

theorem imbalance_fixed :
    iterationBody imbalanceConsts ([353, 329], [341, 293]) = ([353, 329], [341, 293]) := by
  unfold imbalanceConsts
  rw [iterationBody_one_segment]
  have hp : (M_PI : ℚ) ≠ 0 := M_PI_pos.ne'
  have e1 : (0.5 : ℚ) * (353 - M_PI * (353 - (341 + 293) / 2.0) / (3 * M_PI / 2))
      + (1.0 - 0.5) * 329 = 329 := by
    field_simp; ring
  have e2 : (0.5 : ℚ) * (293 + M_PI * ((353 + (353 - M_PI * (353 - (341 + 293) / 2.0)
      / (3 * M_PI / 2))) / 2.0 - 293) / M_PI) + (1.0 - 0.5) * 341 = 341 := by
    field_simp; ring
  rw [e1, e2]

/-- The call on `overshootSolver` converges at its first pass and returns its
initial guess. -/
theorem overshoot_run :
    ∃ run, solveRun ratMath overshootSolver = Except.ok run
      ∧ run.console = [ConsoleLine.converged 1]
      ∧ run.results.hot_temperatures = [353, 173]
      ∧ run.results.cold_temperatures = [269, 293] := by
  have hinit : initialTemperatures overshootSolver = ([353, 173], [269, 293]) :=
    unit_initialTemperatures_one _ _ _ _
  have h := solveRun_of_fixed_guess ratMath overshootSolver (by decide) (by decide)
    (by rw [overshoot_loopConsts, hinit]; exact overshoot_fixed)
  rw [hinit] at h
  exact h

/-- The call on `imbalanceSolver` converges at its first pass and returns its
initial guess. -/
theorem imbalance_run :
    ∃ run, solveRun ratMath imbalanceSolver = Except.ok run
      ∧ run.console = [ConsoleLine.converged 1]
      ∧ run.results.hot_temperatures = [353, 329]
      ∧ run.results.cold_temperatures = [341, 293] := by
  have hinit : initialTemperatures imbalanceSolver = ([353, 329], [341, 293]) :=
    unit_initialTemperatures_one _ _ _ _
  have h := solveRun_of_fixed_guess ratMath imbalanceSolver (by decide) (by decide)
    (by rw [imbalance_loopConsts, hinit]; exact imbalance_fixed)
  rw [hinit] at h
  exact h

theorem tinyGap_loopConsts : loopConsts ratMath tinyGapSolver = tinyGapConsts := by
  unfold tinyGapSolver tinyGapConsts
  rw [unit_loopConsts]
  norm_num [M_PI]

theorem tinyGap_step :
    iterationBody tinyGapConsts ([353, 353.0000005], [323, 293])
      = ([353, 353.0000002275], [322.999999994375, 293]) := by
  unfold tinyGapConsts
  rw [iterationBody_one_segment]
  have hp : (M_PI : ℚ) ≠ 0 := M_PI_pos.ne'
  have e1 : (0.5 : ℚ) * (353 - M_PI * (353 - (323 + 293) / 2.0) / (1000000000 * M_PI))
      + (1.0 - 0.5) * 353.0000005 = 353.0000002275 := by
    field_simp; ring
  have e2 : (0.5 : ℚ) * (293 + M_PI * ((353 + (353 - M_PI * (353 - (323 + 293) / 2.0)
      / (1000000000 * M_PI))) / 2.0 - 293) / (2 * M_PI)) + (1.0 - 0.5) * 323
      = 322.999999994375 := by
    field_simp; ring
  rw [e1, e2]

/-- The call on `tinyGapSolver` converges at its first pass, where no node
moves by more than `2.725e-7`, and returns a hot outlet node above the hot
inlet node. -/
theorem tinyGap_run :
    ∃ run, solveRun ratMath tinyGapSolver = Except.ok run
      ∧ run.console = [ConsoleLine.converged 1]
      ∧ run.results.hot_temperatures = [353, 353.0000002275] := by
  have hinit : initialTemperatures tinyGapSolver = ([353, 353.0000005], [323, 293]) :=
    unit_initialTemperatures_one _ _ _ _
  have h0 : solveState ratMath tinyGapSolver 0 = ([353, 353.0000005], [323, 293]) := by
    simp only [solveState, stateAfter, Function.iterate_zero, id]
    exact hinit
  have h1 : solveState ratMath tinyGapSolver (0 + 1)
      = ([353, 353.0000002275], [322.999999994375, 293]) := by
    simp only [solveState, stateAfter, Nat.zero_add, Function.iterate_one]
    rw [tinyGap_loopConsts, hinit]
    exact tinyGap_step
  have hconv : solveChange ratMath tinyGapSolver 1 < 1e-6 := by
    rw [solveChange_succ ratMath tinyGapSolver 0]
    obtain ⟨i, hi1, hi⟩ := (maxChange_is_largest (loopConsts ratMath tinyGapSolver)
      (solveState ratMath tinyGapSolver 0).1 (solveState ratMath tinyGapSolver 0).2
      (solveState ratMath tinyGapSolver (0 + 1)).1
      (solveState ratMath tinyGapSolver (0 + 1)).2).2
    generalize maxChange (loopConsts ratMath tinyGapSolver)
      (solveState ratMath tinyGapSolver 0).1 (solveState ratMath tinyGapSolver 0).2
      (solveState ratMath tinyGapSolver (0 + 1)).1
      (solveState ratMath tinyGapSolver (0 + 1)).2 = mc at hi ⊢
    rw [h0, h1] at hi
    have hle : i ≤ 1 := hi1
    interval_cases i
    · rcases hi with hi | hi <;>
        (rw [hi]; simp only [List.getD_cons_zero]; rw [abs_lt]; constructor <;> norm_num)
    · rcases hi with hi | hi <;>
        (rw [hi]; simp only [List.getD_cons_succ, List.getD_cons_zero]; rw [abs_lt]
         constructor <;> norm_num)
  obtain ⟨run, k, hrun, hk1, _, hmin, hhot, _, _, hcons⟩ :=
    solveRun_spec ratMath tinyGapSolver (by decide) (by decide)
  have hk : k = 1 := by
    rcases Nat.lt_or_ge 1 k with h | h
    · exact absurd hconv (hmin 1 (le_refl 1) h)
    · omega
  subst hk
  rw [← Nat.zero_add 1, h1] at hhot
  refine ⟨run, hrun, ?_, hhot⟩
  rcases hcons with ⟨_, hcon⟩ | ⟨_, hk, _⟩
  · exact hcon
  · omega

/-- C11, refuted as stated, on two inputs with positive heat-capacity rates,
positive `UA_segment` and hot inlet (353 K) above cold inlet (293 K), one
segment each. On the first, a coarse one (`UA_segment = 2.5 * C_hot`), the call
converges and returns `cold_temperatures[1] = 293 > 269 = cold_temperatures[0]`.
On the second, as fine as one likes (`UA_segment = C_hot / 10^9`), the call
converges within the tolerance at its first pass and returns
`hot_temperatures[1] > hot_temperatures[0]`. -/
theorem converged_profile_not_monotone :
    (0 < (loopConsts ratMath overshootSolver).C_hot
      ∧ 0 < (loopConsts ratMath overshootSolver).C_cold
      ∧ 0 < (loopConsts ratMath overshootSolver).UA_segment
      ∧ overshootSolver.cold_fluid.inlet_temp < overshootSolver.hot_fluid.inlet_temp
      ∧ ∃ run, solveRun ratMath overshootSolver = Except.ok run
          ∧ run.console = [ConsoleLine.converged 1]
          ∧ run.results.cold_temperatures.getD 0 0.0
              < run.results.cold_temperatures.getD 1 0.0)
    ∧ (0 < (loopConsts ratMath tinyGapSolver).C_hot
      ∧ 0 < (loopConsts ratMath tinyGapSolver).C_cold
      ∧ 0 < (loopConsts ratMath tinyGapSolver).UA_segment
      ∧ tinyGapSolver.cold_fluid.inlet_temp < tinyGapSolver.hot_fluid.inlet_temp
      ∧ (loopConsts ratMath tinyGapSolver).UA_segment
            * (loopConsts ratMath tinyGapSolver).UA_segment
          < 4 * (loopConsts ratMath tinyGapSolver).C_hot
              * (loopConsts ratMath tinyGapSolver).C_cold
      ∧ 4 * (loopConsts ratMath tinyGapSolver).UA_segment
            * ((loopConsts ratMath tinyGapSolver).C_hot
                + (loopConsts ratMath tinyGapSolver).C_cold)
          ≤ 4 * (loopConsts ratMath tinyGapSolver).C_hot
                * (loopConsts ratMath tinyGapSolver).C_cold
              + 3 * ((loopConsts ratMath tinyGapSolver).UA_segment
                  * (loopConsts ratMath tinyGapSolver).UA_segment)
      ∧ ∃ run, solveRun ratMath tinyGapSolver = Except.ok run
          ∧ run.console = [ConsoleLine.converged 1]
          ∧ run.results.hot_temperatures.getD 0 0.0
              < run.results.hot_temperatures.getD 1 0.0) := by
  have hp : (0 : ℚ) < M_PI := M_PI_pos
  constructor
  · obtain ⟨run, hrun, hcon, _, hcold⟩ := overshoot_run
    rw [overshoot_loopConsts]
    refine ⟨?_, ?_, hp, ?_, run, hrun, hcon, ?_⟩
    · simp only [overshootConsts]; linarith
    · simp only [overshootConsts]; linarith
    · simp only [overshootSolver, unitSolver, unitHot, unitCold]; norm_num
    · rw [hcold]
      simp only [List.getD_cons_succ, List.getD_cons_zero]
      norm_num
  · obtain ⟨run, hrun, hcon, hhot⟩ := tinyGap_run
    rw [tinyGap_loopConsts]
    refine ⟨?_, ?_, hp, ?_, ?_, ?_, run, hrun, hcon, ?_⟩
    · simp only [tinyGapConsts]; linarith
    · simp only [tinyGapConsts]; linarith
    · simp only [tinyGapSolver, unitSolver, unitHot, unitCold]; norm_num
    · simp only [tinyGapConsts]; nlinarith
    · simp only [tinyGapConsts]; nlinarith
    · rw [hhot]
      simp only [List.getD_cons_succ, List.getD_cons_zero]
      norm_num

/-- C12, refuted as stated: positive heat-capacity rates, one segment; the
call converges (at its first pass) to hot `[353, 329]`, cold `[341, 293]`, for
which the hot stream releases `C_hot * 24 = 36 * M_PI` and the cold stream
absorbs `C_cold * 48 = 48 * M_PI`: the two differ by a quarter of the larger,
not by a thousandth. -/
theorem converged_profile_energy_imbalance :
    0 < (loopConsts ratMath imbalanceSolver).C_hot
      ∧ 0 < (loopConsts ratMath imbalanceSolver).C_cold
      ∧ ∃ run, solveRun ratMath imbalanceSolver = Except.ok run
          ∧ run.console = [ConsoleLine.converged 1]
          ∧ ¬ (|(loopConsts ratMath imbalanceSolver).C_hot
                  * (run.results.hot_temperatures.getD 0 0.0
                      - run.results.hot_temperatures.getD 1 0.0)
                - (loopConsts ratMath imbalanceSolver).C_cold
                  * (run.results.cold_temperatures.getD 0 0.0
                      - run.results.cold_temperatures.getD 1 0.0)|
              ≤ 1e-3
                * max |(loopConsts ratMath imbalanceSolver).C_hot
                        * (run.results.hot_temperatures.getD 0 0.0
                            - run.results.hot_temperatures.getD 1 0.0)|
                    |(loopConsts ratMath imbalanceSolver).C_cold
                        * (run.results.cold_temperatures.getD 0 0.0
                            - run.results.cold_temperatures.getD 1 0.0)|) := by
  have hp : (0 : ℚ) < M_PI := M_PI_pos
  obtain ⟨run, hrun, hcon, hhot, hcold⟩ := imbalance_run
  rw [imbalance_loopConsts]
  refine ⟨?_, ?_, run, hrun, hcon, ?_⟩
  · simp only [imbalanceConsts]; linarith
  · simp only [imbalanceConsts]; exact hp
  · rw [hhot, hcold]
    simp only [List.getD_cons_succ, List.getD_cons_zero, imbalanceConsts]
    have e1 : 3 * (M_PI : ℚ) / 2 * (353 - 329) = 36 * M_PI := by ring
    have e2 : (M_PI : ℚ) * (341 - 293) = 48 * M_PI := by ring
    have e3 : 36 * (M_PI : ℚ) - 48 * M_PI = -(12 * M_PI) := by ring
    rw [e1, e2, e3, abs_neg, abs_of_pos (by linarith : (0 : ℚ) < 12 * M_PI),
      abs_of_pos (by linarith : (0 : ℚ) < 36 * M_PI),
      abs_of_pos (by linarith : (0 : ℚ) < 48 * M_PI),
      max_eq_right (by linarith : 36 * (M_PI : ℚ) ≤ 48 * M_PI)]
    intro h
    have h2 : (1e-3 : ℚ) = 1 / 1000 := by norm_num
    rw [h2] at h
    nlinarith

end ConvergedProfiles

/-! ## Sizes and positions -/

section Positions

variable {α : Type} [Mul α] [OfScientific α] [IntCast α]

theorem fillPositions_upTo (dx : α) (positions : List α) (k : Nat) :
    ((List.range k).foldl (fun p i => p.set i (((i : Int) : α) * dx)) positions).length
        = positions.length
      ∧ ∀ j, j < positions.length →
          ((List.range k).foldl (fun p i => p.set i (((i : Int) : α) * dx)) positions).getD j 0.0
            = if j < k then ((j : Int) : α) * dx else positions.getD j 0.0 := by
  induction k with
  | zero => simp
  | succ k ih =>
    rw [List.range_succ, List.foldl_append, List.foldl_cons, List.foldl_nil]
    refine ⟨by rw [List.length_set]; exact ih.1, fun j hj => ?_⟩
    by_cases hjk : j = k
    · subst hjk
      rw [getD_set_self (by rw [ih.1]; exact hj), if_pos (Nat.lt_succ_self j)]
    · rw [getD_set_other (fun h => hjk h.symm), ih.2 j hj]
      by_cases hlt : j < k
      · rw [if_pos hlt, if_pos (Nat.lt_succ_of_lt hlt)]
      · rw [if_neg hlt, if_neg (by omega)]

/-- After the loop of lines 33-35 the vector has its size unchanged and holds
`i * dx` at every index `i <= num_segments`. -/
theorem fillPositions_spec (num_segments : Nat) (dx : α) (positions : List α)
    (hl : positions.length = num_segments + 1) :
    (fillPositions num_segments dx positions).length = num_segments + 1
      ∧ ∀ i, i ≤ num_segments →
          (fillPositions num_segments dx positions).getD i 0.0 = ((i : Int) : α) * dx := by
  have h := fillPositions_upTo dx positions (num_segments + 1)
  refine ⟨h.1.trans hl, fun i hi => ?_⟩
  have h2 := h.2 i (by omega)
  rw [if_pos (by omega)] at h2
  exact h2

end Positions

section ProfileShape

variable {α : Type} [LinearOrderedField α]

/-- In exact arithmetic the record returned for `1 <= N < INT_MAX` holds
`N + 1` hot temperatures, `N + 1` cold temperatures and `N + 1` positions, with
`positions[i] = i * (length / N)` for every `0 <= i <= N`, `positions[0] = 0`,
`positions[N] = length`, and consecutive positions `length / N` apart. -/
theorem positions_exact (m : CMath α) (s : NumericalSolver α)
    (hN : 1 ≤ s.num_segments) (hmax : s.num_segments < INT_MAX) :
    ∃ r, solveTemperatureDistribution m s = Except.ok r
      ∧ r.hot_temperatures.length = s.num_segments.toNat + 1
      ∧ r.cold_temperatures.length = s.num_segments.toNat + 1
      ∧ r.positions.length = s.num_segments.toNat + 1
      ∧ (∀ i, i ≤ s.num_segments.toNat →
          r.positions[i]? = some ((i : α) * (s.geometry.length / (s.num_segments : α))))
      ∧ r.positions[0]? = some 0
      ∧ r.positions[s.num_segments.toNat]? = some s.geometry.length
      ∧ (∀ i, i < s.num_segments.toNat →
          r.positions.getD (i + 1) 0.0 - r.positions.getD i 0.0
            = s.geometry.length / (s.num_segments : α)) := by
  obtain ⟨run, k, hrun, _, _, _, hhot, hcold, _, _⟩ := solveRun_spec m s (by omega) hmax
  have hres := solveRun_results m s run hrun
  have hpos : run.results.positions
      = fillPositions s.num_segments.toNat (s.geometry.length / (s.num_segments : α))
          (List.replicate (s.num_segments.toNat + 1) (0.0 : α)) := by
    rw [hres]
  obtain ⟨hlen, hget⟩ := fillPositions_spec s.num_segments.toNat
    (s.geometry.length / (s.num_segments : α))
    (List.replicate (s.num_segments.toNat + 1) (0.0 : α)) (List.length_replicate _ _)
  rw [← hpos] at hlen hget
  have hcast : ((s.num_segments.toNat : Int) : α) = (s.num_segments : α) := by
    rw [Int.toNat_of_nonneg (by omega)]
  have hne : (s.num_segments : α) ≠ 0 := by
    have : (0 : α) < (s.num_segments : α) := by exact_mod_cast (by omega : (0 : Int) < s.num_segments)
    exact this.ne'
  have hall : ∀ i, i ≤ s.num_segments.toNat →
      run.results.positions[i]?
        = some ((i : α) * (s.geometry.length / (s.num_segments : α))) := by
    intro i hi
    have h := getElem?_of_getD (by rw [hlen]; omega) (hget i hi)
    rw [h, Int.cast_natCast]
  refine ⟨run.results, solveTemperatureDistribution_of_run m s run hrun, ?_, ?_, hlen, hall,
    ?_, ?_, ?_⟩
  · rw [hhot]; exact (solveState_length m s k).1
  · rw [hcold]; exact (solveState_length m s k).2
  · rw [hall 0 (Nat.zero_le _)]; simp
  · rw [hall _ (le_refl _)]
    congr 1
    rw [← Int.cast_natCast, hcast]
    field_simp
  · intro i hi
    rw [hget (i + 1) (by omega), hget i (by omega)]
    push_cast
    ring

end ProfileShape

section ProfileSizes

variable {α : Type} [Add α] [Sub α] [Mul α] [Div α] [Neg α] [OfScientific α] [IntCast α]
  [LT α] [∀ a b : α, Decidable (a < b)]

/-- C15, amended. In any arithmetic, that of `double` included, the record
returned for `1 <= N < INT_MAX` holds exactly `N + 1` hot temperatures, `N + 1`
cold temperatures and `N + 1` positions, and `positions[i]` is the product
`i * dx` of the converted index and the quotient `dx = length / N`, both as
computed, for every `0 <= i <= N`. In exact arithmetic, in addition,
`positions[0] = 0`, `positions[N] = length`, and consecutive positions differ
by `length / N`. (On doubles the product and the quotient are rounded, and
`positions[N]` can miss `length`.) -/
theorem profile_sizes_and_positions (m : CMath α) (s : NumericalSolver α)
    (hN : 1 ≤ s.num_segments) (hmax : s.num_segments < INT_MAX) :
    (∃ r, solveTemperatureDistribution m s = Except.ok r
        ∧ r.hot_temperatures.length = s.num_segments.toNat + 1
        ∧ r.cold_temperatures.length = s.num_segments.toNat + 1
        ∧ r.positions.length = s.num_segments.toNat + 1
        ∧ ∀ i, i ≤ s.num_segments.toNat →
            r.positions[i]?
              = some (((i : Int) : α) * (s.geometry.length / (s.num_segments : α))))
      ∧ ∀ (β : Type) [LinearOrderedField β] (m' : CMath β) (s' : NumericalSolver β),
          1 ≤ s'.num_segments → s'.num_segments < INT_MAX →
          ∃ r, solveTemperatureDistribution m' s' = Except.ok r
            ∧ r.positions[0]? = some 0
            ∧ r.positions[s'.num_segments.toNat]? = some s'.geometry.length
            ∧ ∀ i, i < s'.num_segments.toNat →
                r.positions.getD (i + 1) 0.0 - r.positions.getD i 0.0
                  = s'.geometry.length / (s'.num_segments : β) := by
  constructor
  · obtain ⟨run, k, hrun, _, _, _, hhot, hcold, _, _⟩ := solveRun_spec m s (by omega) hmax
    have hres := solveRun_results m s run hrun
    have hpos : run.results.positions
        = fillPositions s.num_segments.toNat (s.geometry.length / (s.num_segments : α))
            (List.replicate (s.num_segments.toNat + 1) (0.0 : α)) := by
      rw [hres]
    obtain ⟨hlen, hget⟩ := fillPositions_spec s.num_segments.toNat
      (s.geometry.length / (s.num_segments : α))
      (List.replicate (s.num_segments.toNat + 1) (0.0 : α)) (List.length_replicate _ _)
    rw [← hpos] at hlen hget
    refine ⟨run.results, solveTemperatureDistribution_of_run m s run hrun, ?_, ?_, hlen,
      fun i hi => getElem?_of_getD (by rw [hlen]; omega) (hget i hi)⟩
    · rw [hhot]; exact (solveState_length m s k).1
    · rw [hcold]; exact (solveState_length m s k).2
  · intro β _ m' s' hN' hmax'
    obtain ⟨r, hr, _, _, _, _, h0, hlast, hstep⟩ := positions_exact m' s' hN' hmax'
    exact ⟨r, hr, h0, hlast, hstep⟩

/-- Witness of C15 amended: the end-to-end scenario with 50 segments has 51
nodes. -/
theorem profile_sizes_and_positions_witness :
    (1 : Int) ≤ (sampleSolver 50).num_segments ∧ (sampleSolver 50).num_segments < INT_MAX
      ∧ ∃ r, solveTemperatureDistribution ratMath (sampleSolver 50) = Except.ok r
          ∧ r.hot_temperatures.length = 51 ∧ r.cold_temperatures.length = 51
          ∧ r.positions.length = 51 := by
  obtain ⟨r, h1, h2, h3, h4, _⟩ :=
    (profile_sizes_and_positions ratMath (sampleSolver 50) (by decide) (by decide)).1
  exact ⟨by decide, by decide, r, h1, h2, h3, h4⟩

end ProfileSizes

/-! ## Log-mean temperature difference and the tube-side selector -/

section Correlations

variable {α : Type} [LinearOrderedField α]

/-- C16. For all inputs whose end differences `dT1 = hot_inlet - cold_outlet`
and `dT2 = hot_outlet - cold_inlet` are both positive with
`|dT1 - dT2| < 1e-6`, `LMTD_counterCurrent` returns exactly `dT1`, through the
early return that evaluates no logarithm (so whatever `std::log` would give);
in particular `LMTD_counterCurrent(350, 350, 300, 300) = 50`, which is the
witness. -/
theorem lmtd_near_equal_differences (m : CMath α)
    (hot_inlet hot_outlet cold_inlet cold_outlet : α)
    (h1 : 0 < hot_inlet - cold_outlet) (h2 : 0 < hot_outlet - cold_inlet)
    (h3 : |(hot_inlet - cold_outlet) - (hot_outlet - cold_inlet)| < 1e-6) :
    LMTD_counterCurrent m hot_inlet hot_outlet cold_inlet cold_outlet = hot_inlet - cold_outlet
      ∧ (LMTD_counterCurrent_traced m hot_inlet hot_outlet cold_inlet cold_outlet).2
          = LMTDReturn.near_equal := by
  have hc : ¬ (hot_inlet - cold_outlet ≤ ((0 : Int) : α)
      ∨ hot_outlet - cold_inlet ≤ ((0 : Int) : α)) := by
    simp only [Int.cast_zero, not_or, not_le]
    exact ⟨h1, h2⟩
  have ha : stdAbs ((hot_inlet - cold_outlet) - (hot_outlet - cold_inlet)) < 1e-6 := by
    rw [stdAbs_eq_abs]; exact h3
  simp only [LMTD_counterCurrent, LMTD_counterCurrent_traced, if_neg hc, if_pos ha, and_self]

/-- Witness of C16: `LMTD_counterCurrent(350, 350, 300, 300) = 50`. -/
theorem lmtd_near_equal_differences_witness :
    LMTD_counterCurrent ratMath 350 350 300 300 = 50 := by
  have h := (lmtd_near_equal_differences ratMath 350 350 300 300 (by norm_num) (by norm_num)
    (by norm_num)).1
  rw [h]; norm_num

/-- C17, refuted as stated: with crossed temperatures (hot outlet 290 below
cold inlet 310, both end differences -20) the value returned is 20, not the
arithmetic mean -20 of the two differences. -/
theorem lmtd_crossed_returns_magnitude :
    (290 : ℚ) < 310
      ∧ LMTD_counterCurrent ratMath 300 290 310 320 = 20
      ∧ (((300 : ℚ) - 320) + (290 - 310)) / 2 = -20 := by
  refine ⟨by norm_num, ?_, by norm_num⟩
  simp only [LMTD_counterCurrent, LMTD_counterCurrent_traced, stdAbs]
  norm_num

/-- C17, amended. Whenever `hot_inlet - cold_outlet <= 0` or
`hot_outlet - cold_inlet <= 0` (crossed temperatures included),
`LMTD_counterCurrent` returns the absolute value of the arithmetic mean of the
two end differences, through the fallback return that evaluates no
logarithm. -/
theorem lmtd_fallback_is_abs_mean (m : CMath α)
    (hot_inlet hot_outlet cold_inlet cold_outlet : α)
    (h : hot_inlet - cold_outlet ≤ 0 ∨ hot_outlet - cold_inlet ≤ 0) :
    LMTD_counterCurrent m hot_inlet hot_outlet cold_inlet cold_outlet
        = |((hot_inlet - cold_outlet) + (hot_outlet - cold_inlet)) / 2|
      ∧ (LMTD_counterCurrent_traced m hot_inlet hot_outlet cold_inlet cold_outlet).2
          = LMTDReturn.fallback := by
  have hc : hot_inlet - cold_outlet ≤ ((0 : Int) : α)
      ∨ hot_outlet - cold_inlet ≤ ((0 : Int) : α) := by
    simpa only [Int.cast_zero] using h
  have h2 : (2.0 : α) = 2 := by norm_num
  simp only [LMTD_counterCurrent, LMTD_counterCurrent_traced, if_pos hc, stdAbs_eq_abs, h2,
    and_self]

/-- Witness of C17 amended: hot outlet 290 below cold inlet 310. -/
theorem lmtd_fallback_is_abs_mean_witness :
    ((300 : ℚ) - 320 ≤ 0 ∨ (290 : ℚ) - 310 ≤ 0)
      ∧ (LMTD_counterCurrent_traced ratMath 300 290 310 320).2 = LMTDReturn.fallback :=
  ⟨Or.inl (by norm_num),
    (lmtd_fallback_is_abs_mean ratMath 300 290 310 320 (Or.inl (by norm_num))).2⟩

/-- C18. `LMTD_counterCurrent` returns a value for all four temperatures, and
whenever it ends at the logarithmic formula `(dT1 - dT2) / log(dT1 / dT2)`,
both `dT1` and `dT2` are strictly positive, the argument of the logarithm is
positive, and `log(dT1 / dT2)` is not zero. The one property of the logarithm
used is that on positive numbers it vanishes at 1 only. -/
theorem lmtd_logarithm_is_safe (m : CMath α)
    (hlog : ∀ x : α, 0 < x → x ≠ 1 → m.log x ≠ 0)
    (hot_inlet hot_outlet cold_inlet cold_outlet : α) :
    (∃ v, LMTD_counterCurrent m hot_inlet hot_outlet cold_inlet cold_outlet = v)
      ∧ ((LMTD_counterCurrent_traced m hot_inlet hot_outlet cold_inlet cold_outlet).2
            = LMTDReturn.logarithmic →
          0 < hot_inlet - cold_outlet ∧ 0 < hot_outlet - cold_inlet
            ∧ 0 < (hot_inlet - cold_outlet) / (hot_outlet - cold_inlet)
            ∧ m.log ((hot_inlet - cold_outlet) / (hot_outlet - cold_inlet)) ≠ 0
            ∧ LMTD_counterCurrent m hot_inlet hot_outlet cold_inlet cold_outlet
                = ((hot_inlet - cold_outlet) - (hot_outlet - cold_inlet))
                    / m.log ((hot_inlet - cold_outlet) / (hot_outlet - cold_inlet))) := by
  refine ⟨⟨_, rfl⟩, ?_⟩
  intro hbranch
  by_cases hc : hot_inlet - cold_outlet ≤ ((0 : Int) : α)
      ∨ hot_outlet - cold_inlet ≤ ((0 : Int) : α)
  · simp only [LMTD_counterCurrent_traced, if_pos hc] at hbranch
    exact absurd hbranch (by decide)
  · by_cases ha : stdAbs ((hot_inlet - cold_outlet) - (hot_outlet - cold_inlet)) < 1e-6
    · simp only [LMTD_counterCurrent_traced, if_neg hc, if_pos ha] at hbranch
      exact absurd hbranch (by decide)
    · simp only [Int.cast_zero, not_or, not_le] at hc
      obtain ⟨h1, h2⟩ := hc
      have hne : hot_inlet - cold_outlet ≠ hot_outlet - cold_inlet := by
        intro heq
        apply ha
        rw [stdAbs_eq_abs, heq, sub_self, abs_zero]
        norm_num
      have hq : (hot_inlet - cold_outlet) / (hot_outlet - cold_inlet) ≠ 1 := by
        intro h
        exact hne ((div_eq_one_iff_eq h2.ne').mp h)
      have hc2 : ¬ (hot_inlet - cold_outlet ≤ ((0 : Int) : α)
          ∨ hot_outlet - cold_inlet ≤ ((0 : Int) : α)) := by
        simp only [Int.cast_zero, not_or, not_le]
        exact ⟨h1, h2⟩
      refine ⟨h1, h2, div_pos h1 h2, hlog _ (div_pos h1 h2) hq, ?_⟩
      simp only [LMTD_counterCurrent, LMTD_counterCurrent_traced, if_neg hc2, if_neg ha]

/-- Witness of C18: end differences 40 and 20. -/
theorem lmtd_logarithm_is_safe_witness :
    (∀ x : ℚ, 0 < x → x ≠ 1 → ratMath.log x ≠ 0)
      ∧ ((LMTD_counterCurrent_traced ratMath 350 320 300 310).2 = LMTDReturn.logarithmic →
          ratMath.log (((350 : ℚ) - 310) / (320 - 300)) ≠ 0) := by
  have hlog : ∀ x : ℚ, 0 < x → x ≠ 1 → ratMath.log x ≠ 0 := by
    intro x _ hx
    simp only [ratMath, if_neg hx]
    exact sub_ne_zero.mpr hx
  exact ⟨hlog, fun h => ((lmtd_logarithm_is_safe ratMath hlog 350 320 300 310).2 h).2.2.2.1⟩

theorem dittusBoelter_turbulent (m : CMath α) (reynolds prandtl : α) (heating : Bool)
    (h : 2300 < reynolds) :
    dittusBoelter m reynolds prandtl heating
      = 0.023 * m.pow reynolds 0.8 * m.pow prandtl (if heating then 0.4 else 0.3) := by
  have hn : ¬ reynolds < ((2300 : Int) : α) := by
    simp only [Int.cast_ofNat, not_lt]; exact h.le
  simp only [dittusBoelter, if_neg hn]

theorem laminar_default (m : CMath α) : laminarTubeConstantWallTemp m (0.0 : α) = 3.66 := by
  have hn : ¬ ((100 : Int) : α) < 0.0 := by norm_num
  simp only [laminarTubeConstantWallTemp, if_neg hn]

/-- The three cases of the tube-side selector. -/
theorem getTubeSideNusselt_cases (m : CMath α) (reynolds prandtl : α) (heating : Bool) :
    getTubeSideNusselt m reynolds prandtl heating
      = if 10000 < reynolds ∧ 0 < gnielinski m reynolds prandtl then
          gnielinski m reynolds prandtl
        else if 2300 < reynolds then
          0.023 * m.pow reynolds 0.8 * m.pow prandtl (if heating then 0.4 else 0.3)
        else 3.66 := by
  unfold getTubeSideNusselt
  simp only [Int.cast_ofNat, Int.cast_zero]
  by_cases h1 : 10000 < reynolds ∧ 0 < gnielinski m reynolds prandtl
  · rw [if_pos h1, if_pos h1]
  · rw [if_neg h1, if_neg h1]
    by_cases h2 : 2300 < reynolds
    · rw [if_pos h2, if_pos h2, dittusBoelter_turbulent m reynolds prandtl heating h2]
    · rw [if_neg h2, if_neg h2, laminar_default]

/-- C19. For every Reynolds number, Prandtl number and heating flag,
`getTubeSideNusselt` returns `gnielinski(Re, Pr)` when `Re > 10000` and
`gnielinski(Re, Pr) > 0`; otherwise, when `Re > 2300`, it returns
`dittusBoelter(Re, Pr, heating)`, which is `0.023 * Re^0.8 * Pr^n` with
`n = 0.4` if heating and `0.3` if not; otherwise the laminar constant 3.66. -/
theorem tube_side_selector (m : CMath α) (reynolds prandtl : α) (heating : Bool) :
    getTubeSideNusselt m reynolds prandtl heating
        = (if 10000 < reynolds ∧ 0 < gnielinski m reynolds prandtl then
            gnielinski m reynolds prandtl
          else if 2300 < reynolds then dittusBoelter m reynolds prandtl heating
          else 3.66)
      ∧ (2300 < reynolds →
          dittusBoelter m reynolds prandtl heating
            = 0.023 * m.pow reynolds 0.8 * m.pow prandtl (if heating then 0.4 else 0.3)) := by
  refine ⟨?_, dittusBoelter_turbulent m reynolds prandtl heating⟩
  rw [getTubeSideNusselt_cases]
  by_cases h1 : 10000 < reynolds ∧ 0 < gnielinski m reynolds prandtl
  · rw [if_pos h1, if_pos h1]
  · rw [if_neg h1, if_neg h1]
    by_cases h2 : 2300 < reynolds
    · rw [if_pos h2, if_pos h2, dittusBoelter_turbulent m reynolds prandtl heating h2]
    · rw [if_neg h2, if_neg h2]

/-- C20. The tube-side selector never returns a sentinel zero: for every
Reynolds number and every Prandtl number `Pr > 0`, with either heating flag,
`getTubeSideNusselt(Re, Pr, heating)` is strictly positive; this includes
`Re > 5e6`, where `gnielinski` returns the sentinel 0. The one property of
`pow` used is that a power of a positive base is positive. -/
theorem tube_side_nusselt_positive (m : CMath α)
    (hpow : ∀ x y : α, 0 < x → 0 < m.pow x y)
    (reynolds prandtl : α) (heating : Bool) (hPr : 0 < prandtl) :
    0 < getTubeSideNusselt m reynolds prandtl heating
      ∧ (5e6 < reynolds → gnielinski m reynolds prandtl = 0) := by
  constructor
  · rw [getTubeSideNusselt_cases]
    by_cases h1 : 10000 < reynolds ∧ 0 < gnielinski m reynolds prandtl
    · rw [if_pos h1]; exact h1.2
    · rw [if_neg h1]
      by_cases h2 : 2300 < reynolds
      · rw [if_pos h2]
        have hRe : 0 < reynolds := lt_trans (by norm_num) h2
        exact mul_pos (mul_pos (by norm_num) (hpow _ _ hRe)) (hpow _ _ hPr)
      · rw [if_neg h2]; norm_num
  · intro h
    have hc : reynolds < ((2300 : Int) : α) ∨ (5e6 : α) < reynolds := Or.inr h
    simp only [gnielinski, if_pos hc]
    norm_num

/-- Witness of C20: `Re = 6e6`, above the range of `gnielinski`, `Pr = 7`. -/
theorem tube_side_nusselt_positive_witness :
    (∀ x y : ℚ, 0 < x → 0 < ratMath.pow x y) ∧ (0 : ℚ) < 7
      ∧ 0 < getTubeSideNusselt ratMath (6e6 : ℚ) 7 true := by
  have hpow : ∀ x y : ℚ, 0 < x → 0 < ratMath.pow x y := by
    intro x y hx
    simp only [ratMath]
    split_ifs
    · exact mul_pos hx hx
    · exact div_pos one_pos (mul_pos hx hx)
    · exact one_pos
    · exact hx
  exact ⟨hpow, by norm_num,
    (tube_side_nusselt_positive ratMath hpow 6e6 7 true (by norm_num)).1⟩

end Correlations

/-! ## Correlations and the setup phase -/

section SetupPhase

variable {α : Type} [LinearOrderedField α]

/-- The scalar fields of a record returned by the call are those of the setup
phase. -/
theorem solve_ok_scalars (m : CMath α) (s : NumericalSolver α) (r : SolutionResults α)
    (h : solveTemperatureDistribution m s = Except.ok r) :
    r.overall_htc = (setupScalars m s).overall_htc
      ∧ r.hot_reynolds = (setupScalars m s).hot_reynolds
      ∧ r.cold_reynolds = (setupScalars m s).cold_reynolds
      ∧ r.hot_nusselt = (setupScalars m s).hot_nusselt
      ∧ r.cold_nusselt = (setupScalars m s).cold_nusselt
      ∧ r.hot_htc = (setupScalars m s).hot_htc
      ∧ r.cold_htc = (setupScalars m s).cold_htc := by
  obtain ⟨run, hrun, hres⟩ := solve_ok_run m s r h
  have hr := solveRun_results m s run hrun
  rw [hres] at hr
  rw [hr]
  exact ⟨rfl, rfl, rfl, rfl, rfl, rfl, rfl⟩

/-- C21. Each tube correlation returns the sentinel 0 outside its Reynolds
range: `dittusBoelter` and `siederTate` return 0 for every `Re < 2300`, and
`gnielinski` returns 0 for every `Re < 2300` and every `Re > 5e6`, for any
Prandtl number (and any heating flag and viscosity ratio). -/
theorem correlations_sentinel_zero (m : CMath α) (reynolds prandtl viscosity_ratio : α)
    (heating : Bool) :
    (reynolds < 2300 →
        dittusBoelter m reynolds prandtl heating = 0
          ∧ siederTate m reynolds prandtl viscosity_ratio = 0
          ∧ gnielinski m reynolds prandtl = 0)
      ∧ (5e6 < reynolds → gnielinski m reynolds prandtl = 0) := by
  have h0 : (0.0 : α) = 0 := by norm_num
  constructor
  · intro h
    have hc : reynolds < ((2300 : Int) : α) := by simpa only [Int.cast_ofNat] using h
    refine ⟨?_, ?_, ?_⟩
    · simp only [dittusBoelter, if_pos hc, h0]
    · simp only [siederTate, if_pos hc, h0]
    · simp only [gnielinski, if_pos (Or.inl hc : _ ∨ (5e6 : α) < reynolds), h0]
  · intro h
    simp only [gnielinski, if_pos (Or.inr h : reynolds < ((2300 : Int) : α) ∨ _), h0]

/-- C22. The shell-side Nusselt number is the tube-bundle cross-flow
correlation, staggered by default: `getShellSideNusselt(Re, Pr)` with no
arrangement given is `shellSideTubeBundles(Re, Pr, 1)`, which is
`0.664 * sqrt(Re) * Pr^(1/3)` for `Re < 2000` whatever the arrangement and, for
`Re >= 2000`, `0.27 * Re^0.63 * Pr^0.36` for arrangement 0 and
`0.36 * Re^0.55 * Pr^0.36` for arrangement 1; the record returned by the solver
holds the default call on its hot Reynolds number and the hot Prandtl
number. -/
theorem shell_side_default_staggered (m : CMath α) (reynolds prandtl : α)
    (s : NumericalSolver α) :
    getShellSideNusseltDefault m reynolds prandtl = shellSideTubeBundles m reynolds prandtl 1
      ∧ (∀ tube_arrangement : Int, reynolds < 2000 →
          shellSideTubeBundles m reynolds prandtl tube_arrangement
            = 0.664 * m.sqrt reynolds * m.pow prandtl (1 / 3))
      ∧ (2000 ≤ reynolds →
          shellSideTubeBundles m reynolds prandtl 0
              = 0.27 * m.pow reynolds 0.63 * m.pow prandtl 0.36
            ∧ shellSideTubeBundles m reynolds prandtl 1
              = 0.36 * m.pow reynolds 0.55 * m.pow prandtl 0.36)
      ∧ ∀ r, solveTemperatureDistribution m s = Except.ok r →
          r.hot_nusselt = getShellSideNusseltDefault m r.hot_reynolds s.hot_fluid.prandtl := by
  have h3 : (1.0 / 3.0 : α) = 1 / 3 := by norm_num
  refine ⟨rfl, ?_, ?_, ?_⟩
  · intro arr h
    have hc : reynolds < ((2000 : Int) : α) := by simpa only [Int.cast_ofNat] using h
    simp only [shellSideTubeBundles, if_pos hc, h3]
  · intro h
    have hc : ¬ reynolds < ((2000 : Int) : α) := by
      simp only [Int.cast_ofNat, not_lt]; exact h
    constructor
    · simp only [shellSideTubeBundles, if_neg hc, if_true]
    · have h10 : ¬ ((1 : Int) = 0) := by decide
      simp only [shellSideTubeBundles, if_neg hc, if_neg h10]
  · intro r hr
    obtain ⟨_, h1, _, h2, _⟩ := solve_ok_scalars m s r hr
    rw [h2, h1]
    rfl

/-- C23. The `overall_htc` returned by the solver is the inner-area based
series-resistance value
`1 / (1/h_cold + r_i * ln(r_o / r_i) / k_wall + r_i / (h_hot * r_o))` with
`r_i = tube_diameter / 2`, `r_o = r_i + tube_thickness`,
`h_cold = cold_nusselt * cold thermal_cond / tube_diameter` and
`h_hot = hot_nusselt * hot thermal_cond / shell_diameter`, the two film
coefficients being the ones returned next to it. -/
theorem overall_htc_series_resistance (m : CMath α) (s : NumericalSolver α)
    (r : SolutionResults α) (h : solveTemperatureDistribution m s = Except.ok r) :
    r.overall_htc
        = 1 / (1 / r.cold_htc
            + s.geometry.tube_diameter / 2
                * m.log ((s.geometry.tube_diameter / 2 + s.geometry.tube_thickness)
                    / (s.geometry.tube_diameter / 2))
              / s.geometry.wall_thermal_cond
            + s.geometry.tube_diameter / 2
                / (r.hot_htc * (s.geometry.tube_diameter / 2 + s.geometry.tube_thickness)))
      ∧ r.cold_htc = r.cold_nusselt * s.cold_fluid.thermal_cond / s.geometry.tube_diameter
      ∧ r.hot_htc = r.hot_nusselt * s.hot_fluid.thermal_cond / s.geometry.shell_diameter := by
  obtain ⟨h1, _, _, h4, h5, h6, h7⟩ := solve_ok_scalars m s r h
  have e1 : (1.0 : α) = 1 := by norm_num
  have e2 : (2.0 : α) = 2 := by norm_num
  rw [h1, h4, h5, h6, h7]
  simp only [setupScalars, overallHTC, e1, e2]
  exact ⟨trivial, trivial, trivial⟩

/-- Witness of C23: the end-to-end scenario with 50 segments. -/
theorem overall_htc_series_resistance_witness :
    ∃ r, solveTemperatureDistribution ratMath (sampleSolver 50) = Except.ok r
      ∧ r.cold_htc
          = r.cold_nusselt * (sampleSolver 50).cold_fluid.thermal_cond
              / (sampleSolver 50).geometry.tube_diameter := by
  obtain ⟨r, hr, _⟩ := solve_returns_profile ratMath (sampleSolver 50) (by decide) (by decide)
  exact ⟨r, hr, (overall_htc_series_resistance ratMath (sampleSolver 50) r hr).2.1⟩

/-- C24. The Reynolds numbers returned by the solver are
`cold_reynolds = rho_c * v_c * tube_diameter / mu_c` with
`v_c = m_c / (rho_c * num_tubes * pi * (tube_diameter/2)^2)` and
`hot_reynolds = rho_h * v_h * shell_diameter / mu_h` with
`v_h = m_h / (rho_h * (pi * (shell_diameter/2)^2
  - num_tubes * pi * ((tube_diameter + 2*tube_thickness)/2)^2))`;
`v_c` is `tubeVelocity` and `v_h` is `shellVelocity` on the same arguments. The
one property of `pow` used is that the exponent 2 gives the square. -/
theorem reynolds_numbers (m : CMath α) (hsq : ∀ x : α, m.pow x 2 = x ^ 2)
    (s : NumericalSolver α) (r : SolutionResults α)
    (h : solveTemperatureDistribution m s = Except.ok r) :
    r.cold_reynolds
        = s.cold_fluid.density
            * (s.cold_fluid.mass_flow
                / (s.cold_fluid.density * (s.geometry.num_tubes : α) * M_PI
                    * (s.geometry.tube_diameter / 2) ^ 2))
            * s.geometry.tube_diameter / s.cold_fluid.viscosity
      ∧ r.hot_reynolds
          = s.hot_fluid.density
              * (s.hot_fluid.mass_flow
                  / (s.hot_fluid.density
                      * (M_PI * (s.geometry.shell_diameter / 2) ^ 2
                          - (s.geometry.num_tubes : α) * M_PI
                              * ((s.geometry.tube_diameter + 2 * s.geometry.tube_thickness)
                                  / 2) ^ 2)))
              * s.geometry.shell_diameter / s.hot_fluid.viscosity
      ∧ s.cold_fluid.mass_flow
            / (s.cold_fluid.density * (s.geometry.num_tubes : α) * M_PI
                * (s.geometry.tube_diameter / 2) ^ 2)
          = tubeVelocity m s.cold_fluid.mass_flow s.cold_fluid.density s.geometry.tube_diameter
              s.geometry.num_tubes
      ∧ s.hot_fluid.mass_flow
            / (s.hot_fluid.density
                * (M_PI * (s.geometry.shell_diameter / 2) ^ 2
                    - (s.geometry.num_tubes : α) * M_PI
                        * ((s.geometry.tube_diameter + 2 * s.geometry.tube_thickness) / 2) ^ 2))
          = shellVelocity m s.hot_fluid.mass_flow s.hot_fluid.density s.geometry.shell_diameter
              (s.geometry.tube_diameter + 2 * s.geometry.tube_thickness) s.geometry.num_tubes := by
  obtain ⟨_, h2, h3, _⟩ := solve_ok_scalars m s r h
  have e2 : (2.0 : α) = 2 := by norm_num
  have hta : tubeArea m s.geometry.tube_diameter = M_PI * (s.geometry.tube_diameter / 2) ^ 2 := by
    simp only [tubeArea, Int.cast_ofNat, hsq, e2]
  have hsa : shellFlowArea m s.geometry.shell_diameter
      (s.geometry.tube_diameter + 2 * s.geometry.tube_thickness) s.geometry.num_tubes
        = M_PI * (s.geometry.shell_diameter / 2) ^ 2
          - (s.geometry.num_tubes : α) * M_PI
              * ((s.geometry.tube_diameter + 2 * s.geometry.tube_thickness) / 2) ^ 2 := by
    simp only [shellFlowArea, Int.cast_ofNat, hsq, e2]
  refine ⟨?_, ?_, ?_, ?_⟩
  · rw [h3]
    simp only [setupScalars, calculateReynolds, hta]
    congr 3
    ring
  · rw [h2]
    simp only [setupScalars, calculateReynolds, Int.cast_ofNat, hsa]
  · simp only [tubeVelocity, hta]
    congr 1
    ring
  · simp only [shellVelocity, hsa]

/-- Witness of C24: the end-to-end scenario with 50 segments. -/
theorem reynolds_numbers_witness :
    (∀ x : ℚ, ratMath.pow x 2 = x ^ 2)
      ∧ ∃ r, solveTemperatureDistribution ratMath (sampleSolver 50) = Except.ok r
          ∧ (sampleSolver 50).cold_fluid.mass_flow
              / ((sampleSolver 50).cold_fluid.density * ((sampleSolver 50).geometry.num_tubes : ℚ)
                  * M_PI * ((sampleSolver 50).geometry.tube_diameter / 2) ^ 2)
            = tubeVelocity ratMath (sampleSolver 50).cold_fluid.mass_flow
                (sampleSolver 50).cold_fluid.density (sampleSolver 50).geometry.tube_diameter
                (sampleSolver 50).geometry.num_tubes := by
  have hsq : ∀ x : ℚ, ratMath.pow x 2 = x ^ 2 := by
    intro x
    simp only [ratMath, if_true]
    ring
  obtain ⟨r, hr, _⟩ := solve_returns_profile ratMath (sampleSolver 50) (by decide) (by decide)
  exact ⟨hsq, r, hr, (reynolds_numbers ratMath hsq (sampleSolver 50) r hr).2.2.1⟩

end SetupPhase

/-! ## The convergence study -/

section ConvergenceStudy

variable {α : Type} [LinearOrderedField α]

/-- The loop of the study, entered at a counter value `segments >= 0` with
`step >= 1`, when every counter value it reaches can be advanced by `step`
within `int`: with enough passes allowed it ends by its loop condition, having
written one row for each counter value `segments, segments + step, ...` up to
`max_segments`. -/
theorem convergenceStudyLoop_spec (m : CMath α) (solver : NumericalSolver α)
    (max_segments step : Int) (hstep : 1 ≤ step)
    (d : Nat) (segments : Int) (h0 : 0 ≤ segments) (hd : (max_segments + 1 - segments).toNat ≤ d)
    (hrange : ∀ n, segments ≤ n → n ≤ max_segments → step ∣ n - segments → n + step ≤ INT_MAX) :
    ∃ rows : List (StudyRow α),
      (∀ fuel, d ≤ fuel →
          convergenceStudyLoop m solver max_segments step fuel segments
            = some { rows := rows, ending := none })
        ∧ (rows.map (fun row => row.segments)).Pairwise (fun a b => a < b)
        ∧ (∀ n, n ∈ rows.map (fun row => row.segments)
            ↔ segments ≤ n ∧ n ≤ max_segments ∧ step ∣ n - segments)
        ∧ ∀ row, row ∈ rows →
            ∃ r, solveTemperatureDistribution m
                  { num_segments := row.segments, geometry := solver.geometry,
                    hot_fluid := solver.hot_fluid, cold_fluid := solver.cold_fluid }
                  = Except.ok r
              ∧ r.hot_temperatures.length = row.segments.toNat + 1
              ∧ r.cold_temperatures.length = row.segments.toNat + 1
              ∧ row.hot_outlet = r.hot_temperatures.getD row.segments.toNat 0.0
              ∧ row.cold_outlet = r.cold_temperatures.getD 0 0.0
              ∧ row.overall_htc = r.overall_htc := by
  induction d generalizing segments with
  | zero =>
    have hgt : ¬ segments ≤ max_segments := by omega
    refine ⟨[], ?_, List.Pairwise.nil, ?_, ?_⟩
    · intro fuel _
      cases fuel with
      | zero => simp only [convergenceStudyLoop, if_neg hgt]
      | succ f => simp only [convergenceStudyLoop, if_neg hgt]
    · intro n
      simp only [List.map_nil, List.not_mem_nil, false_iff]
      rintro ⟨h1, h2, _⟩
      omega
    · intro row hrow
      exact absurd hrow (List.not_mem_nil row)
  | succ d ih =>
    by_cases hle : segments ≤ max_segments
    · have hlast := hrange segments (le_refl _) hle (by simp)
      obtain ⟨r, hr, hl1, hl2⟩ := solve_returns_profile m
        ({ num_segments := segments, geometry := solver.geometry,
           hot_fluid := solver.hot_fluid, cold_fluid := solver.cold_fluid } : NumericalSolver α) h0
        (by show segments < INT_MAX; omega)
      have hnext : ∀ n, segments + step ≤ n → n ≤ max_segments → step ∣ n - (segments + step)
          → n + step ≤ INT_MAX := by
        intro n h1 h2 h3
        refine hrange n (by omega) h2 ?_
        have : n - segments = (n - (segments + step)) + step := by ring
        rw [this]
        exact dvd_add h3 (dvd_refl step)
      obtain ⟨rows, hrun, hpair, hmem, hrows⟩ := ih (segments + step) (by omega) (by omega) hnext
      have hno : ¬ (segments + step < INT_MIN ∨ INT_MAX < segments + step) := by
        have : INT_MIN = -2147483648 := rfl
        have := hrange segments (le_refl _) hle (by simp)
        omega
      refine ⟨{ segments := segments,
                hot_outlet := r.hot_temperatures.getD segments.toNat 0.0,
                cold_outlet := r.cold_temperatures.getD 0 0.0,
                overall_htc := r.overall_htc } :: rows, ?_, ?_, ?_, ?_⟩
      · intro fuel hfuel
        obtain ⟨f, rfl⟩ : ∃ f, fuel = f + 1 := ⟨fuel - 1, by omega⟩
        simp only [convergenceStudyLoop, if_pos hle, hr, if_neg hno, hrun f (by omega)]
      · rw [List.map_cons, List.pairwise_cons]
        refine ⟨?_, hpair⟩
        intro n hn
        have := (hmem n).mp hn
        show segments < n
        omega
      · intro n
        rw [List.map_cons, List.mem_cons, hmem n]
        constructor
        · rintro (h | ⟨h1, h2, h3⟩)
          · subst h
            exact ⟨le_refl _, hle, by simp⟩
          · refine ⟨by omega, h2, ?_⟩
            have : n - segments = (n - (segments + step)) + step := by ring
            rw [this]
            exact dvd_add h3 (dvd_refl step)
        · rintro ⟨h1, h2, h3⟩
          rcases eq_or_lt_of_le h1 with h | h
          · exact Or.inl h.symm
          · right
            have hpos : 0 < n - segments := by omega
            have hge := Int.le_of_dvd hpos h3
            refine ⟨by omega, h2, ?_⟩
            have : n - (segments + step) = (n - segments) - step := by ring
            rw [this]
            exact dvd_sub h3 (dvd_refl step)
      · intro row hrow
        rcases List.mem_cons.mp hrow with h | h
        · subst h
          exact ⟨r, hr, hl1, hl2, rfl, rfl, rfl⟩
        · exact hrows row h
    · refine ⟨[], ?_, List.Pairwise.nil, ?_, ?_⟩
      · intro fuel _
        cases fuel with
        | zero => simp only [convergenceStudyLoop, if_neg hle]
        | succ f => simp only [convergenceStudyLoop, if_neg hle]
      · intro n
        simp only [List.map_nil, List.not_mem_nil, false_iff]
        rintro ⟨h1, h2, _⟩
        omega
      · intro row hrow
        exact absurd hrow (List.not_mem_nil row)

/-- The study never reads the segment count of the solver it is called on. -/
theorem convergenceStudyLoop_own_count (m : CMath α) (solver : NumericalSolver α)
    (max_segments step : Int) (own : Int) (fuel : Nat) (segments : Int) :
    convergenceStudyLoop m { solver with num_segments := own } max_segments step fuel segments
      = convergenceStudyLoop m solver max_segments step fuel segments := by
  induction fuel generalizing segments with
  | zero => rfl
  | succ f ih =>
    simp only [convergenceStudyLoop]
    rw [ih]

/-- C25, refuted as stated: called on the one-segment exchanger
`imbalanceSolver` with `min_segments = 1`, `max_segments = 2147483647` and
`step = 2147483647` (both at least 1), the study writes the row of `n = 1` and
then adds `step` to the counter, which leaves the range of `int`: however many
passes are allowed, the loop does not end by its condition. -/
theorem convergence_study_counter_overflow :
    convergenceStudy ratMath imbalanceSolver 1 2147483647 2147483647 0 = none
      ∧ ∃ row : StudyRow ℚ, row.segments = 1
          ∧ ∀ fuel, 1 ≤ fuel →
              convergenceStudy ratMath imbalanceSolver 1 2147483647 2147483647 fuel
                = some { rows := [row], ending := some StudyFault.counter_overflow } := by
  obtain ⟨run, hrun, _⟩ := imbalance_run
  have hs : solveTemperatureDistribution ratMath
      ({ num_segments := 1, geometry := imbalanceSolver.geometry,
         hot_fluid := imbalanceSolver.hot_fluid,
         cold_fluid := imbalanceSolver.cold_fluid } : NumericalSolver ℚ)
      = Except.ok run.results :=
    solveTemperatureDistribution_of_run ratMath imbalanceSolver run hrun
  have hle : (1 : Int) ≤ 2147483647 := by decide
  have hov : (1 : Int) + 2147483647 < INT_MIN ∨ INT_MAX < (1 : Int) + 2147483647 :=
    Or.inr (by decide)
  refine ⟨?_, ⟨{ segments := 1,
                 hot_outlet := run.results.hot_temperatures.getD (1 : Int).toNat 0.0,
                 cold_outlet := run.results.cold_temperatures.getD 0 0.0,
                 overall_htc := run.results.overall_htc }, rfl, ?_⟩⟩
  · simp only [convergenceStudy, convergenceStudyLoop, if_pos hle]
  · intro fuel hfuel
    obtain ⟨f, rfl⟩ : ∃ f, fuel = f + 1 := ⟨fuel - 1, by omega⟩
    simp only [convergenceStudy, convergenceStudyLoop, if_pos hle, hs, if_pos hov]

/-- C25, amended. For `min_segments >= 1` and `step >= 1`, when every segment
count `n = min_segments, min_segments + step, ...` with `n <= max_segments`
has `n + step` within `int` (as when `max_segments + step <= INT_MAX`),
`convergenceStudy` terminates by its loop condition, with
`max_segments + 1 - min_segments` passes at most, and writes one row for each
such `n`, in strictly increasing order of `n`, and no others (no row when
`min_segments > max_segments`); the row for `n` is
`(n, r.hot_temperatures[n], r.cold_temperatures[0], r.overall_htc)` where `r`
is the record returned by a solve with `n` segments on the geometry and fluids
of the solver the study is called on, which has `n + 1` hot and cold nodes;
and the study is the same whatever the segment count of that solver is. -/
theorem convergence_study_rows (m : CMath α) (solver : NumericalSolver α)
    (min_segments max_segments step : Int) (hmin : 1 ≤ min_segments) (hstep : 1 ≤ step)
    (hrange : ∀ n, min_segments ≤ n → n ≤ max_segments → step ∣ n - min_segments
      → n + step ≤ INT_MAX) :
    ∃ rows : List (StudyRow α),
      (∀ fuel, (max_segments + 1 - min_segments).toNat ≤ fuel →
          convergenceStudy m solver min_segments max_segments step fuel
            = some { rows := rows, ending := none })
        ∧ (rows.map (fun row => row.segments)).Pairwise (fun a b => a < b)
        ∧ (∀ n, n ∈ rows.map (fun row => row.segments)
            ↔ min_segments ≤ n ∧ n ≤ max_segments ∧ step ∣ n - min_segments)
        ∧ (max_segments < min_segments → rows = [])
        ∧ (∀ row, row ∈ rows →
            ∃ r, solveTemperatureDistribution m
                  { num_segments := row.segments, geometry := solver.geometry,
                    hot_fluid := solver.hot_fluid, cold_fluid := solver.cold_fluid }
                  = Except.ok r
              ∧ r.hot_temperatures.length = row.segments.toNat + 1
              ∧ r.cold_temperatures.length = row.segments.toNat + 1
              ∧ row.hot_outlet = r.hot_temperatures.getD row.segments.toNat 0.0
              ∧ row.cold_outlet = r.cold_temperatures.getD 0 0.0
              ∧ row.overall_htc = r.overall_htc)
        ∧ ∀ (own : Int) (fuel : Nat),
            convergenceStudy m { solver with num_segments := own } min_segments max_segments
                step fuel
              = convergenceStudy m solver min_segments max_segments step fuel := by
  obtain ⟨rows, hrun, hpair, hmem, hrows⟩ := convergenceStudyLoop_spec m solver max_segments step
    hstep (max_segments + 1 - min_segments).toNat min_segments (by omega) (le_refl _) hrange
  refine ⟨rows, hrun, hpair, hmem, ?_, hrows, ?_⟩
  · intro hlt
    match rows, hmem with
    | [], _ => rfl
    | row :: rest, hmem =>
      have := (hmem row.segments).mp (by simp)
      omega
  · intro own fuel
    exact convergenceStudyLoop_own_count m solver max_segments step own fuel min_segments

/-- Witness of C25 amended: the study of the end-to-end scenario from 10 to 50
segments in steps of 20 ends within 41 passes and has a row for 30 segments
and none for 20. -/
theorem convergence_study_rows_witness :
    (1 : Int) ≤ 10 ∧ (1 : Int) ≤ 20
      ∧ (∀ n : Int, 10 ≤ n → n ≤ 50 → (20 : Int) ∣ n - 10 → n + 20 ≤ INT_MAX)
      ∧ ∃ rows : List (StudyRow ℚ),
          convergenceStudy ratMath (sampleSolver 1) 10 50 20 41
              = some { rows := rows, ending := none }
            ∧ (30 : Int) ∈ rows.map (fun row => row.segments)
            ∧ (20 : Int) ∉ rows.map (fun row => row.segments) := by
  have hr : ∀ n : Int, 10 ≤ n → n ≤ 50 → (20 : Int) ∣ n - 10 → n + 20 ≤ INT_MAX := by
    intro n _ h _
    have : INT_MAX = 2147483647 := rfl
    omega
  obtain ⟨rows, hrun, _, hmem, _⟩ :=
    convergence_study_rows ratMath (sampleSolver 1) 10 50 20 (by decide) (by decide) hr
  refine ⟨by decide, by decide, hr, rows, hrun 41 (by decide), ?_, ?_⟩
  · exact (hmem 30).mpr (by decide)
  · intro h
    exact absurd ((hmem 20).mp h).2.2 (by decide)

end ConvergenceStudy

/-! ## The initial guess and the boundary nodes under relaxation -/

section InitialGuessValues

variable {α : Type} [Add α] [Sub α] [Mul α] [Div α] [OfScientific α] [IntCast α]

theorem initialGuess_upTo (N : Int) (hot cold : FluidProperties α) (t : List α × List α)
    (k : Nat) :
    ∀ j, j < t.1.length → j < t.2.length →
      ((List.range k).foldl (initialGuessBody N hot cold) t).1.getD j 0.0
          = (if j < k then
              hot.inlet_temp - ((j : Int) : α) / (N : α) * (hot.inlet_temp - hot.outlet_temp)
             else t.1.getD j 0.0)
        ∧ ((List.range k).foldl (initialGuessBody N hot cold) t).2.getD j 0.0
          = (if j < k then
              cold.outlet_temp + ((j : Int) : α) / (N : α) * (cold.inlet_temp - cold.outlet_temp)
             else t.2.getD j 0.0) := by
  induction k with
  | zero => intro j _ _; simp
  | succ k ih =>
    intro j h1 h2
    rw [List.range_succ, List.foldl_append, List.foldl_cons, List.foldl_nil]
    have hl : ((List.range k).foldl (initialGuessBody N hot cold) t).1.length = t.1.length
        ∧ ((List.range k).foldl (initialGuessBody N hot cold) t).2.length = t.2.length := by
      clear ih
      induction k with
      | zero => simp
      | succ k ih2 =>
        rw [List.range_succ, List.foldl_append]
        simpa [initialGuessBody] using ih2
    have ihj := ih j h1 h2
    generalize (List.range k).foldl (initialGuessBody N hot cold) t = T at hl ihj ⊢
    by_cases hjk : j = k
    · subst hjk
      unfold initialGuessBody
      simp only []
      rw [getD_set_self (by rw [hl.1]; exact h1), getD_set_self (by rw [hl.2]; exact h2),
        if_pos (Nat.lt_succ_self j), if_pos (Nat.lt_succ_self j)]
      exact ⟨rfl, rfl⟩
    · unfold initialGuessBody
      simp only []
      rw [getD_set_other (fun h => hjk h.symm), getD_set_other (fun h => hjk h.symm),
        ihj.1, ihj.2]
      by_cases hlt : j < k
      · rw [if_pos hlt, if_pos hlt, if_pos (Nat.lt_succ_of_lt hlt),
          if_pos (Nat.lt_succ_of_lt hlt)]
        exact ⟨rfl, rfl⟩
      · have hn : ¬ j < k + 1 := by omega
        rw [if_neg hlt, if_neg hlt, if_neg hn, if_neg hn]
        exact ⟨rfl, rfl⟩

/-- The values the initial-guess loop leaves at every node `i <= N`. -/
theorem initialTemperatures_getD (s : NumericalSolver α) (i : Nat)
    (hi : i ≤ s.num_segments.toNat) :
    (initialTemperatures s).1.getD i 0.0
        = s.hot_fluid.inlet_temp
          - ((i : Int) : α) / (s.num_segments : α)
            * (s.hot_fluid.inlet_temp - s.hot_fluid.outlet_temp)
      ∧ (initialTemperatures s).2.getD i 0.0
        = s.cold_fluid.outlet_temp
          + ((i : Int) : α) / (s.num_segments : α)
            * (s.cold_fluid.inlet_temp - s.cold_fluid.outlet_temp) := by
  have h := initialGuess_upTo s.num_segments s.hot_fluid s.cold_fluid
    ((List.replicate (s.num_segments.toNat + 1) (0.0 : α)).set 0 s.hot_fluid.inlet_temp,
     (List.replicate (s.num_segments.toNat + 1) (0.0 : α)).set s.num_segments.toNat
        s.cold_fluid.inlet_temp)
    (s.num_segments.toNat + 1) i
    (by simp only [List.length_set, List.length_replicate]; omega)
    (by simp only [List.length_set, List.length_replicate]; omega)
  rw [if_pos (by omega), if_pos (by omega)] at h
  exact h

end InitialGuessValues

section VectorWrites

variable {α : Type}

theorem set_getD_self (l : List α) (i : Nat) (d : α) (h : i < l.length) :
    l.set i (l.getD i d) = l := by
  apply List.ext_getElem (by simp)
  intro j h1 h2
  rw [List.getElem_set]
  split_ifs with hij
  · subst hij
    rw [List.getD_eq_getElem?_getD, List.getElem?_eq_getElem h]
    rfl
  · rfl

end VectorWrites

section BoundaryUnderRelaxation

variable {α : Type} [LinearOrderedField α]

/-- The vectors the first pass starts from, node by node and at both ends. -/
theorem initialTemperatures_interpolation (m : CMath α) (s : NumericalSolver α)
    (hN : 1 ≤ s.num_segments) :
    solveState m s 0 = initialTemperatures s
      ∧ (∀ i, i ≤ s.num_segments.toNat →
          (initialTemperatures s).1.getD i 0.0
              = s.hot_fluid.inlet_temp
                - (i : α) / (s.num_segments : α)
                  * (s.hot_fluid.inlet_temp - s.hot_fluid.outlet_temp)
            ∧ (initialTemperatures s).2.getD i 0.0
              = s.cold_fluid.outlet_temp
                + (i : α) / (s.num_segments : α)
                  * (s.cold_fluid.inlet_temp - s.cold_fluid.outlet_temp))
      ∧ (initialTemperatures s).1.getD 0 0.0 = s.hot_fluid.inlet_temp
      ∧ (initialTemperatures s).1.getD s.num_segments.toNat 0.0 = s.hot_fluid.outlet_temp
      ∧ (initialTemperatures s).2.getD 0 0.0 = s.cold_fluid.outlet_temp
      ∧ (initialTemperatures s).2.getD s.num_segments.toNat 0.0 = s.cold_fluid.inlet_temp := by
  have hcast : ((s.num_segments.toNat : Int) : α) = (s.num_segments : α) := by
    rw [Int.toNat_of_nonneg (by omega)]
  have hne : (s.num_segments : α) ≠ 0 := by
    have : (0 : α) < (s.num_segments : α) := by
      exact_mod_cast (by omega : (0 : Int) < s.num_segments)
    exact this.ne'
  have h0 := initialTemperatures_getD s 0 (Nat.zero_le _)
  have hNN := initialTemperatures_getD s s.num_segments.toNat (le_refl _)
  rw [hcast, div_self hne] at hNN
  refine ⟨?_, ?_, ?_, ?_, ?_, ?_⟩
  · simp only [solveState, stateAfter, Function.iterate_zero, id]
  · intro i hi
    have h := initialTemperatures_getD s i hi
    rw [Int.cast_natCast] at h
    exact h
  · rw [h0.1]; simp
  · rw [hNN.1]; ring
  · rw [h0.2]; simp
  · rw [hNN.2]; ring

/-- At the start of every pass, the first one included, the boundary nodes
hold the inlet temperatures. -/
theorem solveState_boundary_all (m : CMath α) (s : NumericalSolver α)
    (hN : 1 ≤ s.num_segments) (k : Nat) :
    (solveState m s k).1.getD 0 0.0 = s.hot_fluid.inlet_temp
      ∧ (solveState m s k).2.getD s.num_segments.toNat 0.0 = s.cold_fluid.inlet_temp := by
  rcases Nat.eq_zero_or_pos k with h0 | hpos
  · subst h0
    obtain ⟨h1, _, h2, _, _, h3⟩ := initialTemperatures_interpolation m s hN
    rw [h1]
    exact ⟨h2, h3⟩
  · exact solveState_boundary m s k hpos

/-- Relaxation leaves a boundary node where it is when the old vector already
holds the inlet temperature there. -/
theorem relaxedState_boundary (c : LoopConsts α) (old : List α × List α)
    (hl1 : old.1.length = c.num_segments + 1) (hl2 : old.2.length = c.num_segments + 1)
    (h1 : old.1.getD 0 0.0 = c.hot_inlet) (h2 : old.2.getD c.num_segments 0.0 = c.cold_inlet) :
    (relaxedState c old).1.getD 0 0.0 = c.hot_inlet
      ∧ (relaxedState c old).2.getD c.num_segments 0.0 = c.cold_inlet := by
  have hh : (1.0 - 0.5 : α) = 0.5 := by norm_num
  have hhalf : ∀ x : α, 0.5 * x + 0.5 * x = x := by
    intro x
    have : (0.5 : α) = 1 / 2 := by norm_num
    rw [this]; ring
  unfold relaxedState enforceBoundary
  simp only [relax_eq_upTo]
  have hA := (relaxUpTo_getD old.1 old.2
    ((hotSweep c old.2 old.1).set 0 c.hot_inlet,
      (coldSweep c (hotSweep c old.2 old.1) old.2).set c.num_segments c.cold_inlet)
    (c.num_segments + 1) 0
    (by simp only [List.length_set, hotSweep_length]; omega)
    (by simp only [List.length_set, coldSweep_length]; omega)).1
  have hB := (relaxUpTo_getD old.1 old.2
    ((hotSweep c old.2 old.1).set 0 c.hot_inlet,
      (coldSweep c (hotSweep c old.2 old.1) old.2).set c.num_segments c.cold_inlet)
    (c.num_segments + 1) c.num_segments
    (by simp only [List.length_set, hotSweep_length]; omega)
    (by simp only [List.length_set, coldSweep_length]; omega)).2
  rw [if_pos (by omega)] at hA hB
  rw [getD_set_self (by rw [hotSweep_length]; omega), h1, hh, hhalf] at hA
  rw [getD_set_self (by rw [coldSweep_length]; omega), h2, hh, hhalf] at hB
  exact ⟨hA, hB⟩

/-- The state after relaxation has the sizes of the old one. -/
theorem relaxedState_length (c : LoopConsts α) (old : List α × List α) :
    (relaxedState c old).1.length = old.1.length
      ∧ (relaxedState c old).2.length = old.2.length := by
  unfold relaxedState enforceBoundary
  simp only [relax_eq_upTo]
  have h := relaxUpTo_length old.1 old.2
    ((hotSweep c old.2 old.1).set 0 c.hot_inlet,
      (coldSweep c (hotSweep c old.2 old.1) old.2).set c.num_segments c.cold_inlet)
    (c.num_segments + 1)
  simp only [List.length_set, hotSweep_length, coldSweep_length] at h
  exact h

/-- In every pass of a call with `N >= 1` the boundary assignments made after
the relaxation loop find the inlet temperatures already in place and change
nothing. -/
theorem second_reimposition_idle (m : CMath α) (s : NumericalSolver α)
    (hN : 1 ≤ s.num_segments) (k : Nat) :
    (relaxedState (loopConsts m s) (solveState m s k)).1.getD 0 0.0 = s.hot_fluid.inlet_temp
      ∧ (relaxedState (loopConsts m s) (solveState m s k)).2.getD s.num_segments.toNat 0.0
          = s.cold_fluid.inlet_temp
      ∧ solveState m s (k + 1) = relaxedState (loopConsts m s) (solveState m s k) := by
  have hl := solveState_length m s k
  have hb := solveState_boundary_all m s hN k
  have hrb := relaxedState_boundary (loopConsts m s) (solveState m s k) hl.1 hl.2 hb.1 hb.2
  have hrl := relaxedState_length (loopConsts m s) (solveState m s k)
  refine ⟨hrb.1, hrb.2, ?_⟩
  have hstep : solveState m s (k + 1)
      = enforceBoundary (loopConsts m s) (relaxedState (loopConsts m s) (solveState m s k)) := by
    simp only [solveState, stateAfter_succ]
    rfl
  rw [hstep]
  unfold enforceBoundary
  have e1 : ((relaxedState (loopConsts m s) (solveState m s k)).1.set 0
      (loopConsts m s).hot_inlet) = (relaxedState (loopConsts m s) (solveState m s k)).1 := by
    have := set_getD_self (relaxedState (loopConsts m s) (solveState m s k)).1
      0 (0.0 : α) (by rw [hrl.1, hl.1]; omega)
    rw [hrb.1] at this
    exact this
  have e2 : ((relaxedState (loopConsts m s) (solveState m s k)).2.set
      (loopConsts m s).num_segments (loopConsts m s).cold_inlet)
        = (relaxedState (loopConsts m s) (solveState m s k)).2 := by
    have := set_getD_self (relaxedState (loopConsts m s) (solveState m s k)).2
      (loopConsts m s).num_segments (0.0 : α)
      (by rw [hrl.2, hl.2]; exact Nat.lt_succ_self _)
    rw [hrb.2] at this
    exact this
  rw [e1, e2]

end BoundaryUnderRelaxation

section InitialGuessClaim

variable {α : Type} [Add α] [Sub α] [Mul α] [Div α] [OfScientific α] [IntCast α]
  [LT α] [∀ a b : α, Decidable (a < b)]

/-- C26, amended. In any arithmetic, that of `double` included, the state the
first pass starts from is the initial guess, and for every `0 <= i <= N` it
holds `hot[i] = hot_inlet - (i/N) * (hot_inlet - hot_outlet_guess)` and
`cold[i] = cold_outlet_guess + (i/N) * (cold_inlet - cold_outlet_guess)`, each
operation as computed. In exact arithmetic, for `N >= 1`, these give
`hot[0] = hot_inlet`, `hot[N] = hot_outlet_guess`,
`cold[0] = cold_outlet_guess` and `cold[N] = cold_inlet`. (On doubles the
values at `i = N` are rounded and can miss the outlet guess and the inlet.) -/
theorem initial_guess_interpolates (m : CMath α) (s : NumericalSolver α) :
    solveState m s 0 = initialTemperatures s
      ∧ (∀ i, i ≤ s.num_segments.toNat →
          (initialTemperatures s).1.getD i 0.0
              = s.hot_fluid.inlet_temp
                - ((i : Int) : α) / (s.num_segments : α)
                  * (s.hot_fluid.inlet_temp - s.hot_fluid.outlet_temp)
            ∧ (initialTemperatures s).2.getD i 0.0
              = s.cold_fluid.outlet_temp
                + ((i : Int) : α) / (s.num_segments : α)
                  * (s.cold_fluid.inlet_temp - s.cold_fluid.outlet_temp))
      ∧ ∀ (β : Type) [LinearOrderedField β] (m' : CMath β) (s' : NumericalSolver β),
          1 ≤ s'.num_segments →
          (solveState m' s' 0).1.getD 0 0.0 = s'.hot_fluid.inlet_temp
            ∧ (solveState m' s' 0).1.getD s'.num_segments.toNat 0.0
                = s'.hot_fluid.outlet_temp
            ∧ (solveState m' s' 0).2.getD 0 0.0 = s'.cold_fluid.outlet_temp
            ∧ (solveState m' s' 0).2.getD s'.num_segments.toNat 0.0
                = s'.cold_fluid.inlet_temp := by
  refine ⟨?_, fun i hi => initialTemperatures_getD s i hi, ?_⟩
  · simp only [solveState, stateAfter, Function.iterate_zero, id]
  · intro β _ m' s' hN'
    obtain ⟨h0, _, hends⟩ := initialTemperatures_interpolation m' s' hN'
    rw [h0]
    exact hends

/-- Witness of C26 amended: the end-to-end scenario with 50 segments starts
from hot outlet guess 323 K at node 50. -/
theorem initial_guess_interpolates_witness :
    (1 : Int) ≤ (sampleSolver 50).num_segments
      ∧ (solveState ratMath (sampleSolver 50) 0).1.getD (sampleSolver 50).num_segments.toNat 0.0
          = (sampleSolver 50).hot_fluid.outlet_temp :=
  ⟨by decide,
    ((initial_guess_interpolates ratMath (sampleSolver 50)).2.2 ℚ ratMath (sampleSolver 50)
      (by decide)).2.1⟩

end InitialGuessClaim

/-! ## Structure of the fixed points -/

section VectorEquality

variable {α : Type}

theorem list_eq_of_getD {l l' : List α} {n : Nat} (d : α) (h : l.length = n) (h' : l'.length = n)
    (hg : ∀ i, i < n → l.getD i d = l'.getD i d) : l = l' := by
  apply List.ext_getElem (by rw [h, h'])
  intro i h1 h2
  have := hg i (by omega)
  rw [List.getD_eq_getElem?_getD, List.getD_eq_getElem?_getD, List.getElem?_eq_getElem h1,
    List.getElem?_eq_getElem h2] at this
  exact this

end VectorEquality

section FixedPointStructure

variable {α : Type} [LinearOrderedField α]

end FixedPointStructure

/-! ## Bounds on the closed-form thermal calculations -/

section ThermalBounds

variable {α : Type} [LinearOrderedField α]

/-- The defining equation of `effectiveness_NTU` on an arrangement other than
0, 1 and 2: the value for arrangement 0. -/
theorem effectiveness_NTU_default (m : CMath α) (NTU C_ratio : α) (flow_arrangement : Int)
    (h0 : flow_arrangement ≠ 0) (h1 : flow_arrangement ≠ 1) (h2 : flow_arrangement ≠ 2) :
    effectiveness_NTU m NTU C_ratio flow_arrangement = effectiveness_NTU m NTU C_ratio 0 := by
  by_cases hc : C_ratio < 1e-6
  · rw [effectiveness_NTU, if_pos hc, effectiveness_NTU, if_pos hc]
  · rw [effectiveness_NTU, if_neg hc, dif_neg h0, if_neg h1, if_neg h2]

/-- The value of `effectiveness_NTU` for arrangement 0 lies in `[0, 1)`. -/
theorem effectiveness_NTU_counter_range (m : CMath α)
    (hexp_pos : ∀ x : α, 0 < m.exp x) (hexp_le : ∀ x : α, x ≤ 0 → m.exp x ≤ 1)
    (NTU C_ratio : α) (hNTU : 0 ≤ NTU) (hC1 : C_ratio ≤ 1) :
    0 ≤ effectiveness_NTU m NTU C_ratio 0 ∧ effectiveness_NTU m NTU C_ratio 0 < 1 := by
  have e1 : (1.0 : α) = 1 := by norm_num
  by_cases hc : C_ratio < 1e-6
  · rw [effectiveness_NTU, if_pos hc, e1]
    have := hexp_pos (-NTU)
    have := hexp_le (-NTU) (by linarith)
    constructor <;> linarith
  · rw [effectiveness_NTU, if_neg hc, dif_pos rfl, e1]
    have hC0 : (0 : α) < C_ratio := by
      have : (0 : α) < 1e-6 := by norm_num
      linarith [not_lt.mp hc]
    by_cases ha : stdAbs (C_ratio - 1) < 1e-6
    · rw [if_pos ha]
      have hpos : (0 : α) < 1 + NTU := by linarith
      exact ⟨div_nonneg hNTU hpos.le, (div_lt_one hpos).mpr (by linarith)⟩
    · rw [if_neg ha]
      have hlt : C_ratio < 1 := by
        rcases lt_or_eq_of_le hC1 with h | h
        · exact h
        · exfalso
          apply ha
          rw [h, sub_self, stdAbs_eq_abs, abs_zero]
          norm_num
      have hp := hexp_pos ((-NTU) * (1 - C_ratio))
      have hl := hexp_le ((-NTU) * (1 - C_ratio)) (by nlinarith)
      have hden : 0 < 1 - C_ratio * m.exp ((-NTU) * (1 - C_ratio)) := by nlinarith
      refine ⟨div_nonneg (by linarith) hden.le, (div_lt_one hden).mpr ?_⟩
      nlinarith

/-- C35, amended. In exact arithmetic, with a logarithm that satisfies
`1 - 1/x <= log x <= x - 1` for positive `x` (as the real logarithm does): for
all inputs whose end differences `dT1 = hot_inlet - cold_outlet` and
`dT2 = hot_outlet - cold_inlet` are both positive,
`min(dT1, dT2) <= LMTD_counterCurrent <= max(dT1, dT2)`; and for all inputs
whatsoever the value returned is non-negative. (On doubles the quotient
`(dT1 - dT2) / log(dT1 / dT2)` of two rounded small numbers can leave the
interval.) -/
theorem lmtd_between_end_differences (m : CMath α)
    (hlog : ∀ x : α, 0 < x → 1 - 1 / x ≤ m.log x ∧ m.log x ≤ x - 1)
    (hot_inlet hot_outlet cold_inlet cold_outlet : α) :
    (0 < hot_inlet - cold_outlet → 0 < hot_outlet - cold_inlet →
        min (hot_inlet - cold_outlet) (hot_outlet - cold_inlet)
            ≤ LMTD_counterCurrent m hot_inlet hot_outlet cold_inlet cold_outlet
          ∧ LMTD_counterCurrent m hot_inlet hot_outlet cold_inlet cold_outlet
            ≤ max (hot_inlet - cold_outlet) (hot_outlet - cold_inlet))
      ∧ 0 ≤ LMTD_counterCurrent m hot_inlet hot_outlet cold_inlet cold_outlet := by
  have hbetween : 0 < hot_inlet - cold_outlet → 0 < hot_outlet - cold_inlet →
      min (hot_inlet - cold_outlet) (hot_outlet - cold_inlet)
          ≤ LMTD_counterCurrent m hot_inlet hot_outlet cold_inlet cold_outlet
        ∧ LMTD_counterCurrent m hot_inlet hot_outlet cold_inlet cold_outlet
          ≤ max (hot_inlet - cold_outlet) (hot_outlet - cold_inlet) := by
    intro h1 h2
    have hc : ¬ (hot_inlet - cold_outlet ≤ ((0 : Int) : α)
        ∨ hot_outlet - cold_inlet ≤ ((0 : Int) : α)) := by
      simp only [Int.cast_zero, not_or, not_le]
      exact ⟨h1, h2⟩
    by_cases ha : stdAbs ((hot_inlet - cold_outlet) - (hot_outlet - cold_inlet)) < 1e-6
    · simp only [LMTD_counterCurrent, LMTD_counterCurrent_traced, if_neg hc, if_pos ha]
      exact ⟨min_le_left _ _, le_max_left _ _⟩
    · simp only [LMTD_counterCurrent, LMTD_counterCurrent_traced, if_neg hc, if_neg ha]
      generalize hot_inlet - cold_outlet = d1 at h1 ha ⊢
      generalize hot_outlet - cold_inlet = d2 at h2 ha ⊢
      have hne : d1 ≠ d2 := by
        intro heq
        apply ha
        rw [stdAbs_eq_abs, heq, sub_self, abs_zero]
        norm_num
      obtain ⟨hlo, hhi⟩ := hlog (d1 / d2) (div_pos h1 h2)
      have hlo2 : (d1 - d2) / d1 ≤ m.log (d1 / d2) := by
        have : 1 - 1 / (d1 / d2) = (d1 - d2) / d1 := by
          field_simp
        rw [this] at hlo
        exact hlo
      have hhi2 : m.log (d1 / d2) ≤ (d1 - d2) / d2 := by
        have : d1 / d2 - 1 = (d1 - d2) / d2 := by
          field_simp
        rw [this] at hhi
        exact hhi
      rcases lt_or_gt_of_ne hne with hlt | hgt
      · -- d1 < d2: the logarithm is negative
        have hneg : m.log (d1 / d2) < 0 :=
          lt_of_le_of_lt hhi2 (div_neg_of_neg_of_pos (by linarith) h2)
        rw [min_eq_left hlt.le, max_eq_right hlt.le]
        constructor
        · rw [le_div_iff_of_neg hneg]
          have := (div_le_iff₀ h1).mp hlo2
          linarith
        · rw [div_le_iff_of_neg hneg]
          have := (le_div_iff₀ h2).mp hhi2
          linarith
      · have hpos : 0 < m.log (d1 / d2) :=
          lt_of_lt_of_le (div_pos (by linarith) h1) hlo2
        rw [min_eq_right hgt.le, max_eq_left hgt.le]
        constructor
        · rw [le_div_iff₀ hpos]
          have := (le_div_iff₀ h2).mp hhi2
          linarith
        · rw [div_le_iff₀ hpos]
          have := (div_le_iff₀ h1).mp hlo2
          linarith
  refine ⟨hbetween, ?_⟩
  by_cases hc : hot_inlet - cold_outlet ≤ ((0 : Int) : α)
      ∨ hot_outlet - cold_inlet ≤ ((0 : Int) : α)
  · simp only [LMTD_counterCurrent, LMTD_counterCurrent_traced, if_pos hc]
    rw [stdAbs_eq_abs]
    exact abs_nonneg _
  · have hc2 := hc
    simp only [Int.cast_zero, not_or, not_le] at hc2
    obtain ⟨hb, _⟩ := hbetween hc2.1 hc2.2
    exact le_trans (le_min hc2.1.le hc2.2.le) hb

/-- Witness of C35 amended: the rational stand-in for the logarithm satisfies both
bounds; end differences 40 and 20. -/
theorem lmtd_between_end_differences_witness :
    (∀ x : ℚ, 0 < x → 1 - 1 / x ≤ ratMath.log x ∧ ratMath.log x ≤ x - 1)
      ∧ min ((350 : ℚ) - 310) (320 - 300) ≤ LMTD_counterCurrent ratMath 350 320 300 310
      ∧ LMTD_counterCurrent ratMath 350 320 300 310 ≤ max ((350 : ℚ) - 310) (320 - 300) := by
  have hlog : ∀ x : ℚ, 0 < x → 1 - 1 / x ≤ ratMath.log x ∧ ratMath.log x ≤ x - 1 := by
    intro x hx
    simp only [ratMath]
    split_ifs with h1
    · subst h1
      norm_num
    · refine ⟨?_, le_refl _⟩
      have h : x + 1 / x - 2 = (x - 1) ^ 2 / x := by
        field_simp
        ring
      have := div_nonneg (sq_nonneg (x - 1)) hx.le
      linarith
  have h := (lmtd_between_end_differences ratMath hlog 350 320 300 310).1
    (by norm_num) (by norm_num)
  exact ⟨hlog, h.1, h.2⟩

/-- C36, amended. In exact arithmetic, with an exponential that is positive
everywhere and at most 1 on non-positive arguments and a power function that
is non-negative on non-negative bases (as the real functions are): for every
`NTU >= 0`, every `0 <= C_ratio <= 1` and every integer `flow_arrangement`,
`effectiveness_NTU` returns a value `e` with `0 <= e < 1`; an arrangement other
than 0, 1 and 2 returns the value of arrangement 0, by a single recursive
call. (On doubles `1 - exp(-NTU)` is rounded, and the value returned can be
1.) -/
theorem effectiveness_in_unit_interval (m : CMath α)
    (hexp_pos : ∀ x : α, 0 < m.exp x) (hexp_le : ∀ x : α, x ≤ 0 → m.exp x ≤ 1)
    (hpow : ∀ x y : α, 0 ≤ x → 0 ≤ m.pow x y)
    (NTU C_ratio : α) (flow_arrangement : Int)
    (hNTU : 0 ≤ NTU) (hC0 : 0 ≤ C_ratio) (hC1 : C_ratio ≤ 1) :
    0 ≤ effectiveness_NTU m NTU C_ratio flow_arrangement
      ∧ effectiveness_NTU m NTU C_ratio flow_arrangement < 1
      ∧ (flow_arrangement ≠ 0 → flow_arrangement ≠ 1 → flow_arrangement ≠ 2 →
          effectiveness_NTU m NTU C_ratio flow_arrangement
            = effectiveness_NTU m NTU C_ratio 0) := by
  have e1 : (1.0 : α) = 1 := by norm_num
  have hcounter := effectiveness_NTU_counter_range m hexp_pos hexp_le NTU C_ratio hNTU hC1
  have hrange : 0 ≤ effectiveness_NTU m NTU C_ratio flow_arrangement
      ∧ effectiveness_NTU m NTU C_ratio flow_arrangement < 1 := by
    by_cases h0 : flow_arrangement = 0
    · rw [h0]; exact hcounter
    by_cases h1 : flow_arrangement = 1
    · by_cases hc : C_ratio < 1e-6
      · rw [effectiveness_NTU, if_pos hc, e1]
        have := hexp_pos (-NTU)
        have := hexp_le (-NTU) (by linarith)
        constructor <;> linarith
      · rw [effectiveness_NTU, if_neg hc, dif_neg h0, if_pos h1, e1]
        have hp := hexp_pos ((-NTU) * (1 + C_ratio))
        have hl := hexp_le ((-NTU) * (1 + C_ratio)) (by nlinarith)
        have hden : (0 : α) < 1 + C_ratio := by linarith
        exact ⟨div_nonneg (by linarith) hden.le, (div_lt_one hden).mpr (by linarith)⟩
    by_cases h2 : flow_arrangement = 2
    · by_cases hc : C_ratio < 1e-6
      · rw [effectiveness_NTU, if_pos hc, e1]
        have := hexp_pos (-NTU)
        have := hexp_le (-NTU) (by linarith)
        constructor <;> linarith
      · rw [effectiveness_NTU, if_neg hc, dif_neg h0, if_neg h1, if_pos h2, e1]
        have hq1 := hpow NTU 0.22 hNTU
        have hq2 := hpow NTU 0.78 hNTU
        have hin := hexp_le ((-C_ratio) * m.pow NTU 0.78) (by nlinarith)
        have harg : 1 / C_ratio * m.pow NTU 0.22
            * (m.exp ((-C_ratio) * m.pow NTU 0.78) - 1) ≤ 0 := by
          apply mul_nonpos_of_nonneg_of_nonpos
          · exact mul_nonneg (div_nonneg zero_le_one hC0) hq1
          · linarith
        have := hexp_pos (1 / C_ratio * m.pow NTU 0.22
            * (m.exp ((-C_ratio) * m.pow NTU 0.78) - 1))
        have := hexp_le _ harg
        constructor <;> linarith
    · rw [effectiveness_NTU_default m NTU C_ratio flow_arrangement h0 h1 h2]
      exact hcounter
  exact ⟨hrange.1, hrange.2, effectiveness_NTU_default m NTU C_ratio flow_arrangement⟩

/-- Witness of C36 amended: the real exponential and power functions have the three
properties; cross-flow with `NTU = 2` and `C_ratio = 1/2`. -/
theorem effectiveness_in_unit_interval_witness :
    (∀ x : ℝ, 0 < Real.exp x) ∧ (∀ x : ℝ, x ≤ 0 → Real.exp x ≤ 1)
      ∧ (∀ x y : ℝ, 0 ≤ x → 0 ≤ x ^ y)
      ∧ (0 : ℝ) ≤ 2 ∧ (0 : ℝ) ≤ 1 / 2 ∧ (1 / 2 : ℝ) ≤ 1
      ∧ 0 ≤ effectiveness_NTU
            { pow := fun x y => x ^ y, log := Real.log, sqrt := Real.sqrt, exp := Real.exp }
            (2 : ℝ) (1 / 2) 2
      ∧ effectiveness_NTU
            { pow := fun x y => x ^ y, log := Real.log, sqrt := Real.sqrt, exp := Real.exp }
            (2 : ℝ) (1 / 2) 2 < 1 := by
  have h1 : ∀ x : ℝ, 0 < Real.exp x := Real.exp_pos
  have h2 : ∀ x : ℝ, x ≤ 0 → Real.exp x ≤ 1 := fun x hx => Real.exp_le_one_iff.mpr hx
  have h3 : ∀ x y : ℝ, 0 ≤ x → 0 ≤ x ^ y := fun x y hx => Real.rpow_nonneg hx y
  have h := effectiveness_in_unit_interval
    { pow := fun x y => x ^ y, log := Real.log, sqrt := Real.sqrt, exp := Real.exp }
    h1 h2 h3 (2 : ℝ) (1 / 2) 2 (by norm_num) (by norm_num) (by norm_num)
  exact ⟨h1, h2, h3, by norm_num, by norm_num, by norm_num, h.1, h.2.1⟩

/-- C37. For all `h_inner > 0`, `h_outer > 0`, `wall_thermal_conductivity > 0`
and radii `0 < inner_radius <= outer_radius`, `overallHTC` is well defined:
the argument of its logarithm is positive and its divisors are not zero (the
two film coefficients, the wall conductivity and the inner radius by
hypothesis, `h_outer * outer_radius` and the summed resistance `U_inv`, which
is positive); its value is `1 / U_inv`, strictly positive, strictly below `h_inner` and strictly below
`h_outer * outer_radius / inner_radius`. The property of the logarithm used is
that it is non-negative from 1 on. -/
theorem overall_htc_below_film_coefficients (m : CMath α)
    (hlog : ∀ x : α, 1 ≤ x → 0 ≤ m.log x)
    (h_inner h_outer inner_radius outer_radius wall_thermal_conductivity : α)
    (hi : 0 < h_inner) (ho : 0 < h_outer) (hk : 0 < wall_thermal_conductivity)
    (hr : 0 < inner_radius) (hrr : inner_radius ≤ outer_radius) :
    0 < outer_radius / inner_radius
      ∧ 0 < 1 / h_inner
          + inner_radius * m.log (outer_radius / inner_radius) / wall_thermal_conductivity
          + inner_radius / (h_outer * outer_radius)
      ∧ h_outer * outer_radius ≠ 0
      ∧ overallHTC m h_inner h_outer inner_radius outer_radius wall_thermal_conductivity
          = 1 / (1 / h_inner
              + inner_radius * m.log (outer_radius / inner_radius) / wall_thermal_conductivity
              + inner_radius / (h_outer * outer_radius))
      ∧ 0 < overallHTC m h_inner h_outer inner_radius outer_radius wall_thermal_conductivity
      ∧ overallHTC m h_inner h_outer inner_radius outer_radius wall_thermal_conductivity
          < h_inner
      ∧ overallHTC m h_inner h_outer inner_radius outer_radius wall_thermal_conductivity
          < h_outer * outer_radius / inner_radius := by
  have e1 : (1.0 : α) = 1 := by norm_num
  have hro : 0 < outer_radius := lt_of_lt_of_le hr hrr
  have hl := hlog (outer_radius / inner_radius) ((one_le_div hr).mpr hrr)
  have hA : 0 < 1 / h_inner := one_div_pos.mpr hi
  have hB : 0 ≤ inner_radius * m.log (outer_radius / inner_radius)
      / wall_thermal_conductivity := div_nonneg (mul_nonneg hr.le hl) hk.le
  have hC : 0 < inner_radius / (h_outer * outer_radius) := div_pos hr (mul_pos ho hro)
  have hU : 0 < 1 / h_inner
      + inner_radius * m.log (outer_radius / inner_radius) / wall_thermal_conductivity
      + inner_radius / (h_outer * outer_radius) := by linarith
  have hdef : overallHTC m h_inner h_outer inner_radius outer_radius wall_thermal_conductivity
      = 1 / (1 / h_inner
          + inner_radius * m.log (outer_radius / inner_radius) / wall_thermal_conductivity
          + inner_radius / (h_outer * outer_radius)) := by
    simp only [overallHTC, e1]
  refine ⟨div_pos hro hr, hU, (mul_pos ho hro).ne', hdef, ?_, ?_, ?_⟩
  · rw [hdef]; exact one_div_pos.mpr hU
  · rw [hdef, div_lt_iff₀ hU]
    have : h_inner * (1 / h_inner) = 1 := by field_simp
    nlinarith [mul_pos hi hC, mul_nonneg hi.le hB]
  · rw [hdef, div_lt_iff₀ hU]
    have hq : 0 < h_outer * outer_radius / inner_radius := div_pos (mul_pos ho hro) hr
    have : h_outer * outer_radius / inner_radius * (inner_radius / (h_outer * outer_radius))
        = 1 := by
      field_simp
    nlinarith [mul_pos hq hA, mul_nonneg hq.le hB]

/-- Witness of C37: film coefficients 100 and 200, radii 1 and 2, wall
conductivity 50, with the rational stand-in for the logarithm. -/
theorem overall_htc_below_film_coefficients_witness :
    (∀ x : ℚ, 1 ≤ x → 0 ≤ ratMath.log x)
      ∧ (0 : ℚ) < 100 ∧ (0 : ℚ) < 200 ∧ (0 : ℚ) < 50 ∧ (0 : ℚ) < 1 ∧ (1 : ℚ) ≤ 2
      ∧ 0 < overallHTC ratMath 100 200 1 2 50
      ∧ overallHTC ratMath 100 200 1 2 50 < 100
      ∧ overallHTC ratMath 100 200 1 2 50 < 200 * 2 / 1 := by
  have hlog : ∀ x : ℚ, 1 ≤ x → 0 ≤ ratMath.log x := by
    intro x hx
    simp only [ratMath]
    split_ifs
    · exact le_refl _
    · linarith
  have h := overall_htc_below_film_coefficients ratMath hlog 100 200 1 2 50
    (by norm_num) (by norm_num) (by norm_num) (by norm_num) (by norm_num)
  exact ⟨hlog, by norm_num, by norm_num, by norm_num, by norm_num, by norm_num,
    h.2.2.2.2.1, h.2.2.2.2.2.1, h.2.2.2.2.2.2⟩

end ThermalBounds

/-! ## Scalars across discretisations and the exported profile -/

section ExportedRows

variable {α : Type} [Sub α] [OfScientific α]

/-- The rows the loop of `writeResultsToFile` has written after its first `k`
passes: row `i` for every `i < k`, in this order. -/
theorem writeResultsBody_fold (num_segments : Int) (results : SolutionResults α) (k : Nat) :
    (List.range k).foldl (writeResultsBody num_segments results) []
      = (List.range k).map (fun i =>
          ({ position_m := results.positions.getD i 0.0,
             hot_temp_K := results.hot_temperatures.getD i 0.0,
             hot_temp_C := results.hot_temperatures.getD i 0.0 - 273.15,
             cold_temp_K := results.cold_temperatures.getD (num_segments - (i : Int)).toNat 0.0,
             cold_temp_C :=
               results.cold_temperatures.getD (num_segments - (i : Int)).toNat 0.0 - 273.15 }
            : ProfileRow α)) := by
  induction k with
  | zero => rfl
  | succ k ih =>
    rw [List.range_succ, List.foldl_append, ih, List.map_append]
    rfl

end ExportedRows

section ScalarsAndExport

variable {α : Type} [LinearOrderedField α]

/-- The setup phase does not read the segment count. -/
theorem setupScalars_own_count (m : CMath α) (s : NumericalSolver α) (n : Int) :
    setupScalars m
        { num_segments := n, geometry := s.geometry, hot_fluid := s.hot_fluid,
          cold_fluid := s.cold_fluid }
      = setupScalars m s := rfl

/-- Every row of a convergence study, however its loop ends, holds the
overall coefficient of the setup phase of the solver it is called on. -/
theorem convergenceStudyLoop_overall_htc (m : CMath α) (solver : NumericalSolver α)
    (max_segments step : Int) (fuel : Nat) :
    ∀ (segments : Int) (run : StudyRun α),
      convergenceStudyLoop m solver max_segments step fuel segments = some run →
      ∀ row, row ∈ run.rows → row.overall_htc = (setupScalars m solver).overall_htc := by
  induction fuel with
  | zero =>
    intro segments run h row hrow
    simp only [convergenceStudyLoop] at h
    split_ifs at h
    cases h
    exact absurd hrow (List.not_mem_nil row)
  | succ f ih =>
    intro segments run h row hrow
    simp only [convergenceStudyLoop] at h
    by_cases hle : segments ≤ max_segments
    · rw [if_pos hle] at h
      cases hsolve : solveTemperatureDistribution m
          ({ num_segments := segments, geometry := solver.geometry,
             hot_fluid := solver.hot_fluid, cold_fluid := solver.cold_fluid }
            : NumericalSolver α) with
      | error e =>
        rw [hsolve] at h
        cases h
        exact absurd hrow (List.not_mem_nil row)
      | ok r =>
        rw [hsolve] at h
        have hr := (solve_ok_scalars m _ r hsolve).1
        rw [setupScalars_own_count] at hr
        simp only at h
        by_cases hov : segments + step < INT_MIN ∨ INT_MAX < segments + step
        · rw [if_pos hov] at h
          cases h
          rcases List.mem_singleton.mp hrow with rfl
          exact hr
        · rw [if_neg hov] at h
          cases hrest : convergenceStudyLoop m solver max_segments step f (segments + step) with
          | none => rw [hrest] at h; cases h
          | some rest =>
            rw [hrest] at h
            cases h
            rcases List.mem_cons.mp hrow with h1 | h1
            · rw [h1]; exact hr
            · exact ih (segments + step) rest hrest row h1
    · rw [if_neg hle] at h
      cases h
      exact absurd hrow (List.not_mem_nil row)

/-- C34. The scalar outputs do not depend on the discretisation: for any two
segment counts and the same geometry and fluids, two solves that return hold
the same `overall_htc`, `hot_reynolds`, `cold_reynolds`, `hot_nusselt`,
`cold_nusselt`, `hot_htc` and `cold_htc` in their records; every row of a
convergence study on that geometry and those fluids holds this `overall_htc`;
and the solve does return for every segment count `1 <= N < INT_MAX`. -/
theorem scalars_independent_of_segments (m : CMath α) (s : NumericalSolver α) (N1 N2 : Int)
    (r1 r2 : SolutionResults α)
    (h1 : solveTemperatureDistribution m
        { num_segments := N1, geometry := s.geometry, hot_fluid := s.hot_fluid,
          cold_fluid := s.cold_fluid } = Except.ok r1)
    (h2 : solveTemperatureDistribution m
        { num_segments := N2, geometry := s.geometry, hot_fluid := s.hot_fluid,
          cold_fluid := s.cold_fluid } = Except.ok r2) :
    r1.overall_htc = r2.overall_htc
      ∧ r1.hot_reynolds = r2.hot_reynolds ∧ r1.cold_reynolds = r2.cold_reynolds
      ∧ r1.hot_nusselt = r2.hot_nusselt ∧ r1.cold_nusselt = r2.cold_nusselt
      ∧ r1.hot_htc = r2.hot_htc ∧ r1.cold_htc = r2.cold_htc
      ∧ (∀ (min_segments max_segments step : Int) (fuel : Nat) (run : StudyRun α),
          convergenceStudy m s min_segments max_segments step fuel = some run →
          ∀ row, row ∈ run.rows → row.overall_htc = r1.overall_htc)
      ∧ ∀ N : Int, 1 ≤ N → N < INT_MAX →
          ∃ r, solveTemperatureDistribution m
            { num_segments := N, geometry := s.geometry, hot_fluid := s.hot_fluid,
              cold_fluid := s.cold_fluid } = Except.ok r := by
  obtain ⟨a1, a2, a3, a4, a5, a6, a7⟩ := solve_ok_scalars m _ r1 h1
  obtain ⟨b1, b2, b3, b4, b5, b6, b7⟩ := solve_ok_scalars m _ r2 h2
  rw [setupScalars_own_count] at a1 a2 a3 a4 a5 a6 a7 b1 b2 b3 b4 b5 b6 b7
  refine ⟨a1.trans b1.symm, a2.trans b2.symm, a3.trans b3.symm,
    a4.trans b4.symm, a5.trans b5.symm, a6.trans b6.symm, a7.trans b7.symm, ?_, ?_⟩
  · intro min_segments max_segments step fuel run hrun row hrow
    rw [a1]
    exact convergenceStudyLoop_overall_htc m s max_segments step fuel min_segments run hrun row
      hrow
  · intro N hN hmax
    obtain ⟨r, hr, _⟩ := solve_returns_profile m
      ({ num_segments := N, geometry := s.geometry, hot_fluid := s.hot_fluid,
         cold_fluid := s.cold_fluid } : NumericalSolver α) (by show 0 ≤ N; omega) hmax
    exact ⟨r, hr⟩

/-- Witness of C34: the end-to-end scenario with 20 and with 50 segments. -/
theorem scalars_independent_of_segments_witness :
    ∃ r1 r2,
      solveTemperatureDistribution ratMath (sampleSolver 20) = Except.ok r1
        ∧ solveTemperatureDistribution ratMath (sampleSolver 50) = Except.ok r2
        ∧ r1.overall_htc = r2.overall_htc := by
  obtain ⟨r1, hr1, _⟩ := solve_returns_profile ratMath (sampleSolver 20) (by decide) (by decide)
  obtain ⟨r2, hr2, _⟩ := solve_returns_profile ratMath (sampleSolver 50) (by decide) (by decide)
  exact ⟨r1, r2, hr1, hr2,
    (scalars_independent_of_segments ratMath (sampleSolver 1) 20 50 r1 r2 hr1 hr2).1⟩

/-- C38. In the exported temperature profile of a solve with `N >= 1`
segments, there are `N + 1` data rows and for every `0 <= i <= N` row `i`
holds `(positions[i], hot_temperatures[i], hot_temperatures[i] - 273.15,
cold_temperatures[N-i], cold_temperatures[N-i] - 273.15)`: the cold index is
reversed relative to the hot index, so the first row, of position 0, shows the
hot inlet temperature next to `cold_temperatures[N]`, the cold inlet
temperature, and the last row shows `hot_temperatures[N]` next to
`cold_temperatures[0]`. When the file cannot be opened nothing is exported. -/
theorem exported_profile_rows (m : CMath α) (s : NumericalSolver α) (r : SolutionResults α)
    (hN : 1 ≤ s.num_segments) (h : solveTemperatureDistribution m s = Except.ok r) :
    writeResultsToFile s.num_segments r false = none
      ∧ ∃ rows, writeResultsToFile s.num_segments r true = some rows
          ∧ rows.length = s.num_segments.toNat + 1
          ∧ (∀ i, i ≤ s.num_segments.toNat →
              rows[i]? = some
                { position_m := r.positions.getD i 0.0,
                  hot_temp_K := r.hot_temperatures.getD i 0.0,
                  hot_temp_C := r.hot_temperatures.getD i 0.0 - 273.15,
                  cold_temp_K := r.cold_temperatures.getD (s.num_segments.toNat - i) 0.0,
                  cold_temp_C :=
                    r.cold_temperatures.getD (s.num_segments.toNat - i) 0.0 - 273.15 })
          ∧ rows[0]? = some
              { position_m := 0,
                hot_temp_K := s.hot_fluid.inlet_temp,
                hot_temp_C := s.hot_fluid.inlet_temp - 273.15,
                cold_temp_K := s.cold_fluid.inlet_temp,
                cold_temp_C := s.cold_fluid.inlet_temp - 273.15 }
          ∧ r.cold_temperatures.getD s.num_segments.toNat 0.0 = s.cold_fluid.inlet_temp
          ∧ rows[s.num_segments.toNat]? = some
              { position_m := r.positions.getD s.num_segments.toNat 0.0,
                hot_temp_K := r.hot_temperatures.getD s.num_segments.toNat 0.0,
                hot_temp_C := r.hot_temperatures.getD s.num_segments.toNat 0.0 - 273.15,
                cold_temp_K := r.cold_temperatures.getD 0 0.0,
                cold_temp_C := r.cold_temperatures.getD 0 0.0 - 273.15 } := by
  have hcount : (s.num_segments + 1).toNat = s.num_segments.toNat + 1 := by omega
  have hrow : ∀ i, i ≤ s.num_segments.toNat →
      ((List.range (s.num_segments + 1).toNat).foldl (writeResultsBody s.num_segments r) [])[i]?
        = some
          { position_m := r.positions.getD i 0.0,
            hot_temp_K := r.hot_temperatures.getD i 0.0,
            hot_temp_C := r.hot_temperatures.getD i 0.0 - 273.15,
            cold_temp_K := r.cold_temperatures.getD (s.num_segments.toNat - i) 0.0,
            cold_temp_C := r.cold_temperatures.getD (s.num_segments.toNat - i) 0.0 - 273.15 } := by
    intro i hi
    have hidx : (s.num_segments - (i : Int)).toNat = s.num_segments.toNat - i := by omega
    rw [writeResultsBody_fold, List.getElem?_map, List.getElem?_range (by omega)]
    simp only [Option.map_some', hidx]
  obtain ⟨run, hrun, hres⟩ := solve_ok_run m s r h
  obtain ⟨run2, k, hrun2, hk1, _, _, hhot, hcold, _, _⟩ :=
    solveRun_spec m s (by omega) (solve_ok_range m s r h).2
  rw [hrun] at hrun2
  cases hrun2
  have hb := solveState_boundary m s k hk1
  rw [← hhot, ← hcold, hres] at hb
  have hpos : r.positions.getD 0 0.0 = 0 := by
    have hr := solveRun_results m s run hrun
    rw [hres] at hr
    have hp : r.positions = fillPositions s.num_segments.toNat
        (s.geometry.length / (s.num_segments : α))
        (List.replicate (s.num_segments.toNat + 1) (0.0 : α)) := by
      rw [hr]
    rw [hp, (fillPositions_spec _ _ _ (by simp)).2 0 (Nat.zero_le _)]
    simp
  refine ⟨rfl, _, rfl, ?_, hrow, ?_, hb.2, ?_⟩
  · rw [writeResultsBody_fold, List.length_map, List.length_range, hcount]
  · rw [hrow 0 (Nat.zero_le _), Nat.sub_zero, hpos, hb.1, hb.2]
  · rw [hrow _ (le_refl _), Nat.sub_self]

/-- Witness of C38: the end-to-end scenario with 50 segments exports 51
rows. -/
theorem exported_profile_rows_witness :
    (1 : Int) ≤ (sampleSolver 50).num_segments
      ∧ ∃ r rows, solveTemperatureDistribution ratMath (sampleSolver 50) = Except.ok r
          ∧ writeResultsToFile (sampleSolver 50).num_segments r true = some rows
          ∧ rows.length = 51 := by
  obtain ⟨r, hr, _⟩ := solve_returns_profile ratMath (sampleSolver 50) (by decide) (by decide)
  obtain ⟨_, rows, h1, h2, _⟩ :=
    exported_profile_rows ratMath (sampleSolver 50) r (by decide) hr
  exact ⟨by decide, r, rows, hr, h1, h2⟩

end ScalarsAndExport

/-! ## Fixed points and the sweep equations -/

section SweepEquations

variable {α : Type} [LinearOrderedField α]

end SweepEquations

/-! ## Maximum principle -/

section MaximumPrinciple

variable {α : Type} [LinearOrderedField α]

/-- A value moved from `x` towards `y` by the fraction `UA / C` of their
distance, with `0 <= UA <= C`, stays between the bounds of `x` and `y`. -/
theorem update_within_bounds (UA C lo hi x y : α) (h0 : 0 ≤ UA) (h1 : UA ≤ C) (hC : 0 < C)
    (hx : lo ≤ x ∧ x ≤ hi) (hy : lo ≤ y ∧ y ≤ hi) :
    lo ≤ x - UA * (x - y) / C ∧ x - UA * (x - y) / C ≤ hi := by
  have ha0 : 0 ≤ UA / C := div_nonneg h0 hC.le
  have ha1 : UA / C ≤ 1 := (div_le_one hC).mpr h1
  have he : UA * (x - y) / C = UA / C * (x - y) := by ring
  rw [he]
  constructor
  · nlinarith [mul_nonneg ha0 (sub_nonneg.mpr hy.1), mul_nonneg (sub_nonneg.mpr ha1)
      (sub_nonneg.mpr hx.1)]
  · nlinarith [mul_nonneg ha0 (sub_nonneg.mpr hy.2), mul_nonneg (sub_nonneg.mpr ha1)
      (sub_nonneg.mpr hx.2)]

/-- One pass of the loop body keeps every node within bounds that hold the
two inlet temperatures and every node of the state it starts from, when
`0 <= UA_segment <= min(C_hot, C_cold)`. -/
theorem iterationBody_bounds (c : LoopConsts α) (lo hi : α)
    (hUA0 : 0 ≤ c.UA_segment) (hUAh : c.UA_segment ≤ c.C_hot) (hUAc : c.UA_segment ≤ c.C_cold)
    (hCh : 0 < c.C_hot) (hCc : 0 < c.C_cold)
    (hhin : lo ≤ c.hot_inlet ∧ c.hot_inlet ≤ hi) (hcin : lo ≤ c.cold_inlet ∧ c.cold_inlet ≤ hi)
    (t : List α × List α)
    (hl1 : t.1.length = c.num_segments + 1) (hl2 : t.2.length = c.num_segments + 1)
    (ht : ∀ i, i ≤ c.num_segments →
      (lo ≤ t.1.getD i 0.0 ∧ t.1.getD i 0.0 ≤ hi) ∧ (lo ≤ t.2.getD i 0.0 ∧ t.2.getD i 0.0 ≤ hi)) :
    ∀ i, i ≤ c.num_segments →
      (lo ≤ (iterationBody c t).1.getD i 0.0 ∧ (iterationBody c t).1.getD i 0.0 ≤ hi)
        ∧ (lo ≤ (iterationBody c t).2.getD i 0.0 ∧ (iterationBody c t).2.getD i 0.0 ≤ hi) := by
  have e2 : (2.0 : α) = 2 := by norm_num
  have e5 : (0.5 : α) = 1 / 2 := by norm_num
  have e1 : (1.0 : α) = 1 := by norm_num
  have hmean : ∀ x y : α, (lo ≤ x ∧ x ≤ hi) → (lo ≤ y ∧ y ≤ hi) →
      lo ≤ (x + y) / 2 ∧ (x + y) / 2 ≤ hi := by
    intro x y hx hy
    constructor <;> linarith
  have hsweep : ∀ j, j ≤ c.num_segments →
      lo ≤ (hotSweep c t.2 t.1).getD j 0.0 ∧ (hotSweep c t.2 t.1).getD j 0.0 ≤ hi := by
    intro j
    induction j with
    | zero =>
      intro _
      rw [hotSweep_eq_upTo, hotSweepUpTo_untouched _ _ _ _ 0 (Or.inl rfl)]
      exact (ht 0 (Nat.zero_le _)).1
    | succ j ih =>
      intro hj
      have hs := hotSweepUpTo_spec c t.2 t.1 c.num_segments (by omega) (j + 1) (by omega) hj
      rw [← hotSweep_eq_upTo, Nat.add_sub_cancel] at hs
      rw [hs, hotUpdate, e2]
      exact update_within_bounds _ _ lo hi _ _ hUA0 hUAh hCh (ih (by omega))
        (hmean _ _ (ht _ (by omega)).2 (ht _ (by omega)).2)
  have hcsweep : ∀ d j, j + d = c.num_segments →
      lo ≤ (coldSweep c (hotSweep c t.2 t.1) t.2).getD j 0.0
        ∧ (coldSweep c (hotSweep c t.2 t.1) t.2).getD j 0.0 ≤ hi := by
    intro d
    induction d with
    | zero =>
      intro j hj
      rw [coldSweep_eq_from, coldSweepFrom_untouched _ _ _ 0 _ _ (Or.inr (by omega))]
      exact (ht j (by omega)).2
    | succ d ih =>
      intro j hj
      have hs := coldSweepFrom_spec c (hotSweep c t.2 t.1) t.2 0 c.num_segments (by omega) j
        (Nat.zero_le j) (by omega)
      rw [← coldSweep_eq_from] at hs
      rw [hs, coldUpdate, e2]
      have hb := update_within_bounds c.UA_segment c.C_cold lo hi
        ((coldSweep c (hotSweep c t.2 t.1) t.2).getD (j + 1) 0.0)
        (((hotSweep c t.2 t.1).getD (c.num_segments - j - 1) 0.0
          + (hotSweep c t.2 t.1).getD (c.num_segments - j) 0.0) / 2)
        hUA0 hUAc hCc (ih (j + 1) (by omega))
        (hmean _ _ (hsweep _ (by omega)) (hsweep _ (by omega)))
      have he : ∀ x y : α, x + c.UA_segment * (y - x) / c.C_cold
          = x - c.UA_segment * (x - y) / c.C_cold := by
        intro x y
        ring
      rw [he]
      exact hb
  intro i hidx
  constructor
  · rcases Nat.eq_zero_or_pos i with h0 | hpos
    · subst h0
      rw [(iterationBody_boundary c t (by omega) (by omega)).1]
      exact hhin
    · rw [iterationBody_hot c t i hpos hidx hl1 hl2, e5, e1]
      have h1 := hsweep i hidx
      have h2 := (ht i hidx).1
      constructor <;> linarith
  · rcases Nat.lt_or_ge i c.num_segments with hlt | hge
    · rw [iterationBody_cold c t i hlt hl1 hl2, e5, e1]
      have h1 := hcsweep (c.num_segments - i) i (by omega)
      have h2 := (ht i hidx).2
      constructor <;> linarith
    · have hiN : i = c.num_segments := by omega
      subst hiN
      rw [(iterationBody_boundary c t (by omega) (by omega)).2]
      exact hcin

/-- For `N >= 1` the initial guess keeps every node within bounds that hold
the two inlet temperatures and the two outlet guesses. -/
theorem initialTemperatures_bounds (s : NumericalSolver α) (lo hi : α)
    (hN : 1 ≤ s.num_segments)
    (hhi : lo ≤ s.hot_fluid.inlet_temp ∧ s.hot_fluid.inlet_temp ≤ hi)
    (hho : lo ≤ s.hot_fluid.outlet_temp ∧ s.hot_fluid.outlet_temp ≤ hi)
    (hci : lo ≤ s.cold_fluid.inlet_temp ∧ s.cold_fluid.inlet_temp ≤ hi)
    (hco : lo ≤ s.cold_fluid.outlet_temp ∧ s.cold_fluid.outlet_temp ≤ hi)
    (i : Nat) (hidx : i ≤ s.num_segments.toNat) :
    (lo ≤ (initialTemperatures s).1.getD i 0.0 ∧ (initialTemperatures s).1.getD i 0.0 ≤ hi)
      ∧ (lo ≤ (initialTemperatures s).2.getD i 0.0
        ∧ (initialTemperatures s).2.getD i 0.0 ≤ hi) := by
  obtain ⟨e1, e2⟩ := initialTemperatures_getD s i hidx
  rw [e1, e2]
  have hNpos : (0 : α) < (s.num_segments : α) := by
    exact_mod_cast (by omega : (0 : Int) < s.num_segments)
  have hr0 : (0 : α) ≤ ((i : Int) : α) / (s.num_segments : α) :=
    div_nonneg (by exact_mod_cast Int.natCast_nonneg i) hNpos.le
  have hr1 : ((i : Int) : α) / (s.num_segments : α) ≤ 1 := by
    rw [div_le_one hNpos]
    exact_mod_cast (by omega : (i : Int) ≤ s.num_segments)
  generalize ((i : Int) : α) / (s.num_segments : α) = r at hr0 hr1
  generalize s.hot_fluid.inlet_temp = a at hhi ⊢
  generalize s.hot_fluid.outlet_temp = b at hho ⊢
  generalize s.cold_fluid.inlet_temp = c at hci ⊢
  generalize s.cold_fluid.outlet_temp = d at hco ⊢
  refine ⟨⟨?_, ?_⟩, ⟨?_, ?_⟩⟩
  · nlinarith [mul_nonneg hr0 (sub_nonneg.mpr hho.1),
      mul_nonneg (sub_nonneg.mpr hr1) (sub_nonneg.mpr hhi.1)]
  · nlinarith [mul_nonneg hr0 (sub_nonneg.mpr hho.2),
      mul_nonneg (sub_nonneg.mpr hr1) (sub_nonneg.mpr hhi.2)]
  · nlinarith [mul_nonneg hr0 (sub_nonneg.mpr hci.1),
      mul_nonneg (sub_nonneg.mpr hr1) (sub_nonneg.mpr hco.1)]
  · nlinarith [mul_nonneg hr0 (sub_nonneg.mpr hci.2),
      mul_nonneg (sub_nonneg.mpr hr1) (sub_nonneg.mpr hco.2)]

/-- Under the hypotheses of the maximum principle every node of both vectors
lies within the bounds after initialisation and after every pass. -/
theorem solveState_bounds (m : CMath α) (s : NumericalSolver α) (lo hi : α)
    (hN : 1 ≤ s.num_segments)
    (hUA0 : 0 ≤ (loopConsts m s).UA_segment)
    (hUAh : (loopConsts m s).UA_segment ≤ (loopConsts m s).C_hot)
    (hUAc : (loopConsts m s).UA_segment ≤ (loopConsts m s).C_cold)
    (hCh : 0 < (loopConsts m s).C_hot) (hCc : 0 < (loopConsts m s).C_cold)
    (hhi : lo ≤ s.hot_fluid.inlet_temp ∧ s.hot_fluid.inlet_temp ≤ hi)
    (hho : lo ≤ s.hot_fluid.outlet_temp ∧ s.hot_fluid.outlet_temp ≤ hi)
    (hci : lo ≤ s.cold_fluid.inlet_temp ∧ s.cold_fluid.inlet_temp ≤ hi)
    (hco : lo ≤ s.cold_fluid.outlet_temp ∧ s.cold_fluid.outlet_temp ≤ hi) (k : Nat) :
    ∀ i, i ≤ s.num_segments.toNat →
      (lo ≤ (solveState m s k).1.getD i 0.0 ∧ (solveState m s k).1.getD i 0.0 ≤ hi)
        ∧ (lo ≤ (solveState m s k).2.getD i 0.0 ∧ (solveState m s k).2.getD i 0.0 ≤ hi) := by
  induction k with
  | zero =>
    intro i hidx
    have h0 : solveState m s 0 = initialTemperatures s := by
      simp only [solveState, stateAfter, Function.iterate_zero, id]
    rw [h0]
    exact initialTemperatures_bounds s lo hi hN hhi hho hci hco i hidx
  | succ k ih =>
    have hstep : solveState m s (k + 1) = iterationBody (loopConsts m s) (solveState m s k) :=
      stateAfter_succ _ _ k
    have hlen := solveState_length m s k
    have hb := iterationBody_bounds (loopConsts m s) lo hi hUA0 hUAh hUAc hCh hCc hhi hci
      (solveState m s k) hlen.1 hlen.2 ih
    intro i hidx
    rw [hstep]
    exact hb i hidx

/-- C31, amended. Maximum principle, in exact arithmetic: if
`0 <= UA_segment <= min(C_hot, C_cold)` with `C_hot, C_cold > 0`, and the hot
inlet, the hot outlet guess, the cold inlet and the cold outlet guess all lie
in `[lo, hi]`, then for every `1 <= N < INT_MAX` every node of both vectors
lies in `[lo, hi]` after initialisation (`k = 0`) and after every pass `k`;
the call returns a record, and every node of its two profiles lies in
`[lo, hi]`. (On doubles a node can leave the interval by a rounding error.) -/
theorem maximum_principle (m : CMath α) (s : NumericalSolver α) (lo hi : α)
    (hN : 1 ≤ s.num_segments) (hmax : s.num_segments < INT_MAX)
    (hUA0 : 0 ≤ (loopConsts m s).UA_segment)
    (hUA : (loopConsts m s).UA_segment ≤ min (loopConsts m s).C_hot (loopConsts m s).C_cold)
    (hCh : 0 < (loopConsts m s).C_hot) (hCc : 0 < (loopConsts m s).C_cold)
    (hhi : lo ≤ s.hot_fluid.inlet_temp ∧ s.hot_fluid.inlet_temp ≤ hi)
    (hho : lo ≤ s.hot_fluid.outlet_temp ∧ s.hot_fluid.outlet_temp ≤ hi)
    (hci : lo ≤ s.cold_fluid.inlet_temp ∧ s.cold_fluid.inlet_temp ≤ hi)
    (hco : lo ≤ s.cold_fluid.outlet_temp ∧ s.cold_fluid.outlet_temp ≤ hi) :
    (∀ k i, i ≤ s.num_segments.toNat →
        (lo ≤ (solveState m s k).1.getD i 0.0 ∧ (solveState m s k).1.getD i 0.0 ≤ hi)
          ∧ (lo ≤ (solveState m s k).2.getD i 0.0 ∧ (solveState m s k).2.getD i 0.0 ≤ hi))
      ∧ ∃ r, solveTemperatureDistribution m s = Except.ok r
          ∧ ∀ i, i ≤ s.num_segments.toNat →
              (lo ≤ r.hot_temperatures.getD i 0.0 ∧ r.hot_temperatures.getD i 0.0 ≤ hi)
                ∧ (lo ≤ r.cold_temperatures.getD i 0.0 ∧ r.cold_temperatures.getD i 0.0 ≤ hi) := by
  have hstates := solveState_bounds m s lo hi hN hUA0 (le_trans hUA (min_le_left _ _))
    (le_trans hUA (min_le_right _ _)) hCh hCc hhi hho hci hco
  refine ⟨hstates, ?_⟩
  obtain ⟨run, k, hrun, _, _, _, hhot, hcold, _, _⟩ := solveRun_spec m s (by omega) hmax
  refine ⟨run.results, solveTemperatureDistribution_of_run m s run hrun, ?_⟩
  rw [hhot, hcold]
  exact hstates k

/-- Witness of C31 amended: the one-segment exchanger with `UA_segment = M_PI`,
`C_hot = 3 * M_PI / 2`, `C_cold = M_PI`, inlets 353 and 293, guesses 329 and
341, between 293 and 353. -/
theorem maximum_principle_witness :
    (1 : Int) ≤ imbalanceSolver.num_segments ∧ imbalanceSolver.num_segments < INT_MAX
      ∧ 0 ≤ (loopConsts ratMath imbalanceSolver).UA_segment
      ∧ (loopConsts ratMath imbalanceSolver).UA_segment
          ≤ min (loopConsts ratMath imbalanceSolver).C_hot
              (loopConsts ratMath imbalanceSolver).C_cold
      ∧ ∃ r, solveTemperatureDistribution ratMath imbalanceSolver = Except.ok r
          ∧ ∀ i, i ≤ imbalanceSolver.num_segments.toNat →
              ((293 : ℚ) ≤ r.hot_temperatures.getD i 0.0 ∧ r.hot_temperatures.getD i 0.0 ≤ 353)
                ∧ ((293 : ℚ) ≤ r.cold_temperatures.getD i 0.0
                  ∧ r.cold_temperatures.getD i 0.0 ≤ 353) := by
  have hp : (0 : ℚ) < M_PI := M_PI_pos
  have h1 : (0 : ℚ) ≤ (loopConsts ratMath imbalanceSolver).UA_segment := by
    rw [imbalance_loopConsts]; simp only [imbalanceConsts]; exact hp.le
  have h2 : (loopConsts ratMath imbalanceSolver).UA_segment
      ≤ min (loopConsts ratMath imbalanceSolver).C_hot
          (loopConsts ratMath imbalanceSolver).C_cold := by
    rw [imbalance_loopConsts]; simp only [imbalanceConsts]
    exact le_min (by linarith) (le_refl _)
  have h3 : (0 : ℚ) < (loopConsts ratMath imbalanceSolver).C_hot := by
    rw [imbalance_loopConsts]; simp only [imbalanceConsts]; linarith
  have h4 : (0 : ℚ) < (loopConsts ratMath imbalanceSolver).C_cold := by
    rw [imbalance_loopConsts]; simp only [imbalanceConsts]; exact hp
  exact ⟨by decide, by decide, h1, h2,
    (maximum_principle ratMath imbalanceSolver 293 353 (by decide) (by decide) h1 h2 h3 h4
      (by norm_num [imbalanceSolver, unitSolver, unitHot])
      (by norm_num [imbalanceSolver, unitSolver, unitHot])
      (by norm_num [imbalanceSolver, unitSolver, unitCold])
      (by norm_num [imbalanceSolver, unitSolver, unitCold])).2⟩

end MaximumPrinciple

/-! ## Shift of the temperature scale -/

section MappedVectors

variable {α : Type}

theorem getD_map_of_lt (f : α → α) (l : List α) (i : Nat) (d : α) (h : i < l.length) :
    (l.map f).getD i d = f (l.getD i d) := by
  rw [List.getD_eq_getElem?_getD, List.getD_eq_getElem?_getD, List.getElem?_map,
    List.getElem?_eq_getElem h]
  rfl

end MappedVectors

section ShiftInvariance

variable {α : Type} [LinearOrderedField α]

/-- The `max_change` of a pass depends on the differences between new and
old nodes only. -/
theorem maxChange_congr (c c' : LoopConsts α) (hn : c'.num_segments = c.num_segments)
    (hot_old cold_old hot cold hot_old' cold_old' hot' cold' : List α)
    (h : ∀ i, i ≤ c.num_segments →
      hot'.getD i 0.0 - hot_old'.getD i 0.0 = hot.getD i 0.0 - hot_old.getD i 0.0
        ∧ cold'.getD i 0.0 - cold_old'.getD i 0.0 = cold.getD i 0.0 - cold_old.getD i 0.0) :
    maxChange c' hot_old' cold_old' hot' cold' = maxChange c hot_old cold_old hot cold := by
  have hfold : ∀ k, k ≤ c.num_segments + 1 →
      (List.range k).foldl (maxChangeBody hot_old' cold_old' hot' cold') 0.0
        = (List.range k).foldl (maxChangeBody hot_old cold_old hot cold) 0.0 := by
    intro k
    induction k with
    | zero => intro _; rfl
    | succ k ih =>
      intro hk
      rw [List.range_succ, List.foldl_append, List.foldl_append, ih (by omega)]
      simp only [List.foldl_cons, List.foldl_nil, maxChangeBody]
      rw [(h k (by omega)).1, (h k (by omega)).2]
  unfold maxChange
  rw [hn]
  exact hfold _ (le_refl _)

/-- One pass of the loop body commutes with a shift of all temperatures: from
a state shifted by `d`, with both inlet temperatures shifted by `d` and the
other constants unchanged, it produces the shifted state. -/
theorem iterationBody_shift (c c' : LoopConsts α) (d : α)
    (hn : c'.num_segments = c.num_segments) (hUA : c'.UA_segment = c.UA_segment)
    (hCh : c'.C_hot = c.C_hot) (hCc : c'.C_cold = c.C_cold)
    (hhin : c'.hot_inlet = c.hot_inlet + d) (hcin : c'.cold_inlet = c.cold_inlet + d)
    (t t' : List α × List α)
    (hl1 : t.1.length = c.num_segments + 1) (hl2 : t.2.length = c.num_segments + 1)
    (hl1' : t'.1.length = c.num_segments + 1) (hl2' : t'.2.length = c.num_segments + 1)
    (ht : ∀ i, i ≤ c.num_segments →
      t'.1.getD i 0.0 = t.1.getD i 0.0 + d ∧ t'.2.getD i 0.0 = t.2.getD i 0.0 + d) :
    ∀ i, i ≤ c.num_segments →
      (iterationBody c' t').1.getD i 0.0 = (iterationBody c t).1.getD i 0.0 + d
        ∧ (iterationBody c' t').2.getD i 0.0 = (iterationBody c t).2.getD i 0.0 + d := by
  have e2 : (2.0 : α) = 2 := by norm_num
  have e5 : (0.5 : α) = 1 / 2 := by norm_num
  have e1 : (1.0 : α) = 1 := by norm_num
  have hsweep : ∀ j, j ≤ c.num_segments →
      (hotSweep c' t'.2 t'.1).getD j 0.0 = (hotSweep c t.2 t.1).getD j 0.0 + d := by
    intro j
    induction j with
    | zero =>
      intro _
      rw [hotSweep_eq_upTo, hotSweep_eq_upTo, hotSweepUpTo_untouched _ _ _ _ 0 (Or.inl rfl),
        hotSweepUpTo_untouched _ _ _ _ 0 (Or.inl rfl)]
      exact (ht 0 (Nat.zero_le _)).1
    | succ j ih =>
      intro hj
      have hs := hotSweepUpTo_spec c t.2 t.1 c.num_segments (by omega) (j + 1) (by omega) hj
      have hs' := hotSweepUpTo_spec c' t'.2 t'.1 c'.num_segments (by omega) (j + 1) (by omega)
        (by omega)
      rw [← hotSweep_eq_upTo, Nat.add_sub_cancel] at hs hs'
      rw [hs, hs', ih (by omega), hotUpdate, hotUpdate, hn, hUA, hCh,
        (ht (c.num_segments - (j + 1)) (by omega)).2,
        (ht (c.num_segments - (j + 1) + 1) (by omega)).2, e2]
      ring
  have hcsweep : ∀ k j, j + k = c.num_segments →
      (coldSweep c' (hotSweep c' t'.2 t'.1) t'.2).getD j 0.0
        = (coldSweep c (hotSweep c t.2 t.1) t.2).getD j 0.0 + d := by
    intro k
    induction k with
    | zero =>
      intro j hj
      rw [coldSweep_eq_from, coldSweep_eq_from,
        coldSweepFrom_untouched _ _ _ 0 _ _ (Or.inr (by omega)),
        coldSweepFrom_untouched _ _ _ 0 _ _ (Or.inr (by omega))]
      exact (ht j (by omega)).2
    | succ k ih =>
      intro j hj
      have hs := coldSweepFrom_spec c (hotSweep c t.2 t.1) t.2 0 c.num_segments (by omega) j
        (Nat.zero_le j) (by omega)
      have hs' := coldSweepFrom_spec c' (hotSweep c' t'.2 t'.1) t'.2 0 c'.num_segments
        (by omega) j (Nat.zero_le j) (by omega)
      rw [← coldSweep_eq_from] at hs hs'
      rw [hs, hs', ih (j + 1) (by omega), coldUpdate, coldUpdate, hn, hUA, hCc,
        hsweep (c.num_segments - j - 1) (by omega), hsweep (c.num_segments - j) (by omega), e2]
      ring
  intro i hidx
  constructor
  · rcases Nat.eq_zero_or_pos i with h0 | hpos
    · subst h0
      rw [(iterationBody_boundary c t (by omega) (by omega)).1,
        (iterationBody_boundary c' t' (by omega) (by omega)).1, hhin]
    · rw [iterationBody_hot c t i hpos hidx hl1 hl2,
        iterationBody_hot c' t' i hpos (by omega) (by omega) (by omega), hsweep i hidx,
        (ht i hidx).1, e5, e1]
      ring
  · rcases Nat.lt_or_ge i c.num_segments with hlt | hge
    · rw [iterationBody_cold c t i hlt hl1 hl2,
        iterationBody_cold c' t' i (by omega) (by omega) (by omega),
        hcsweep (c.num_segments - i) i (by omega), (ht i hidx).2, e5, e1]
      ring
    · have hiN : i = c.num_segments := by omega
      subst hiN
      have hb' := (iterationBody_boundary c' t' (by omega) (by omega)).2
      rw [hn] at hb'
      rw [(iterationBody_boundary c t (by omega) (by omega)).2, hb', hcin]

/-- The states after `k` passes from a shifted start are the shifted states
after `k` passes. -/
theorem stateAfter_shift_scale (c c' : LoopConsts α) (d : α)
    (hn : c'.num_segments = c.num_segments) (hUA : c'.UA_segment = c.UA_segment)
    (hCh : c'.C_hot = c.C_hot) (hCc : c'.C_cold = c.C_cold)
    (hhin : c'.hot_inlet = c.hot_inlet + d) (hcin : c'.cold_inlet = c.cold_inlet + d)
    (t t' : List α × List α)
    (hl1 : t.1.length = c.num_segments + 1) (hl2 : t.2.length = c.num_segments + 1)
    (hl1' : t'.1.length = c.num_segments + 1) (hl2' : t'.2.length = c.num_segments + 1)
    (ht : ∀ i, i ≤ c.num_segments →
      t'.1.getD i 0.0 = t.1.getD i 0.0 + d ∧ t'.2.getD i 0.0 = t.2.getD i 0.0 + d)
    (k : Nat) :
    ∀ i, i ≤ c.num_segments →
      (stateAfter c' t' k).1.getD i 0.0 = (stateAfter c t k).1.getD i 0.0 + d
        ∧ (stateAfter c' t' k).2.getD i 0.0 = (stateAfter c t k).2.getD i 0.0 + d := by
  induction k with
  | zero => exact ht
  | succ k ih =>
    rw [stateAfter_succ, stateAfter_succ]
    have hl := stateAfter_length c t k
    have hl' := stateAfter_length c' t' k
    exact iterationBody_shift c c' d hn hUA hCh hCc hhin hcin _ _ (hl.1.trans hl1)
      (hl.2.trans hl2) (hl'.1.trans hl1') (hl'.2.trans hl2') ih

/-- The `max_change` of every pass is the same from a shifted start. -/
theorem changeAt_shift_scale (c c' : LoopConsts α) (d : α)
    (hn : c'.num_segments = c.num_segments) (hUA : c'.UA_segment = c.UA_segment)
    (hCh : c'.C_hot = c.C_hot) (hCc : c'.C_cold = c.C_cold)
    (hhin : c'.hot_inlet = c.hot_inlet + d) (hcin : c'.cold_inlet = c.cold_inlet + d)
    (t t' : List α × List α)
    (hl1 : t.1.length = c.num_segments + 1) (hl2 : t.2.length = c.num_segments + 1)
    (hl1' : t'.1.length = c.num_segments + 1) (hl2' : t'.2.length = c.num_segments + 1)
    (ht : ∀ i, i ≤ c.num_segments →
      t'.1.getD i 0.0 = t.1.getD i 0.0 + d ∧ t'.2.getD i 0.0 = t.2.getD i 0.0 + d)
    (k : Nat) :
    changeAt c' t' k = changeAt c t k := by
  have hs := stateAfter_shift_scale c c' d hn hUA hCh hCc hhin hcin t t' hl1 hl2 hl1' hl2' ht
  unfold changeAt
  apply maxChange_congr c c' hn
  intro i hidx
  rw [(hs k i hidx).1, (hs k i hidx).2, (hs (k - 1) i hidx).1, (hs (k - 1) i hidx).2]
  constructor <;> ring

/-- C32, amended. In exact arithmetic the solve commutes with a shift of the
temperature scale: for every `1 <= N < INT_MAX`, every input and every
constant `d`, adding `d` to the hot inlet, the hot outlet guess, the cold inlet
and the cold outlet guess (all other fields unchanged) gives a call that
returns, like the original one, with hot and cold temperatures that are the
original ones plus `d` at every node, after the same number of passes and with
the same console line, and with identical positions, Reynolds numbers, Nusselt
numbers and heat-transfer coefficients. (On doubles the sums are rounded and
the shifted profile can differ from the original one plus `d`.) -/
theorem solve_commutes_with_shift (m : CMath α) (s : NumericalSolver α) (d : α)
    (hN : 1 ≤ s.num_segments) (hmax : s.num_segments < INT_MAX) :
    ∃ run run',
      solveRun m s = Except.ok run
        ∧ solveRun m
            { s with
              hot_fluid :=
                { s.hot_fluid with
                  inlet_temp := s.hot_fluid.inlet_temp + d,
                  outlet_temp := s.hot_fluid.outlet_temp + d },
              cold_fluid :=
                { s.cold_fluid with
                  inlet_temp := s.cold_fluid.inlet_temp + d,
                  outlet_temp := s.cold_fluid.outlet_temp + d } } = Except.ok run'
        ∧ run'.results.hot_temperatures = run.results.hot_temperatures.map (fun x => x + d)
        ∧ run'.results.cold_temperatures = run.results.cold_temperatures.map (fun x => x + d)
        ∧ run'.iterations = run.iterations
        ∧ run'.console = run.console
        ∧ run'.results.positions = run.results.positions
        ∧ run'.results.overall_htc = run.results.overall_htc
        ∧ run'.results.hot_reynolds = run.results.hot_reynolds
        ∧ run'.results.cold_reynolds = run.results.cold_reynolds
        ∧ run'.results.hot_nusselt = run.results.hot_nusselt
        ∧ run'.results.cold_nusselt = run.results.cold_nusselt
        ∧ run'.results.hot_htc = run.results.hot_htc
        ∧ run'.results.cold_htc = run.results.cold_htc := by
  obtain ⟨s', hs'⟩ : ∃ s' : NumericalSolver α, s' =
      { s with
        hot_fluid :=
          { s.hot_fluid with
            inlet_temp := s.hot_fluid.inlet_temp + d,
            outlet_temp := s.hot_fluid.outlet_temp + d },
        cold_fluid :=
          { s.cold_fluid with
            inlet_temp := s.cold_fluid.inlet_temp + d,
            outlet_temp := s.cold_fluid.outlet_temp + d } } := ⟨_, rfl⟩
  rw [← hs']
  have hn : s'.num_segments = s.num_segments := by rw [hs']
  have hgeo : s'.geometry = s.geometry := by rw [hs']
  have hsetup : setupScalars m s' = setupScalars m s := by rw [hs']; rfl
  have hc1 : (loopConsts m s').num_segments = (loopConsts m s).num_segments := by rw [hs']; rfl
  have hc2 : (loopConsts m s').UA_segment = (loopConsts m s).UA_segment := by rw [hs']; rfl
  have hc3 : (loopConsts m s').C_hot = (loopConsts m s).C_hot := by rw [hs']; rfl
  have hc4 : (loopConsts m s').C_cold = (loopConsts m s).C_cold := by rw [hs']; rfl
  have hc5 : (loopConsts m s').hot_inlet = (loopConsts m s).hot_inlet + d := by rw [hs']; rfl
  have hc6 : (loopConsts m s').cold_inlet = (loopConsts m s).cold_inlet + d := by rw [hs']; rfl
  have hcN : (loopConsts m s).num_segments = s.num_segments.toNat := rfl
  have hinit : ∀ i, i ≤ (loopConsts m s).num_segments →
      (initialTemperatures s').1.getD i 0.0 = (initialTemperatures s).1.getD i 0.0 + d
        ∧ (initialTemperatures s').2.getD i 0.0 = (initialTemperatures s).2.getD i 0.0 + d := by
    intro i hidx
    rw [hcN] at hidx
    obtain ⟨a1, a2⟩ := initialTemperatures_getD s i hidx
    obtain ⟨b1, b2⟩ := initialTemperatures_getD s' i (by rw [hn]; exact hidx)
    rw [a1, a2, b1, b2, hs']
    constructor <;> (simp only; ring)
  have hl := initialTemperatures_length s
  have hl' := initialTemperatures_length s'
  rw [hn] at hl'
  rw [← hcN] at hl hl'
  have hstate := stateAfter_shift_scale (loopConsts m s) (loopConsts m s') d hc1 hc2 hc3 hc4
    hc5 hc6 (initialTemperatures s) (initialTemperatures s') hl.1 hl.2 hl'.1 hl'.2 hinit
  have hchange : ∀ k, solveChange m s' k = solveChange m s k :=
    changeAt_shift_scale (loopConsts m s) (loopConsts m s') d hc1 hc2 hc3 hc4
      hc5 hc6 (initialTemperatures s) (initialTemperatures s') hl.1 hl.2 hl'.1 hl'.2 hinit
  obtain ⟨run, k, hrun, hk1, hk2, hmin, hhot, hcold, hit, hcons⟩ :=
    solveRun_spec m s (by omega) hmax
  obtain ⟨run', k', hrun', hk1', hk2', hmin', hhot', hcold', hit', hcons'⟩ :=
    solveRun_spec m s' (by rw [hn]; omega) (by rw [hn]; exact hmax)
  have hkk : k' = k := by
    rcases Nat.lt_trichotomy k' k with hlt | heq | hgt
    · exfalso
      have hnot := hmin k' hk1' hlt
      rw [← hchange k'] at hnot
      rcases hcons' with ⟨hc, _⟩ | ⟨_, hk, _⟩
      · exact hnot hc
      · omega
    · exact heq
    · exfalso
      have hnot := hmin' k hk1 hgt
      rw [hchange k] at hnot
      rcases hcons with ⟨hc, _⟩ | ⟨_, hk, _⟩
      · exact hnot hc
      · omega
  subst hkk
  have hres := solveRun_results m s run hrun
  have hres' := solveRun_results m s' run' hrun'
  have hlen := solveState_length m s k'
  refine ⟨run, run', hrun, hrun', ?_, ?_, by rw [hit, hit'], ?_, ?_, ?_, ?_, ?_, ?_, ?_, ?_, ?_⟩
  · rw [hhot, hhot']
    refine list_eq_of_getD 0.0 ((solveState_length m s' k').1.trans (by rw [hn]))
      ((List.length_map _ _).trans hlen.1) (fun i hidx => ?_)
    rw [getD_map_of_lt _ _ _ _ (by rw [hlen.1]; exact hidx)]
    exact (hstate k' i (by rw [hcN]; omega)).1
  · rw [hcold, hcold']
    refine list_eq_of_getD 0.0 ((solveState_length m s' k').2.trans (by rw [hn]))
      ((List.length_map _ _).trans hlen.2) (fun i hidx => ?_)
    rw [getD_map_of_lt _ _ _ _ (by rw [hlen.2]; exact hidx)]
    exact (hstate k' i (by rw [hcN]; omega)).2
  · rcases hcons with ⟨hc, h1⟩ | ⟨hc, _, h1⟩ <;> rcases hcons' with ⟨hc', h2⟩ | ⟨hc', _, h2⟩
    · rw [h1, h2]
    · rw [hchange k'] at hc'; exact absurd hc hc'
    · rw [hchange k'] at hc'; exact absurd hc' hc
    · rw [h1, h2]
  · rw [hres, hres', hn, hgeo]
  · rw [hres, hres', hsetup]
  · rw [hres, hres', hsetup]
  · rw [hres, hres', hsetup]
  · rw [hres, hres', hsetup]
  · rw [hres, hres', hsetup]
  · rw [hres, hres', hsetup]
  · rw [hres, hres', hsetup]

/-- Witness of C32 amended: the end-to-end scenario with 50 segments, shifted by
-273.15 (from kelvin to degrees Celsius). -/
theorem solve_commutes_with_shift_witness :
    (1 : Int) ≤ (sampleSolver 50).num_segments ∧ (sampleSolver 50).num_segments < INT_MAX
      ∧ ∃ run run',
          solveRun ratMath (sampleSolver 50) = Except.ok run
            ∧ solveRun ratMath
                { sampleSolver 50 with
                  hot_fluid :=
                    { (sampleSolver 50).hot_fluid with
                      inlet_temp := (sampleSolver 50).hot_fluid.inlet_temp + (-273.15),
                      outlet_temp := (sampleSolver 50).hot_fluid.outlet_temp + (-273.15) },
                  cold_fluid :=
                    { (sampleSolver 50).cold_fluid with
                      inlet_temp := (sampleSolver 50).cold_fluid.inlet_temp + (-273.15),
                      outlet_temp := (sampleSolver 50).cold_fluid.outlet_temp + (-273.15) } }
              = Except.ok run'
            ∧ run'.iterations = run.iterations := by
  obtain ⟨run, run', h1, h2, _, _, h3, _⟩ :=
    solve_commutes_with_shift ratMath (sampleSolver 50) (-273.15) (by decide) (by decide)
  exact ⟨by decide, by decide, run, run', h1, h2, h3⟩

end ShiftInvariance

/-! ## Runs on doubles

The statements of this section are about the program as it runs: the carrier
is `F64`, every operation is rounded as IEEE-754 binary64 rounds it, and the
values are computed by the definitions above. -/

section Doubles

/-- The run on `slowSolver` starts from the hot vector `[353.0, 323.0]` and the
cold vector `[313.0, 293.0]`. -/
theorem slowSolver_initialTemperatures :
    initialTemperatures slowSolver = ([353.0, 323.0], [313.0, 293.0]) := by
  decide!

/-- The run on `slowSolver`, passes 1 to 100: none meets the tolerance. -/
theorem slowSolver_passes_100 :
    (∀ j, 1 ≤ j → j ≤ 100 →
        ¬ changeAt (loopConsts f64Math slowSolver) ([353.0, 323.0], [313.0, 293.0]) j
            < 1e-6)
      ∧ stateAfter (loopConsts f64Math slowSolver) ([353.0, 323.0], [313.0, 293.0]) 100
          = ([353.0, 289.5692237655701], [349.45585858768317, 293.0]) :=
  passes_of_warning (loopConsts f64Math slowSolver) 100 1e-6
    ([353.0, 323.0], [313.0, 293.0])
    ([353.0, 289.5692237655701], [349.45585858768317, 293.0]) (by decide) (by decide!)

/-- The run on `slowSolver`, passes 101 to 200: none meets the tolerance. -/
theorem slowSolver_passes_200 :
    (∀ j, 1 ≤ j → j ≤ 100 →
        ¬ changeAt (loopConsts f64Math slowSolver) ([353.0, 289.5692237655701], [349.45585858768317, 293.0]) j
            < 1e-6)
      ∧ stateAfter (loopConsts f64Math slowSolver) ([353.0, 289.5692237655701], [349.45585858768317, 293.0]) 100
          = ([353.0, 309.4786592911018], [369.32539544482705, 293.0]) :=
  passes_of_warning (loopConsts f64Math slowSolver) 100 1e-6
    ([353.0, 289.5692237655701], [349.45585858768317, 293.0])
    ([353.0, 309.4786592911018], [369.32539544482705, 293.0]) (by decide) (by decide!)

/-- The run on `slowSolver`, passes 201 to 300: none meets the tolerance. -/
theorem slowSolver_passes_300 :
    (∀ j, 1 ≤ j → j ≤ 100 →
        ¬ changeAt (loopConsts f64Math slowSolver) ([353.0, 309.4786592911018], [369.32539544482705, 293.0]) j
            < 1e-6)
      ∧ stateAfter (loopConsts f64Math slowSolver) ([353.0, 309.4786592911018], [369.32539544482705, 293.0]) 100
          = ([353.0, 320.3298990727134], [380.1548892549323, 293.0]) :=
  passes_of_warning (loopConsts f64Math slowSolver) 100 1e-6
    ([353.0, 309.4786592911018], [369.32539544482705, 293.0])
    ([353.0, 320.3298990727134], [380.1548892549323, 293.0]) (by decide) (by decide!)

/-- The run on `slowSolver`, passes 301 to 400: none meets the tolerance. -/
theorem slowSolver_passes_400 :
    (∀ j, 1 ≤ j → j ≤ 100 →
        ¬ changeAt (loopConsts f64Math slowSolver) ([353.0, 320.3298990727134], [380.1548892549323, 293.0]) j
            < 1e-6)
      ∧ stateAfter (loopConsts f64Math slowSolver) ([353.0, 320.3298990727134], [380.1548892549323, 293.0]) 100
          = ([353.0, 326.244150365626], [386.05728834084516, 293.0]) :=
  passes_of_warning (loopConsts f64Math slowSolver) 100 1e-6
    ([353.0, 320.3298990727134], [380.1548892549323, 293.0])
    ([353.0, 326.244150365626], [386.05728834084516, 293.0]) (by decide) (by decide!)

/-- The run on `slowSolver`, passes 401 to 500: none meets the tolerance. -/
theorem slowSolver_passes_500 :
    (∀ j, 1 ≤ j → j ≤ 100 →
        ¬ changeAt (loopConsts f64Math slowSolver) ([353.0, 326.244150365626], [386.05728834084516, 293.0]) j
            < 1e-6)
      ∧ stateAfter (loopConsts f64Math slowSolver) ([353.0, 326.244150365626], [386.05728834084516, 293.0]) 100
          = ([353.0, 329.4675947885379], [389.27427295529435, 293.0]) :=
  passes_of_warning (loopConsts f64Math slowSolver) 100 1e-6
    ([353.0, 326.244150365626], [386.05728834084516, 293.0])
    ([353.0, 329.4675947885379], [389.27427295529435, 293.0]) (by decide) (by decide!)

/-- The run on `slowSolver`, passes 501 to 600: none meets the tolerance. -/
theorem slowSolver_passes_600 :
    (∀ j, 1 ≤ j → j ≤ 100 →
        ¬ changeAt (loopConsts f64Math slowSolver) ([353.0, 329.4675947885379], [389.27427295529435, 293.0]) j
            < 1e-6)
      ∧ stateAfter (loopConsts f64Math slowSolver) ([353.0, 329.4675947885379], [389.27427295529435, 293.0]) 100
          = ([353.0, 331.2244687245595], [391.02762610186494, 293.0]) :=
  passes_of_warning (loopConsts f64Math slowSolver) 100 1e-6
    ([353.0, 329.4675947885379], [389.27427295529435, 293.0])
    ([353.0, 331.2244687245595], [391.02762610186494, 293.0]) (by decide) (by decide!)

/-- The run on `slowSolver`, passes 601 to 700: none meets the tolerance. -/
theorem slowSolver_passes_700 :
    (∀ j, 1 ≤ j → j ≤ 100 →
        ¬ changeAt (loopConsts f64Math slowSolver) ([353.0, 331.2244687245595], [391.02762610186494, 293.0]) j
            < 1e-6)
      ∧ stateAfter (loopConsts f64Math slowSolver) ([353.0, 331.2244687245595], [391.02762610186494, 293.0]) 100
          = ([353.0, 332.18201773801013], [391.9832561794169, 293.0]) :=
  passes_of_warning (loopConsts f64Math slowSolver) 100 1e-6
    ([353.0, 331.2244687245595], [391.02762610186494, 293.0])
    ([353.0, 332.18201773801013], [391.9832561794169, 293.0]) (by decide) (by decide!)

/-- The run on `slowSolver`, passes 701 to 800: none meets the tolerance. -/
theorem slowSolver_passes_800 :
    (∀ j, 1 ≤ j → j ≤ 100 →
        ¬ changeAt (loopConsts f64Math slowSolver) ([353.0, 332.18201773801013], [391.9832561794169, 293.0]) j
            < 1e-6)
      ∧ stateAfter (loopConsts f64Math slowSolver) ([353.0, 332.18201773801013], [391.9832561794169, 293.0]) 100
          = ([353.0, 332.7039106834069], [392.5041032471676, 293.0]) :=
  passes_of_warning (loopConsts f64Math slowSolver) 100 1e-6
    ([353.0, 332.18201773801013], [391.9832561794169, 293.0])
    ([353.0, 332.7039106834069], [392.5041032471676, 293.0]) (by decide) (by decide!)

/-- The run on `slowSolver`, passes 801 to 900: none meets the tolerance. -/
theorem slowSolver_passes_900 :
    (∀ j, 1 ≤ j → j ≤ 100 →
        ¬ changeAt (loopConsts f64Math slowSolver) ([353.0, 332.7039106834069], [392.5041032471676, 293.0]) j
            < 1e-6)
      ∧ stateAfter (loopConsts f64Math slowSolver) ([353.0, 332.7039106834069], [392.5041032471676, 293.0]) 100
          = ([353.0, 332.9883579990308], [392.78798052809094, 293.0]) :=
  passes_of_warning (loopConsts f64Math slowSolver) 100 1e-6
    ([353.0, 332.7039106834069], [392.5041032471676, 293.0])
    ([353.0, 332.9883579990308], [392.78798052809094, 293.0]) (by decide) (by decide!)

/-- The run on `slowSolver`, passes 901 to 1000: none meets the tolerance. -/
theorem slowSolver_passes_1000 :
    (∀ j, 1 ≤ j → j ≤ 100 →
        ¬ changeAt (loopConsts f64Math slowSolver) ([353.0, 332.9883579990308], [392.78798052809094, 293.0]) j
            < 1e-6)
      ∧ stateAfter (loopConsts f64Math slowSolver) ([353.0, 332.9883579990308], [392.78798052809094, 293.0]) 100
          = ([353.0, 333.1433903214248], [392.9427021644681, 293.0]) :=
  passes_of_warning (loopConsts f64Math slowSolver) 100 1e-6
    ([353.0, 332.9883579990308], [392.78798052809094, 293.0])
    ([353.0, 333.1433903214248], [392.9427021644681, 293.0]) (by decide) (by decide!)

/-- The run on `slowSolver`: none of the 1000 passes meets the tolerance, and
the state after them is hot `[353.0, 333.1433903214248]`, cold
`[392.9427021644681, 293.0]`. -/
theorem slowSolver_passes :
    (∀ j, 1 ≤ j → j ≤ 1000 → ¬ solveChange f64Math slowSolver j < 1e-6)
      ∧ solveState f64Math slowSolver 1000 = ([353.0, 333.1433903214248], [392.9427021644681, 293.0]) := by
  have h2 := passes_chain _ _ _ _ _ 100 100 slowSolver_passes_100 slowSolver_passes_200
  have h3 := passes_chain _ _ _ _ _ 200 100 h2 slowSolver_passes_300
  have h4 := passes_chain _ _ _ _ _ 300 100 h3 slowSolver_passes_400
  have h5 := passes_chain _ _ _ _ _ 400 100 h4 slowSolver_passes_500
  have h6 := passes_chain _ _ _ _ _ 500 100 h5 slowSolver_passes_600
  have h7 := passes_chain _ _ _ _ _ 600 100 h6 slowSolver_passes_700
  have h8 := passes_chain _ _ _ _ _ 700 100 h7 slowSolver_passes_800
  have h9 := passes_chain _ _ _ _ _ 800 100 h8 slowSolver_passes_900
  have h10 := passes_chain _ _ _ _ _ 900 100 h9 slowSolver_passes_1000
  unfold solveChange solveState
  rw [slowSolver_initialTemperatures]
  exact h10

/-- The run on `slowSolver`: the loop is left after 1000 passes with the
warning on the console. -/
theorem slowSolver_finalLoopState :
    (finalLoopState f64Math slowSolver).hot_temperatures = [353.0, 333.1433903214248]
      ∧ (finalLoopState f64Math slowSolver).cold_temperatures = [392.9427021644681, 293.0]
      ∧ (finalLoopState f64Math slowSolver).console = [ConsoleLine.max_iterations_warning] := by
  obtain ⟨h1, h2, h3⟩ := finalLoopState_of_no_convergence f64Math slowSolver (by decide)
    (by decide) slowSolver_passes.1
  rw [slowSolver_passes.2] at h1 h2
  exact ⟨h1, h2, h3⟩

/-- The run on `settledSolver`: the first pass meets the tolerance and leaves
the vectors of the run on `slowSolver`. -/
theorem settledSolver_finalLoopState :
    (finalLoopState f64Math settledSolver).hot_temperatures = [353.0, 333.1433903214248]
      ∧ (finalLoopState f64Math settledSolver).cold_temperatures = [392.9427021644681, 293.0]
      ∧ solveChange f64Math settledSolver 1 < 1e-6 := by
  decide!

/-- C10, refuted as stated, on doubles: two calls return the very same record,
with hot profile `[353.0, 333.1433903214248]` and cold profile
`[392.9427021644681, 293.0]`, and in one of them no pass among the 1000 met
the tolerance while in the other the first pass did. The record therefore
carries no convergence status. The two inputs differ in the hot specific heat
and in the outlet guesses, none of which the record holds. -/
theorem same_record_with_and_without_convergence :
    solveTemperatureDistribution f64Math slowSolver
        = solveTemperatureDistribution f64Math settledSolver
      ∧ (∃ r, solveTemperatureDistribution f64Math slowSolver = Except.ok r
          ∧ r.hot_temperatures = [353.0, 333.1433903214248]
          ∧ r.cold_temperatures = [392.9427021644681, 293.0])
      ∧ (∀ j, 1 ≤ j → j ≤ 1000 → ¬ solveChange f64Math slowSolver j < 1e-6)
      ∧ solveChange f64Math settledSolver 1 < 1e-6 := by
  have hA := slowSolver_finalLoopState
  have hB := settledSolver_finalLoopState
  have hN : (0 : Int) ≤ settledSolver.num_segments := by decide
  have hmax : settledSolver.num_segments < INT_MAX := by decide
  have hN' : (0 : Int) ≤ slowSolver.num_segments := by decide
  have hmax' : slowSolver.num_segments < INT_MAX := by decide
  have hs : setupScalars f64Math slowSolver = setupScalars f64Math settledSolver := by
    simp only [setupScalars, slowSolver, settledSolver, f64Hot, f64Cold]
  obtain ⟨r, hr, hrh, hrc⟩ := solve_ok_final f64Math slowSolver hN' hmax'
  exact ⟨solve_eq_of_final_eq f64Math settledSolver slowSolver hN hmax rfl rfl hs
      (hA.1.trans hB.1.symm) (hA.2.1.trans hB.2.1.symm),
    ⟨r, hr, hrh.trans hA.1, hrc.trans hA.2.1⟩,
    no_pass_converged_of_warning f64Math slowSolver hN' hmax' hA.2.2, hB.2.2⟩

/-- C6, refuted as stated, on doubles: with one segment on a length of 200 the
iteration diverges; after pass 124 the hot outlet node and the cold outlet
node are minus infinity, and pass 125 leaves them there. In pass 125 the
absolute difference at the hot outlet node is a NaN, which is neither below
`1e-6` nor bounded by the computed `max_change`; `std::max` passes over it,
the computed `max_change` is 0.0, and the call returns after 125 passes with
the line "Converged after 125 iterations". The loop has ended at a pass in
which the largest absolute node difference is not below `1e-6`. -/
theorem float_divergence_reported_converged :
    (1 : Int) ≤ divergingSolver.num_segments
      ∧ ∃ run, solveRun f64Math divergingSolver = Except.ok run
          ∧ run.iterations = 125
          ∧ run.console = [ConsoleLine.converged 125]
          ∧ run.results.hot_temperatures = [353.0, F64.inf true]
          ∧ run.results.cold_temperatures = [F64.inf true, 293.0]
          ∧ solveState f64Math divergingSolver 124
              = ([353.0, F64.inf true], [F64.inf true, 293.0])
          ∧ solveState f64Math divergingSolver 125
              = ([353.0, F64.inf true], [F64.inf true, 293.0])
          ∧ solveChange f64Math divergingSolver 125 = 0.0
          ∧ stdAbs ((solveState f64Math divergingSolver 125).1.getD 1 0.0
                - (solveState f64Math divergingSolver 124).1.getD 1 0.0) = F64.nan
          ∧ ¬ stdAbs ((solveState f64Math divergingSolver 125).1.getD 1 0.0
                - (solveState f64Math divergingSolver 124).1.getD 1 0.0)
              ≤ solveChange f64Math divergingSolver 125
          ∧ ¬ stdAbs ((solveState f64Math divergingSolver 125).1.getD 1 0.0
                - (solveState f64Math divergingSolver 124).1.getD 1 0.0) < 1e-6 := by
  refine ⟨by decide, _, solveRun_eq f64Math divergingSolver (by decide) (by decide), ?_⟩
  decide!

/-- C15, refuted as stated, on doubles: with a length of 2.0 and 49 segments
the record returned has `positions[49] = 49 * (2.0 / 49) = 1.9999999999999998`,
which is not the length, and the steps from `positions[2]` to `positions[3]`
and from `positions[3]` to `positions[4]` differ. -/
theorem float_positions_miss_length :
    (1 : Int) ≤ positionsSolver.num_segments
      ∧ ∃ r, solveTemperatureDistribution f64Math positionsSolver = Except.ok r
          ∧ r.positions.length = 50
          ∧ r.positions.getD 49 0.0 = 1.9999999999999998
          ∧ r.positions.getD 49 0.0 ≠ positionsSolver.geometry.length
          ∧ r.positions.getD 3 0.0 - r.positions.getD 2 0.0
              ≠ r.positions.getD 4 0.0 - r.positions.getD 3 0.0 := by
  refine ⟨by decide, _, solveTemperatureDistribution_of_run _ _ _
    (solveRun_eq f64Math positionsSolver (by decide) (by decide)), ?_⟩
  decide!

/-- C26, refuted as stated, on doubles: with two segments, hot inlet 873.15 and
outlet guess 300.2, cold inlet 107.8 and outlet guess 295.5, the state before
the first pass has `hot[2] = 300.19999999999993`, not the hot outlet guess,
and `cold[2] = 107.80000000000001`, not the cold inlet temperature. -/
theorem float_initial_guess_misses_ends :
    (1 : Int) ≤ driftSolver.num_segments
      ∧ solveState f64Math driftSolver 0
          = ([873.15, 586.675, 300.19999999999993], [295.5, 201.65, 107.80000000000001])
      ∧ (solveState f64Math driftSolver 0).1.getD 2 0.0 ≠ driftSolver.hot_fluid.outlet_temp
      ∧ (solveState f64Math driftSolver 0).2.getD 2 0.0 ≠ driftSolver.cold_fluid.inlet_temp := by
  decide!

/-- C27. The second boundary re-imposition is needed, because relaxation can
leave a boundary node away from its inlet temperature: on doubles, for the
input `driftSolver` (two segments, cold inlet 107.8 with outlet guess 295.5),
the state right after the relaxation loop of the first pass has
`cold[2] = 107.80000000000001`, which is not the cold inlet temperature, and
the pass ends in another state than the relaxation loop left. The call returns
the cold profile `[303.2577424466375, 218.80119695862848, 107.8]`. Passes that
end right after the relaxation loop, lines 147-148 left out, are the iterates
of `relaxedState`: from the same initial guess their `max_change` is below
`1e-6` for the first time in pass 29, and the state they have reached then has
the cold profile `[303.2577424466375, 218.8011969586285, 107.80000000000001]`,
so that removing the re-imposition changes the returned profile. -/
theorem relaxation_moves_boundary :
    (1 : Int) ≤ driftSolver.num_segments
      ∧ (relaxedState (loopConsts f64Math driftSolver)
            (solveState f64Math driftSolver 0)).2.getD driftSolver.num_segments.toNat 0.0
          = 107.80000000000001
      ∧ (relaxedState (loopConsts f64Math driftSolver)
            (solveState f64Math driftSolver 0)).2.getD driftSolver.num_segments.toNat 0.0
          ≠ driftSolver.cold_fluid.inlet_temp
      ∧ solveState f64Math driftSolver 1
          ≠ relaxedState (loopConsts f64Math driftSolver) (solveState f64Math driftSolver 0)
      ∧ (∃ r, solveTemperatureDistribution f64Math driftSolver = Except.ok r
          ∧ r.hot_temperatures = [873.15, 801.1266023603646, 746.3267664858438]
          ∧ r.cold_temperatures = [303.2577424466375, 218.80119695862848, 107.8]
          ∧ r.cold_temperatures
              ≠ ((relaxedState (loopConsts f64Math driftSolver))^[29]
                  (initialTemperatures driftSolver)).2)
      ∧ (∀ j, j < 28 →
          ¬ maxChange (loopConsts f64Math driftSolver)
              ((relaxedState (loopConsts f64Math driftSolver))^[j]
                (initialTemperatures driftSolver)).1
              ((relaxedState (loopConsts f64Math driftSolver))^[j]
                (initialTemperatures driftSolver)).2
              ((relaxedState (loopConsts f64Math driftSolver))^[j + 1]
                (initialTemperatures driftSolver)).1
              ((relaxedState (loopConsts f64Math driftSolver))^[j + 1]
                (initialTemperatures driftSolver)).2 < 1e-6)
      ∧ maxChange (loopConsts f64Math driftSolver)
            ((relaxedState (loopConsts f64Math driftSolver))^[28]
              (initialTemperatures driftSolver)).1
            ((relaxedState (loopConsts f64Math driftSolver))^[28]
              (initialTemperatures driftSolver)).2
            ((relaxedState (loopConsts f64Math driftSolver))^[29]
              (initialTemperatures driftSolver)).1
            ((relaxedState (loopConsts f64Math driftSolver))^[29]
              (initialTemperatures driftSolver)).2 < 1e-6
      ∧ (relaxedState (loopConsts f64Math driftSolver))^[29] (initialTemperatures driftSolver)
          = ([873.15, 801.1266023603646, 746.3267664858438],
              [303.2577424466375, 218.8011969586285, 107.80000000000001]) := by
  refine ⟨by decide, ?_, ?_, ?_, ⟨_, solveTemperatureDistribution_of_run _ _ _
    (solveRun_eq f64Math driftSolver (by decide) (by decide)), ?_⟩, ?_, ?_, ?_⟩
  · decide!
  · decide!
  · decide!
  · decide!
  · decide!
  · decide!
  · decide!

/-- C31, refuted as stated, on doubles: for the input `boundsSolver` (one
segment) `UA_segment` lies between 0 and both capacity rates, the capacity
rates are positive, and the hot inlet 873.15, the hot outlet guess 300.2, the
cold inlet 310 and the cold outlet guess 500 all lie in `[300.2, 873.15]`; yet
after initialisation `hot[1] = 300.19999999999993`, below 300.2. -/
theorem float_initial_guess_leaves_interval :
    (1 : Int) ≤ boundsSolver.num_segments
      ∧ (0.0 : F64) ≤ (loopConsts f64Math boundsSolver).UA_segment
      ∧ (loopConsts f64Math boundsSolver).UA_segment ≤ (loopConsts f64Math boundsSolver).C_hot
      ∧ (loopConsts f64Math boundsSolver).UA_segment ≤ (loopConsts f64Math boundsSolver).C_cold
      ∧ (0.0 : F64) < (loopConsts f64Math boundsSolver).C_hot
      ∧ (0.0 : F64) < (loopConsts f64Math boundsSolver).C_cold
      ∧ ((300.2 : F64) ≤ boundsSolver.hot_fluid.inlet_temp
          ∧ boundsSolver.hot_fluid.inlet_temp ≤ 873.15)
      ∧ ((300.2 : F64) ≤ boundsSolver.hot_fluid.outlet_temp
          ∧ boundsSolver.hot_fluid.outlet_temp ≤ 873.15)
      ∧ ((300.2 : F64) ≤ boundsSolver.cold_fluid.inlet_temp
          ∧ boundsSolver.cold_fluid.inlet_temp ≤ 873.15)
      ∧ ((300.2 : F64) ≤ boundsSolver.cold_fluid.outlet_temp
          ∧ boundsSolver.cold_fluid.outlet_temp ≤ 873.15)
      ∧ (solveState f64Math boundsSolver 0).1.getD 1 0.0 = 300.19999999999993
      ∧ (solveState f64Math boundsSolver 0).1.getD 1 0.0 < 300.2
      ∧ ¬ (300.2 : F64) ≤ (solveState f64Math boundsSolver 0).1.getD 1 0.0 := by
  decide!

/-- C32, refuted as stated, on doubles: the input `kelvinSolver` and the same
input with -273.15 added to its four temperatures both converge after 24
passes, but the shifted call returns the cold profile
`[36.51765984760841, 19.850000000000023]` while the original cold profile
`[309.6676598476084, 293.0]` plus -273.15 is
`[36.5176598476084, 19.850000000000023]`. -/
theorem float_shift_changes_profile :
    (1 : Int) ≤ kelvinSolver.num_segments
      ∧ ∃ run run', solveRun f64Math kelvinSolver = Except.ok run
          ∧ solveRun f64Math celsiusSolver = Except.ok run'
          ∧ run.iterations = 24 ∧ run'.iterations = 24
          ∧ run.results.cold_temperatures = [309.6676598476084, 293.0]
          ∧ run.results.cold_temperatures.map (fun x => x + (-273.15))
              = [36.5176598476084, 19.850000000000023]
          ∧ run'.results.cold_temperatures = [36.51765984760841, 19.850000000000023]
          ∧ run'.results.cold_temperatures
              ≠ run.results.cold_temperatures.map (fun x => x + (-273.15)) := by
  refine ⟨by decide, _, _, solveRun_eq f64Math kelvinSolver (by decide) (by decide),
    solveRun_eq f64Math celsiusSolver (by decide) (by decide), ?_⟩
  decide!

/-- C35, refuted as stated, on doubles: for hot inlet 800.0000015, hot outlet
800, cold inlet 300 and cold outlet 300 both end differences are positive
(500.00000150000005 and 500), and `LMTD_counterCurrent` returns
500.00001407267627, above both. -/
theorem float_lmtd_above_end_differences :
    (0.0 : F64) < 800.0000015 - 300.0 ∧ (0.0 : F64) < 800.0 - 300.0
      ∧ LMTD_counterCurrent f64Math 800.0000015 800.0 300.0 300.0 = 500.00001407267627
      ∧ (800.0000015 - 300.0 : F64) < LMTD_counterCurrent f64Math 800.0000015 800.0 300.0 300.0
      ∧ (800.0 - 300.0 : F64) < LMTD_counterCurrent f64Math 800.0000015 800.0 300.0 300.0 := by
  decide!

/-- C36, refuted as stated, on doubles: for `NTU = 50`, `C_ratio = 0` and the
counter-current arrangement the value returned is `1 - exp(-50)`, which is
rounded to 1.0: the effectiveness is not below 1. -/
theorem float_effectiveness_reaches_one :
    (0.0 : F64) ≤ 50.0 ∧ (0.0 : F64) ≤ 0.0 ∧ (0.0 : F64) ≤ 1.0
      ∧ effectiveness_NTU f64Math 50.0 0.0 0 = 1.0
      ∧ ¬ effectiveness_NTU f64Math 50.0 0.0 0 < 1.0 := by
  have h : effectiveness_NTU f64Math 50.0 0.0 0 = 1.0 - f64Math.exp (-50.0) := by
    rw [effectiveness_NTU, if_pos (by decide!)]
  rw [h]
  decide!

end Doubles

end ThermoCore
